import Mathlib

/-!
# ColorBanding: frame pipeline synchronizer and texture upload protocol

A shallow embedding of `src/src/Graphics.cpp`, `src/src/Utils.cpp`,
`src/src/UI.cpp` and `src/src/main.cpp`.

Modelling conventions.

* The Direct3D objects behind the pointers of `D3D12Global` (fence, command
  queue, swap chain, command list) are represented by the part of their state
  the program can observe: the fence by its completed value, the queue by the
  entries the GPU has not retired yet, the swap chain by its current back-buffer
  index, the command list by the commands recorded since its last reset.
* Every API call that matters for synchronisation is appended to `trace`.
* The GPU runs concurrently with the CPU.  Its progress is an input of the
  model: `gpuAdvance g` retires `g` further queue entries, and the functions
  take the progress made at each point as an argument.
* `UINT64` fence values are natural numbers (they grow by one per call, the
  64-bit range cannot be exhausted); 32-bit `int`/`UINT` arithmetic on image
  sizes is modelled modulo `2^32`.
* Error handling is followed on a `Process`: the message boxes, the quit
  message and the API calls in program order.  The codes the API returns are
  inputs.  An output pointer holds an object exactly when the call that fills
  it succeeded; a call through a pointer that holds none stops the process.
* A descriptor handle is the heap it was taken from and its address; where the
  heaps lie and how large their increments are is an input (`HeapLayout`).
* The command line is the list of wide tokens `CommandLineToArgvW` returns.
  The parser converts each token into the array `char str[256]` with
  `wcstombs`, ignores the result and compares what the array then holds; the
  array is followed byte by byte.  Reading `argv` at an index that is not
  below `argc`, reading an element of `str` that was never written, and a
  number `atoi` cannot represent are undefined behaviour.
* `float` values are represented by the numbers they stand for; the conversion
  of an `int` rounds to 24 significant bits.
-/

namespace ColorBanding

/-! ## Direct3D objects -/

/-- API calls recorded in the trace, in program order.  `executeCommandLists a`
carries the allocator the executed list was recorded with; `getCompletedValue`
carries the value the fence reported and the target it is compared with;
`resetAllocator` carries the completed value of the fence and whether the
queue still held work of that allocator at the moment of the call. -/
inductive Event where
  | close
  | executeCommandLists (alloc : Fin 2)
  | signal (value : Nat)
  | getCurrentBackBufferIndex (index : Fin 2)
  | getCompletedValue (value target : Nat)
  | setEventOnCompletion (value : Nat)
  | waitForSingleObject
  | present
  | resetAllocator (alloc : Fin 2) (completed : Nat) (busy : Bool)
  | resetCommandList (alloc : Fin 2)
  deriving DecidableEq, Repr

/-- Resources named by the program (`D3D12Global::backBuffer`, `D3D12Resources`). -/
inductive Resource where
  | backBuffer (index : Fin 2)
  | bandingCB
  | blueNoise
  | blueNoiseUploadResource
  | blueNoiseArray
  | blueNoiseArrayUploadResource
  deriving DecidableEq, Repr

/-- The members of `D3D12_RESOURCE_STATES` the program uses. -/
inductive ResourceState where
  | COMMON
  | COPY_DEST
  | PIXEL_SHADER_RESOURCE
  | RENDER_TARGET
  | PRESENT
  | GENERIC_READ
  deriving DecidableEq, Repr

/-- The descriptor heaps of `D3D12Resources`. -/
inductive Heap where
  | rtvHeap
  | descriptorHeap
  | uiDescriptorHeap
  deriving DecidableEq, Repr

/-- The value of `D3D12_RESOURCE_BARRIER_ALL_SUBRESOURCES`. -/
def D3D12_RESOURCE_BARRIER_ALL_SUBRESOURCES : Nat := 0xffffffff

/-- The fields of `D3D12_PLACED_SUBRESOURCE_FOOTPRINT` (the format is always
`DXGI_FORMAT_R8G8B8A8_UNORM`, recorded as the flag `formatRGBA8`). -/
structure PlacedFootprint where
  Offset : Nat
  formatRGBA8 : Bool
  Width : Nat
  Height : Nat
  Depth : Nat
  RowPitch : Nat
  deriving DecidableEq, Repr

/-- Commands recorded into `d3d.cmdList`. -/
inductive Command where
  | ResourceBarrier (resource : Resource) (StateBefore StateAfter : ResourceState)
      (Subresource : Nat)
  | CopyTextureRegion (dest : Resource) (SubresourceIndex : Nat) (src : Resource)
      (PlacedFootprint : PlacedFootprint)
  | OMSetRenderTargets (heap : Heap) (index : Nat)
  | SetDescriptorHeaps (heap : Heap)
  | SetGraphicsRootSignature
  | SetGraphicsRootConstantBufferView (slot : Nat) (resource : Resource)
  | SetGraphicsRootDescriptorTable (slot : Nat) (heap : Heap)
  | SetPipelineState
  | IASetPrimitiveTopology
  | RSSetViewports
  | RSSetScissorRects
  | DrawInstanced (VertexCountPerInstance InstanceCount StartVertexLocation
      StartInstanceLocation : Nat)
  | ImGuiRenderDrawData
  deriving DecidableEq, Repr

/-- The synchronisation state of `struct D3D12Global` (Structures.h), with the
objects behind its pointers replaced by their observable state.  The defaults
are the member initialisers of the struct. -/
structure D3D12Global where
  /-- `UINT frameIndex = 0`. -/
  frameIndex : Fin 2 := 0
  /-- `UINT64 fenceValues[2] = { 0, 0 }`. -/
  fenceValues : Fin 2 → Nat := fun _ => 0
  /-- `fence`: the value `GetCompletedValue` reports. -/
  fenceCompleted : Nat := 0
  /-- `cmdQueue`: entries submitted and not yet retired by the GPU, oldest first. -/
  cmdQueue : List Event := []
  /-- `swapChain`: its current back-buffer index. -/
  swapChainIndex : Fin 2 := 0
  /-- `cmdList`: commands recorded since the last reset. -/
  cmdList : List Command := []
  /-- `cmdList`: the allocator the list records into. -/
  cmdListAlloc : Fin 2 := 0
  /-- Every API call made so far. -/
  trace : List Event := []

/-! ## The GPU side -/

/-- The fence value after the GPU retires one queue entry: a signal sets the
fence, everything else leaves it alone. -/
def retire (e : Event) (completed : Nat) : Nat :=
  match e with
  | .signal v => v
  | _ => completed

/-- The GPU retires up to `g` further queue entries. -/
def gpuAdvance : Nat → D3D12Global → D3D12Global
  | 0, d3d => d3d
  | g + 1, d3d =>
    match d3d.cmdQueue with
    | [] => d3d
    | e :: rest =>
      gpuAdvance g { d3d with fenceCompleted := retire e d3d.fenceCompleted, cmdQueue := rest }

/-- Blocking until the fence reaches `target`: the GPU retires queue entries
until the completed value is at least `target`.  `none` when the queue runs
empty first: the wait never returns. -/
def waitFence (target : Nat) : Nat → List Event → Option (Nat × List Event)
  | completed, [] => if target ≤ completed then some (completed, []) else none
  | completed, e :: rest =>
    if target ≤ completed then some (completed, e :: rest)
    else waitFence target (retire e completed) rest

/-- `SetEventOnCompletion(value, fenceEvent)` followed by
`WaitForSingleObjectEx(fenceEvent, INFINITE, FALSE)`. -/
def WaitForFence (value : Nat) (d3d : D3D12Global) : Option D3D12Global :=
  match waitFence value d3d.fenceCompleted d3d.cmdQueue with
  | none => none
  | some (completed, rest) =>
    some { d3d with
      fenceCompleted := completed
      cmdQueue := rest
      trace := d3d.trace ++ [.setEventOnCompletion value, .waitForSingleObject] }

/-! ## API calls -/

/-- `d3d.cmdList->Close()`. -/
def Close (d3d : D3D12Global) : D3D12Global :=
  { d3d with trace := d3d.trace ++ [.close] }

/-- `d3d.cmdQueue->ExecuteCommandLists(1, &pGraphicsList)`. -/
def ExecuteCommandLists (d3d : D3D12Global) : D3D12Global :=
  { d3d with
    cmdQueue := d3d.cmdQueue ++ [.executeCommandLists d3d.cmdListAlloc]
    trace := d3d.trace ++ [.executeCommandLists d3d.cmdListAlloc] }

/-- `d3d.cmdQueue->Signal(d3d.fence, value)`. -/
def Signal (value : Nat) (d3d : D3D12Global) : D3D12Global :=
  { d3d with
    cmdQueue := d3d.cmdQueue ++ [.signal value]
    trace := d3d.trace ++ [.signal value] }

/-- `d3d.fenceValues[d3d.frameIndex]++`. -/
def incrementFenceValue (d3d : D3D12Global) : D3D12Global :=
  { d3d with
    fenceValues := Function.update d3d.fenceValues d3d.frameIndex
      (d3d.fenceValues d3d.frameIndex + 1) }

/-! ## `namespace D3D12` (Graphics.cpp) -/

/-- `D3D12::Create_CommandList`: the list is created on `cmdAlloc[frameIndex]`
and closed. -/
def Create_CommandList (d3d : D3D12Global) : D3D12Global :=
  Close { d3d with cmdListAlloc := d3d.frameIndex, cmdList := [] }

/-- `D3D12::Create_SwapChain`: a two-buffer swap chain is created and
`frameIndex` is set to its current back-buffer index.  `first` is the index the
new swap chain reports. -/
def Create_SwapChain (first : Fin 2) (d3d : D3D12Global) : D3D12Global :=
  { d3d with
    swapChainIndex := first
    frameIndex := first
    trace := d3d.trace ++ [.getCurrentBackBufferIndex first] }

/-- `D3D12::Create_Fence`: the fence is created with value 0 and the target of
the current slot is incremented. -/
def Create_Fence (d3d : D3D12Global) : D3D12Global :=
  incrementFenceValue { d3d with fenceCompleted := 0 }

/-- `D3D12::Reset_CommandList`: resets `cmdAlloc[frameIndex]`, then resets the
command list onto that allocator. -/
def Reset_CommandList (d3d : D3D12Global) : D3D12Global :=
  { d3d with
    cmdListAlloc := d3d.frameIndex
    cmdList := []
    trace := d3d.trace ++
      [.resetAllocator d3d.frameIndex d3d.fenceCompleted
          (decide (Event.executeCommandLists d3d.frameIndex ∈ d3d.cmdQueue)),
       .resetCommandList d3d.frameIndex] }

/-- `D3D12::Submit_CmdList`. -/
def Submit_CmdList (d3d : D3D12Global) : D3D12Global :=
  let d3d := Close d3d
  let d3d := ExecuteCommandLists d3d
  let d3d := incrementFenceValue d3d
  Signal (d3d.fenceValues d3d.frameIndex) d3d

/-- `D3D12::Present`: the swap chain presents and `next` becomes its current
back buffer. -/
def Present (next : Fin 2) (d3d : D3D12Global) : D3D12Global :=
  { d3d with swapChainIndex := next, trace := d3d.trace ++ [.present] }

/-- `D3D12::WaitForGPU`: signal the current target, block until the fence has
reached it, increment the target. -/
def WaitForGPU (d3d : D3D12Global) : Option D3D12Global :=
  let d3d := Signal (d3d.fenceValues d3d.frameIndex) d3d
  match WaitForFence (d3d.fenceValues d3d.frameIndex) d3d with
  | none => none
  | some d3d => some (incrementFenceValue d3d)

/-- `D3D12::MoveToNextFrame`.  `g` is the number of queue entries the GPU
retires between the `Signal` call and the `GetCompletedValue` call. -/
def MoveToNextFrame (g : Nat) (d3d : D3D12Global) : Option D3D12Global :=
  let currentFenceValue := d3d.fenceValues d3d.frameIndex
  let d3d := Signal currentFenceValue d3d
  let d3d := { d3d with
    frameIndex := d3d.swapChainIndex
    trace := d3d.trace ++ [.getCurrentBackBufferIndex d3d.swapChainIndex] }
  let d3d := gpuAdvance g d3d
  let d3d := { d3d with
    trace := d3d.trace ++
      [.getCompletedValue d3d.fenceCompleted (d3d.fenceValues d3d.frameIndex)] }
  let waited :=
    if d3d.fenceCompleted < d3d.fenceValues d3d.frameIndex then
      WaitForFence (d3d.fenceValues d3d.frameIndex) d3d
    else some d3d
  match waited with
  | none => none
  | some d3d =>
    some { d3d with
      fenceValues := Function.update d3d.fenceValues d3d.frameIndex (currentFenceValue + 1) }

/-! ## 32-bit arithmetic -/

/-- Conversion of an integer value to `UINT` (`unsigned int`): reduction modulo `2^32`. -/
def toUINT (x : Int) : Nat := (x % 4294967296).toNat

/-- The value an `int` holds after an arithmetic result or a conversion from
`UINT`: two's-complement wrap-around into `[-2^31, 2^31)`. -/
def toINT (x : Int) : Int := (x + 2147483648) % 4294967296 - 2147483648

/-- Conversion of an `int` to `size_t` / `UINT64`: reduction modulo `2^64`. -/
def toUINT64 (x : Int) : Nat := (x % 18446744073709551616).toNat

/-- Multiplication of two `UINT` values. -/
def mulUINT (a b : Nat) : Nat := a * b % 4294967296

/-- Addition of two `UINT` values. -/
def addUINT (a b : Nat) : Nat := (a + b) % 4294967296

/-! ## Textures (Structures.h, Utils.cpp) -/

/-- `struct TextureInfo` (Structures.h). -/
structure TextureInfo where
  pixels : List UInt8 := []
  width : Int := 0
  height : Int := 0
  stride : Int := 0
  offset : Int := 0

/-- What `stbi_load` hands back for a readable image: the decoded bytes behind
the returned pointer and the values written to its `x`, `y` and `comp`
arguments.  The pointer is raw memory: it can be indexed at any offset, the
decoded image occupies the first `x * y * comp` bytes.  A read at or beyond
that size is undefined in the source; `data` there stands for whatever lies
behind the buffer, and what is stated of pixel bytes is stated for images
whose reads (`FormatTexture.reads`) stay inside the buffer. -/
structure StbImage where
  data : Nat → UInt8
  x : Int
  y : Int
  comp : Int

/-- `std::vector<UINT8>::resize`. -/
def resize (v : List UInt8) (n : Nat) : List UInt8 :=
  v.take n ++ List.replicate (n - v.length) 0

/-- The assignment `v[index] = b` on a `std::vector<UINT8>`.  `none` when
`index` is not below `v.size()`: the store is undefined behaviour. -/
def storeByte (v : List UInt8) (index : Nat) (b : UInt8) : Option (List UInt8) :=
  if index < v.length then some (v.set index b) else none

/-- One iteration of the loop of `Utils::FormatTexture`. -/
def FormatTexture.iteration (pixels : Nat → UInt8) (oldStride newStride : Nat)
    (v : List UInt8) (i : Nat) : Option (List UInt8) := do
  let v ← storeByte v (mulUINT i newStride) (pixels (mulUINT i oldStride))
  let v ← storeByte v (addUINT (mulUINT i newStride) 1) (pixels (addUINT (mulUINT i oldStride) 1))
  let v ← storeByte v (addUINT (mulUINT i newStride) 2) (pixels (addUINT (mulUINT i oldStride) 2))
  storeByte v (addUINT (mulUINT i newStride) 3) 0xFF

/-- `Utils::FormatTexture`: expands the decoded image behind `pixels` into
`info.pixels`, four bytes per pixel. -/
def FormatTexture (info : TextureInfo) (pixels : Nat → UInt8) : Option TextureInfo :=
  let numPixels := toUINT (toINT (info.width * info.height))
  let oldStride := toUINT info.stride
  let newStride := 4
  let newSize := mulUINT numPixels newStride
  let v := resize info.pixels newSize
  match (List.range numPixels).foldlM (FormatTexture.iteration pixels oldStride newStride) v with
  | none => none
  | some v => some { info with pixels := v, stride := 4 }

/-- `Utils::LoadTexture`: `file` is the result of `stbi_load` on the path,
`none` for a null pointer (the function throws). -/
def LoadTexture (file : Option StbImage) : Option TextureInfo :=
  match file with
  | none => none
  | some img =>
    FormatTexture { pixels := [], width := img.x, height := img.y, stride := img.comp } img.data

/-! ## `namespace D3DResources` (Graphics.cpp) -/

/-- `memcpy(dst + pos, src.data(), n)` into a buffer of known size.  `none`
when the copy would leave the destination buffer or read past the source
vector. -/
def memcpy (dst : List UInt8) (pos : Int) (src : List UInt8) (n : Nat) : Option (List UInt8) :=
  if 0 ≤ pos ∧ pos.toNat + n ≤ dst.length ∧ n ≤ src.length then
    some (dst.take pos.toNat ++ src.take n ++ dst.drop (pos.toNat + n))
  else none

/-- The footprint `D3DResources::Upload_Texture` describes for `texture`. -/
def Upload_Texture.footprint (texture : TextureInfo) : PlacedFootprint :=
  { Offset := toUINT64 texture.offset
    formatRGBA8 := true
    Width := toUINT texture.width
    Height := toUINT texture.height
    RowPitch := toUINT (toINT (texture.width * texture.stride))
    Depth := 1 }

/-- `D3DResources::Upload_Texture`.  `staging` is the memory of `srcResource`;
the result is the new command list state and the new staging memory. -/
def Upload_Texture (d3d : D3D12Global) (destResource srcResource : Resource)
    (staging : List UInt8) (texture : TextureInfo) (subresourceIndex : Nat) :
    Option (D3D12Global × List UInt8) :=
  match memcpy staging texture.offset texture.pixels
      (toUINT64 (toINT (toINT (texture.width * texture.height) * texture.stride))) with
  | none => none
  | some staging =>
    some ({ d3d with
      cmdList := d3d.cmdList ++
        [.CopyTextureRegion destResource subresourceIndex srcResource
          (Upload_Texture.footprint texture)] }, staging)

/-- The first loop of `D3DResources::Load_Blue_Noise_Texture_Array`:
`textures[0 .. num)` after `num` iterations.  `files i` is what `stbi_load`
returns for image `i`. -/
def Load_Blue_Noise_Texture_Array.textures (files : Nat → Option StbImage) :
    Nat → Option (List TextureInfo)
  | 0 => some []
  | i + 1 => do
    let textures ← Load_Blue_Noise_Texture_Array.textures files i
    let t ← LoadTexture (files i)
    if 0 < i then
      let prev ← textures[i - 1]?
      some (textures ++ [{ t with
        offset := toINT (mulUINT (mulUINT (mulUINT i (toUINT prev.width)) (toUINT prev.height))
          (toUINT prev.stride)) }])
    else
      some (textures ++ [t])

/-- The second loop of `D3DResources::Load_Blue_Noise_Texture_Array`: uploads
`textures[i]` to subresource `i` for `i = first, first + 1, ...`. -/
def Load_Blue_Noise_Texture_Array.upload (d3d : D3D12Global) (staging : List UInt8) :
    List TextureInfo → Nat → Option (D3D12Global × List UInt8)
  | [], _ => some (d3d, staging)
  | t :: rest, i =>
    match Upload_Texture d3d .blueNoiseArray .blueNoiseArrayUploadResource staging t i with
    | none => none
    | some (d3d, staging) => Load_Blue_Noise_Texture_Array.upload d3d staging rest (i + 1)

/-- `D3DResources::Load_Blue_Noise_Texture_Array`.  The result is the new
command list state and the memory of `blueNoiseArrayUploadResource`. -/
def Load_Blue_Noise_Texture_Array (d3d : D3D12Global) (files : Nat → Option StbImage)
    (num : Nat) : Option (D3D12Global × List UInt8) := do
  let textures ← Load_Blue_Noise_Texture_Array.textures files num
  let first ← textures[0]?
  let Width := mulUINT (toUINT (toINT (toINT (first.width * first.height) * first.stride))) num
  let (d3d, staging) ←
    Load_Blue_Noise_Texture_Array.upload d3d (List.replicate Width 0) textures 0
  some ({ d3d with
    cmdList := d3d.cmdList ++
      [.ResourceBarrier .blueNoiseArray .COPY_DEST .PIXEL_SHADER_RESOURCE
        D3D12_RESOURCE_BARRIER_ALL_SUBRESOURCES] }, staging)

/-- `D3DResources::Load_Blue_Noise_Texture`.  `file` is what `stbi_load`
returns for the image; the result is the new command list state and the memory
of `blueNoiseUploadResource`. -/
def Load_Blue_Noise_Texture (d3d : D3D12Global) (file : Option StbImage) :
    Option (D3D12Global × List UInt8) := do
  let texture ← LoadTexture file
  let Width := toUINT64 (toINT (toINT (texture.width * texture.height) * texture.stride))
  let (d3d, staging) ←
    Upload_Texture d3d .blueNoise .blueNoiseUploadResource (List.replicate Width 0) texture 0
  some ({ d3d with
    cmdList := d3d.cmdList ++
      [.ResourceBarrier .blueNoise .COPY_DEST .PIXEL_SHADER_RESOURCE
        D3D12_RESOURCE_BARRIER_ALL_SUBRESOURCES] }, staging)


/-! ## Recording a frame (Graphics.cpp, UI.cpp) -/

/-- `D3D12::Build_CmdList`: the fullscreen pass. -/
def Build_CmdList (d3d : D3D12Global) : D3D12Global :=
  { d3d with
    cmdList := d3d.cmdList ++
      [.ResourceBarrier (.backBuffer d3d.frameIndex) .PRESENT .RENDER_TARGET
          D3D12_RESOURCE_BARRIER_ALL_SUBRESOURCES,
       .OMSetRenderTargets .rtvHeap d3d.frameIndex,
       .SetDescriptorHeaps .descriptorHeap,
       .SetGraphicsRootSignature,
       .SetGraphicsRootConstantBufferView 0 .bandingCB,
       .SetGraphicsRootDescriptorTable 1 .descriptorHeap,
       .SetPipelineState,
       .IASetPrimitiveTopology,
       .RSSetViewports,
       .RSSetScissorRects,
       .DrawInstanced 3 1 0 0,
       .ResourceBarrier (.backBuffer d3d.frameIndex) .RENDER_TARGET .PRESENT
          D3D12_RESOURCE_BARRIER_ALL_SUBRESOURCES] }

/-- `UI::Build_CmdList`: the overlay pass. -/
def UI.Build_CmdList (d3d : D3D12Global) : D3D12Global :=
  { d3d with
    cmdList := d3d.cmdList ++
      [.ResourceBarrier (.backBuffer d3d.frameIndex) .PRESENT .RENDER_TARGET
          D3D12_RESOURCE_BARRIER_ALL_SUBRESOURCES,
       .OMSetRenderTargets .rtvHeap d3d.frameIndex,
       .SetDescriptorHeaps .uiDescriptorHeap,
       .ImGuiRenderDrawData,
       .ResourceBarrier (.backBuffer d3d.frameIndex) .RENDER_TARGET .PRESENT
          D3D12_RESOURCE_BARRIER_ALL_SUBRESOURCES] }

/-! ## `class D3D12Application` (main.cpp) -/

/-- The environment of `Init`: the index the new swap chain reports and what
`stbi_load` returns for the noise images. -/
structure InitEnv where
  first : Fin 2
  files : Nat → Option StbImage
  file : Option StbImage

/-- The environment of one `Render` call: the queue entries the GPU retires
before `WaitForGPU` is entered, the back buffer that is current after
`Present`, the entries retired inside `MoveToNextFrame` before the fence is
read, and the entries retired before `Reset_CommandList`. -/
structure FrameEnv where
  gWait : Nat
  next : Fin 2
  gMove : Nat
  gReset : Nat

/-- A shader blob (`IDxcBlob`): its bytes. -/
abbrev IDxcBlob := List UInt8

/-- The part of `D3D12Resources` the model follows: the two upload buffers
`Init` fills, the shader blobs and the constant buffer (null pointers, here
`none`, until they are created). -/
structure D3D12Resources where
  blueNoiseArrayUploadResource : List UInt8 := []
  blueNoiseUploadResource : List UInt8 := []
  vsBytecode : Option IDxcBlob := none
  psBytecode : Option IDxcBlob := none
  bandingCB : Option Resource := none

/-- `D3D12Application::Init`, from `Create_CommandList` on. -/
def Init (env : InitEnv) : Option (D3D12Global × D3D12Resources) := do
  let d3d : D3D12Global := {}
  let d3d := Create_CommandList d3d
  let d3d := Create_SwapChain env.first d3d
  let d3d := Create_Fence d3d
  let d3d := Reset_CommandList d3d
  let (d3d, arrayUpload) ← Load_Blue_Noise_Texture_Array d3d env.files 64
  let (d3d, upload) ← Load_Blue_Noise_Texture d3d env.file
  let d3d := Close d3d
  let d3d := ExecuteCommandLists d3d
  let d3d ← WaitForGPU d3d
  let d3d := Reset_CommandList d3d
  some (d3d, { blueNoiseArrayUploadResource := arrayUpload, blueNoiseUploadResource := upload })

/-- `D3D12Application::Render`. -/
def Render (env : FrameEnv) (d3d : D3D12Global) : Option D3D12Global := do
  let d3d := Build_CmdList d3d
  let d3d := UI.Build_CmdList d3d
  let d3d := Submit_CmdList d3d
  let d3d := gpuAdvance env.gWait d3d
  let d3d ← WaitForGPU d3d
  let d3d := Present env.next d3d
  let d3d ← MoveToNextFrame env.gMove d3d
  let d3d := gpuAdvance env.gReset d3d
  some (Reset_CommandList d3d)

/-- The main loop of `wWinMain`: one `Render` per element of `frames`. -/
def renderLoop : List FrameEnv → D3D12Global → Option D3D12Global
  | [], d3d => some d3d
  | env :: frames, d3d =>
    match Render env d3d with
    | none => none
    | some d3d => renderLoop frames d3d

/-- `Init` followed by the main loop. -/
def run (init : InitEnv) (frames : List FrameEnv) : Option D3D12Global :=
  match Init init with
  | none => none
  | some (d3d, _) => renderLoop frames d3d

/-- The swap chain is a flip chain of two buffers: the first current back
buffer is 0 and every `Present` advances it by one modulo 2. -/
def flipChain : Fin 2 → List FrameEnv → Prop
  | _, [] => True
  | current, env :: frames => env.next = current + 1 ∧ flipChain env.next frames

/-! ## Reading the trace -/

/-- The values passed to `cmdQueue->Signal`, in call order. -/
def signalValues (trace : List Event) : List Nat :=
  trace.filterMap fun e =>
    match e with
    | .signal v => some v
    | _ => none

/-- For every `GetCompletedValue` comparison in `MoveToNextFrame`, in call
order: whether the blocking branch was taken. -/
def moveBlocked (trace : List Event) : List Bool :=
  trace.filterMap fun e =>
    match e with
    | .getCompletedValue value target => some (decide (value < target))
    | _ => none

/-- What the trace says about the work of one allocator: never executed;
executed with no signal scheduled behind it yet; or executed, with `value` the
fence value scheduled for signal behind the latest execution. -/
inductive AllocatorUse where
  | unused
  | awaitingSignal
  | fenced (value : Nat)
  deriving DecidableEq, Repr

/-- The effect of one API call on the use of allocator `a`. -/
def AllocatorUse.step (a : Fin 2) (use : AllocatorUse) (e : Event) : AllocatorUse :=
  match e with
  | .executeCommandLists b => if b = a then .awaitingSignal else use
  | .signal v =>
    match use with
    | .awaitingSignal => .fenced v
    | _ => use
  | _ => use

/-- The use of allocator `a` after the calls of `trace`. -/
def allocatorUse (a : Fin 2) (trace : List Event) : AllocatorUse :=
  trace.foldl (AllocatorUse.step a) .unused

/-- Resetting an allocator is safe when the fence has reached the value
scheduled behind the latest execution of its commands. -/
def AllocatorUse.resetSafe (use : AllocatorUse) (completed : Nat) : Prop :=
  match use with
  | .unused => True
  | .awaitingSignal => False
  | .fenced v => v ≤ completed

instance (use : AllocatorUse) (completed : Nat) : Decidable (use.resetSafe completed) := by
  cases use <;> simp only [AllocatorUse.resetSafe] <;> infer_instance


/-! ## Invariants of the synchroniser -/

/-- The fence value after the GPU has retired the entries of `dropped`. -/
def retireAll (completed : Nat) (dropped : List Event) : Nat :=
  dropped.foldl (fun c e => retire e c) completed

/-- The shape of the pending queue relative to the completed value `lo`:
signal values never decrease along the queue and are at least `lo`, and every
pending execution is directly followed by a signal of a value strictly above
everything before it. -/
def Pending : Nat → List Event → Prop
  | _, [] => True
  | lo, e :: rest =>
    match e with
    | .signal v => lo ≤ v ∧ Pending v rest
    | .executeCommandLists _ =>
      (∃ v rest', rest = Event.signal v :: rest' ∧ lo < v) ∧ Pending lo rest
    | _ => Pending lo rest

/-- The invariant of every state reachable by the synchroniser calls. -/
structure SyncInv (d3d : D3D12Global) : Prop where
  pending : Pending d3d.fenceCompleted d3d.cmdQueue
  queue_le : ∀ v, Event.signal v ∈ d3d.cmdQueue → v ≤ d3d.fenceValues d3d.frameIndex
  completed_le : d3d.fenceCompleted ≤ d3d.fenceValues d3d.frameIndex
  other_lt : ∀ j, j ≠ d3d.frameIndex → d3d.fenceValues j < d3d.fenceValues d3d.frameIndex
  trace_le : ∀ v, v ∈ signalValues d3d.trace → v ≤ d3d.fenceValues d3d.frameIndex
  sorted : (signalValues d3d.trace).Pairwise (· ≤ ·)

/-- Every allocator reset recorded in the trace happened with no work of that
allocator left in the queue and after the fence had reached the value scheduled
behind the latest execution of that allocator's commands. -/
def ResetsSafe (events : List Event) : Prop :=
  ∀ p a c busy, events[p]? = some (.resetAllocator a c busy) →
    busy = false ∧ (allocatorUse a (events.take p)).resetSafe c

/-- The invariant of the states in which the GPU has nothing left to execute:
no execution is pending, the fence has reached the value scheduled behind the
latest execution of every allocator, and every reset so far was safe. -/
structure Quiet (d3d : D3D12Global) : Prop where
  sync : SyncInv d3d
  idle : ∀ a, Event.executeCommandLists a ∉ d3d.cmdQueue
  fenced : ∀ a, (allocatorUse a d3d.trace).resetSafe d3d.fenceCompleted
  safe : ResetsSafe d3d.trace

/-- The invariant of the states between two frames (after `Init` and after
every `Render`). -/
structure FrameInv (d3d : D3D12Global) : Prop where
  quiet : Quiet d3d
  alloc : d3d.cmdListAlloc = d3d.frameIndex
  current : d3d.swapChainIndex = d3d.frameIndex

/-! ## Arbitrary call sequences -/

/-- A synchroniser call, or GPU progress between two calls.  `MoveToNextFrame`
carries the back-buffer index the swap chain reports to it. -/
inductive SyncCall where
  | Submit_CmdList
  | WaitForGPU
  | MoveToNextFrame (reported : Fin 2) (g : Nat)
  | gpu (g : Nat)
  deriving DecidableEq, Repr

/-- The effect of one call. -/
def SyncCall.apply : SyncCall → D3D12Global → Option D3D12Global
  | .Submit_CmdList, d3d => some (ColorBanding.Submit_CmdList d3d)
  | .WaitForGPU, d3d => ColorBanding.WaitForGPU d3d
  | .MoveToNextFrame reported g, d3d =>
    ColorBanding.MoveToNextFrame g { d3d with swapChainIndex := reported }
  | .gpu g, d3d => some (gpuAdvance g d3d)

/-- The effect of a sequence of calls. -/
def runCalls : List SyncCall → D3D12Global → Option D3D12Global
  | [], d3d => some d3d
  | call :: calls, d3d =>
    match call.apply d3d with
    | none => none
    | some d3d => runCalls calls d3d

/-- The state in which `Init` leaves `Create_Fence`. -/
def fenceCreated (first : Fin 2) : D3D12Global :=
  Create_Fence (Create_SwapChain first (Create_CommandList {}))

/-! ## Sample inputs -/

/-- A decoded 1×1 RGB image. -/
def sampleImage : StbImage := { data := fun _ => 7, x := 1, y := 1, comp := 3 }

/-- An environment in which every image file decodes to `sampleImage`. -/
def sampleInit : InitEnv := { first := 0, files := fun _ => some sampleImage, file := some sampleImage }

/-- Two frames on a flip chain. -/
def sampleFrames : List FrameEnv :=
  [{ gWait := 0, next := 1, gMove := 0, gReset := 0 },
   { gWait := 1, next := 0, gMove := 2, gReset := 0 }]

/-! ## Reading pixel data -/

/-- The vector `v` holds the first `k` pixels of the image behind `pixels`
(source stride `s`) expanded to RGBA8, starting at byte `base`: red, green and
blue are source bytes `s·i`, `s·i + 1`, `s·i + 2`, alpha is `0xFF`. -/
def ExpandedRGBA8 (pixels : Nat → UInt8) (s : Nat) (v : List UInt8) (base k : Nat) : Prop :=
  ∀ i, i < k →
    v[base + 4 * i]? = some (pixels (s * i)) ∧
    v[base + 4 * i + 1]? = some (pixels (s * i + 1)) ∧
    v[base + 4 * i + 2]? = some (pixels (s * i + 2)) ∧
    v[base + 4 * i + 3]? = some 0xFF

/-- A decoded 32768×16384 RGB image (1.5 GiB of pixel data), all bytes zero. -/
def largeImage : StbImage := { data := fun _ => 0, x := 32768, y := 16384, comp := 3 }

/-- A decoded 2×1 RGB image. -/
def wideImage : StbImage := { data := fun i => i.toUInt8, x := 2, y := 1, comp := 3 }

/-- An `HRESULT`: a signed 32-bit status code. -/
abbrev HRESULT := Int

/-- The `FAILED` test of the Windows headers: the code is negative. -/
def FAILED (hr : HRESULT) : Bool := decide (hr < 0)

/-- Success code `S_OK`. -/
def S_OK : HRESULT := 0

/-- Failure code `E_FAIL` (`0x80004005`). -/
def E_FAIL : HRESULT := -2147467259

/-- Failure code `DXGI_ERROR_DEVICE_REMOVED` (`0x887A0005`). -/
def DXGI_ERROR_DEVICE_REMOVED : HRESULT := -2005270523

/-- Failure code `DXGI_ERROR_DEVICE_HUNG` (`0x887A0006`). -/
def DXGI_ERROR_DEVICE_HUNG : HRESULT := -2005270522

/-- Failure code `DXGI_ERROR_WAS_STILL_DRAWING` (`0x887A000A`). -/
def DXGI_ERROR_WAS_STILL_DRAWING : HRESULT := -2005270518

/-- Exit code `EXIT_FAILURE` of the C library. -/
def EXIT_FAILURE : Int := 1

/-- What the process does that is visible from outside the function that does
it, in program order: message boxes, the quit message posted to the message
queue of the thread, the API calls of the functions modelled below, and the
dereference of a pointer that holds no object (`nullDereference`, with the
expression that dereferences it), at which the process stops. -/
inductive Effect where
  | MessageBox (text : String)
  | PostQuitMessage (exitCode : Int)
  | swapChainPresent
  | GetDeviceRemovedReason
  | CreateCommittedResource
  | Map
  | memcpyConstants
  | D3D12SerializeRootSignature
  | CreateRootSignature
  | CreateGraphicsPipelineState
  | nullDereference (expression : String)
  deriving DecidableEq, Repr

/-- The effects of the process so far, and whether it has stopped at the
dereference of a pointer that holds no object. -/
structure Process where
  effects : List Effect := []
  crashed : Bool := false
  deriving DecidableEq, Repr

/-- One effect of a running process; a stopped process does nothing. -/
def Process.perform (e : Effect) (p : Process) : Process :=
  if p.crashed then p else { p with effects := p.effects ++ [e] }

/-- The dereference of a pointer that holds no object: the process stops. -/
def Process.crash (expression : String) (p : Process) : Process :=
  if p.crashed then p else { effects := p.effects ++ [.nullDereference expression], crashed := true }

/-- `Utils::Validate`: on a failing code a message box with `msg`, then
`PostQuitMessage(EXIT_FAILURE)`; the function then returns to its caller. -/
def Validate (hr : HRESULT) (msg : String) (p : Process) : Process :=
  if FAILED hr then
    (p.perform (.MessageBox msg)).perform (.PostQuitMessage EXIT_FAILURE)
  else p

/-- `D3D12::Present`, the handling of the code `hr` that
`swapChain->Present` returned; `reason` is what `GetDeviceRemovedReason`
returns when it is called.  (The effect of the call on the swap chain is
`Present` above.) -/
def Present.result (hr reason : HRESULT) (p : Process) : Process :=
  let p := p.perform .swapChainPresent
  if FAILED hr then
    let p := p.perform .GetDeviceRemovedReason
    Validate reason "Error: failed to present!" p
  else p

/-! ## Shaders and pipeline state -/

/-- What the shader compiler answers during one `Compile_Shader` call: the
codes of `CreateBlobFromFile`, `CreateIncludeHandler`, `Compile`, the status
`GetStatus` stores, the code of `GetErrorBuffer` and the text of the error
buffer, the code of `GetResult` and the value it stores through its
argument.  An output pointer holds an object exactly when the call that
fills it succeeded. -/
structure CompileEnv where
  hrBlobFromFile : HRESULT
  hrIncludeHandler : HRESULT
  hrCompile : HRESULT
  hrStatus : HRESULT
  hrErrorBuffer : HRESULT
  errorText : String
  hrGetResult : HRESULT
  result : Option IDxcBlob

/-- `D3DShaders::Compile_Shader`; `blob` is the value of `*blob` on entry,
the first component of the result its value on return. -/
def Compile_Shader (env : CompileEnv) (blob : Option IDxcBlob) (p : Process) :
    Option IDxcBlob × Process :=
  let p := Validate env.hrBlobFromFile "Error: failed to create blob from shader file!" p
  let p := Validate env.hrIncludeHandler "Error: failed to create include handler" p
  let p := Validate env.hrCompile "Error: failed to compile shader!" p
  if FAILED env.hrCompile then (blob, p.crash "result->GetStatus(&hr)")
  else if FAILED env.hrStatus then
    let p := Validate env.hrErrorBuffer "Error: failed to get shader compiler error buffer!" p
    if FAILED env.hrErrorBuffer then (blob, p.crash "error->GetBufferSize()")
    else (blob, p.perform (.MessageBox ("Shader Compiler Error:\n" ++ env.errorText)))
  else
    (env.result, Validate env.hrGetResult "Error: failed to get shader blob result!" p)

/-- `D3DResources::Load_Shaders`: the vertex shader, then the pixel shader. -/
def Load_Shaders (vs ps : CompileEnv) (resources : D3D12Resources) (p : Process) :
    D3D12Resources × Process :=
  let r := Compile_Shader vs resources.vsBytecode p
  let resources := { resources with vsBytecode := r.1 }
  let r := Compile_Shader ps resources.psBytecode r.2
  ({ resources with psBytecode := r.1 }, r.2)

/-- The codes returned to `Create_PSO`: by `D3D12SerializeRootSignature`, by
`CreateRootSignature` and by `CreateGraphicsPipelineState`. -/
structure PSOEnv where
  hrSerialize : HRESULT
  hrRootSignature : HRESULT
  hrPSO : HRESULT

/-- `D3D12::Create_Root_Signature`. -/
def Create_Root_Signature (env : PSOEnv) (p : Process) : Process :=
  let p := p.perform .D3D12SerializeRootSignature
  let p := Validate env.hrSerialize "Error: failed to serialize root signature!" p
  if FAILED env.hrSerialize then p.crash "sig->GetBufferPointer()"
  else
    let p := p.perform .CreateRootSignature
    Validate env.hrRootSignature "Error: failed to create root signature!" p

/-- `D3DResources::Create_PSO`: it first reads size and pointer of both
bytecode blobs through `resources.vsBytecode` and `resources.psBytecode`. -/
def Create_PSO (env : PSOEnv) (resources : D3D12Resources) (p : Process) : Process :=
  match resources.vsBytecode with
  | none => p.crash "resources.vsBytecode->GetBufferSize()"
  | some _ =>
    match resources.psBytecode with
    | none => p.crash "resources.psBytecode->GetBufferSize()"
    | some _ =>
      let p := Create_Root_Signature env p
      let p := p.perform .CreateGraphicsPipelineState
      Validate env.hrPSO "Error: failed to create the graphics PSO!" p

/-- `D3DResources::Create_Buffer` for the pointer `*ppResource`, which holds
`created` afterwards when `CreateCommittedResource` succeeded and keeps its
value otherwise. -/
def Create_Buffer (hr : HRESULT) (created : Resource) (ppResource : Option Resource)
    (p : Process) : Option Resource × Process :=
  let p := p.perform .CreateCommittedResource
  (if FAILED hr then ppResource else some created,
   Validate hr "Error: failed to create buffer resource!" p)

/-- `D3DResources::Create_ConstantBuffer`; `hrCreate` is the code of
`CreateCommittedResource`, `hrMap` the code of `Map`.  `bandingCBStart` is
null until `Map` succeeds. -/
def Create_ConstantBuffer (hrCreate hrMap : HRESULT) (resources : D3D12Resources)
    (p : Process) : D3D12Resources × Process :=
  let r := Create_Buffer hrCreate .bandingCB resources.bandingCB p
  let resources := { resources with bandingCB := r.1 }
  match resources.bandingCB with
  | none => (resources, r.2.crash "resources.bandingCB->Map(...)")
  | some _ =>
    let p := r.2.perform .Map
    let p := Validate hrMap "Error: failed to map the banding constant buffer!" p
    if FAILED hrMap then (resources, p.crash "memcpy(resources.bandingCBStart, ...)")
    else (resources, p.perform .memcpyConstants)

/-- Lines 88 and 89 of `D3D12Application::Init`: `Load_Shaders`, then
`Create_PSO` on the resources it leaves. -/
def Init.pipeline (vs ps : CompileEnv) (pso : PSOEnv) (resources : D3D12Resources)
    (p : Process) : D3D12Resources × Process :=
  let r := Load_Shaders vs ps resources p
  (r.1, Create_PSO pso r.1 r.2)

/-! ## Descriptor heaps -/

/-- `NumDescriptors` of the three heaps `Create_Descriptor_Heaps` creates. -/
def Create_Descriptor_Heaps.NumDescriptors : Heap → Nat
  | .rtvHeap => 2
  | .descriptorHeap => 2
  | .uiDescriptorHeap => 1

/-- A CPU descriptor handle: the heap it was taken from and its `ptr`. -/
structure DescriptorHandle where
  heap : Heap
  ptr : Nat
  deriving DecidableEq, Repr

/-- The layout of the heaps in memory: what `GetCPUDescriptorHandleForHeapStart`
and `GetDescriptorHandleIncrementSize` return for each of them. -/
structure HeapLayout where
  start : Heap → Nat
  increment : Heap → Nat

/-- The handle of slot `index` of a heap: heap base plus index times stride. -/
def HeapLayout.slot (layout : HeapLayout) (heap : Heap) (index : Nat) : DescriptorHandle :=
  { heap := heap, ptr := layout.start heap + index * layout.increment heap }

/-- The loop of `Create_BackBuffer_RTV`: iteration `n` (of `count` remaining)
stores the running handle in `backBufferRTV[n]` and advances it by
`rtvDescSize`.  Returns the handles stored and the running handle. -/
def Create_BackBuffer_RTV.loop (rtvDescSize : Nat) :
    Nat → List DescriptorHandle → DescriptorHandle → List DescriptorHandle × DescriptorHandle
  | 0, backBufferRTV, rtvHandle => (backBufferRTV, rtvHandle)
  | count + 1, backBufferRTV, rtvHandle =>
    Create_BackBuffer_RTV.loop rtvDescSize count (backBufferRTV ++ [rtvHandle])
      { rtvHandle with ptr := rtvHandle.ptr + rtvDescSize }

/-- `D3DResources::Create_BackBuffer_RTV`: the handles `backBufferRTV[0]`,
`backBufferRTV[1]` and the value of `rtvHandle` when the loop ends. -/
def Create_BackBuffer_RTV (layout : HeapLayout) : List DescriptorHandle × DescriptorHandle :=
  Create_BackBuffer_RTV.loop (layout.increment .rtvHeap) 2 []
    { heap := .rtvHeap, ptr := layout.start .rtvHeap }

/-- The render-target handle `Build_CmdList` computes:
`rtvHandle.ptr += (resources.rtvDescSize * d3d.frameIndex)` from the heap
start, for a `UINT` frame index. -/
def Build_CmdList.rtvHandle (layout : HeapLayout) (frameIndex : Nat) : DescriptorHandle :=
  { heap := .rtvHeap
    ptr := layout.start .rtvHeap + mulUINT (layout.increment .rtvHeap) frameIndex }

/-- The handle at which `Load_Blue_Noise_Texture` creates its view: the
heap start. -/
def Load_Blue_Noise_Texture.handle (layout : HeapLayout) : DescriptorHandle :=
  { heap := .descriptorHeap, ptr := layout.start .descriptorHeap }

/-- The handle at which `Load_Blue_Noise_Texture_Array` creates its view:
the heap start advanced by one increment. -/
def Load_Blue_Noise_Texture_Array.handle (layout : HeapLayout) : DescriptorHandle :=
  { heap := .descriptorHeap
    ptr := layout.start .descriptorHeap + layout.increment .descriptorHeap }

/-- The handle `UI::Init` passes to the overlay for its font texture: the
start of the overlay heap. -/
def UI.Init.handle (layout : HeapLayout) : DescriptorHandle :=
  { heap := .uiDescriptorHeap, ptr := layout.start .uiDescriptorHeap }

/-- Whether a handle lies in the memory of its heap. -/
def HeapLayout.inside (layout : HeapLayout) (h : DescriptorHandle) : Prop :=
  layout.start h.heap ≤ h.ptr ∧
    h.ptr < layout.start h.heap +
      Create_Descriptor_Heaps.NumDescriptors h.heap * layout.increment h.heap

/-! ## Resource states of the back buffer -/

/-- The render-target slot each `OMSetRenderTargets` of a list names. -/
def renderTargetSlots : List Command → List (Heap × Nat)
  | [] => []
  | .OMSetRenderTargets heap index :: rest => (heap, index) :: renderTargetSlots rest
  | _ :: rest => renderTargetSlots rest

/-- Follows the state of `resource` through a list of commands: a transition
barrier on the resource moves it from `StateBefore` to `StateAfter`, and is
in error (`none`) when the resource is not in `StateBefore`. -/
def trackState (resource : Resource) : ResourceState → List Command → Option ResourceState
  | state, [] => some state
  | state, .ResourceBarrier r StateBefore StateAfter _ :: rest =>
    if r = resource then
      if StateBefore = state then trackState resource StateAfter rest else none
    else trackState resource state rest
  | state, _ :: rest => trackState resource state rest

/-- The commands two passes record in one frame, on a command list that was
reset before: those of `D3D12::Build_CmdList` and those of
`UI::Build_CmdList` after it. -/
def frameCommands (d3d : D3D12Global) : List Command × List Command :=
  let core := Build_CmdList (Reset_CommandList d3d)
  ((core.cmdList), (UI.Build_CmdList core).cmdList.drop core.cmdList.length)

/-- Sample shader compilation that succeeds with a two-byte blob. -/
def compileOk : CompileEnv :=
  { hrBlobFromFile := S_OK, hrIncludeHandler := S_OK, hrCompile := S_OK, hrStatus := S_OK,
    hrErrorBuffer := S_OK, errorText := "", hrGetResult := S_OK, result := some [68, 88] }

/-- Sample shader compilation whose source has an error: the compiler runs
and reports the failure through its status. -/
def compileError : CompileEnv :=
  { compileOk with hrStatus := E_FAIL, errorText := "error: unknown type name", result := none }

/-- Sample codes of a `Create_PSO` call in which every API call succeeds. -/
def psoOk : PSOEnv := { hrSerialize := S_OK, hrRootSignature := S_OK, hrPSO := S_OK }

/-- Sample heap layout: three heaps of stride 32 at distinct addresses. -/
def sampleLayout : HeapLayout :=
  { start := fun h => match h with
      | .rtvHeap => 4096
      | .descriptorHeap => 8192
      | .uiDescriptorHeap => 12288
    increment := fun _ => 32 }

/-- The transitions the barriers of a list perform, in order: the resource
with its `StateBefore` and `StateAfter`. -/
def transitions : List Command → List (Resource × ResourceState × ResourceState)
  | [] => []
  | .ResourceBarrier r StateBefore StateAfter _ :: rest =>
    (r, StateBefore, StateAfter) :: transitions rest
  | _ :: rest => transitions rest

/-- Whether a quit message has been posted, which ends the `while` loop of
`wWinMain` at its next test. -/
def Process.quitRequested (p : Process) : Bool :=
  p.effects.any fun e => match e with
    | .PostQuitMessage _ => true
    | _ => false

/-- A 1×1 RGBA8 texture as `LoadTexture` produces it. -/
def sampleTexture : TextureInfo :=
  { pixels := [7, 7, 7, 255], width := 1, height := 1, stride := 4, offset := 0 }

/-! ## Command line (Utils.cpp, main.cpp) -/

/-- `struct ConfigInfo` (Structures.h), without the instance handle. -/
structure ConfigInfo where
  width : Int := 640
  height : Int := 360
  vsync : Bool := false
  deriving DecidableEq, Repr

/-- Exit code `EXIT_SUCCESS` of the C library. -/
def EXIT_SUCCESS : Int := 0

/-- The array `char str[256]` of `ParseCommandLine`: each element holds a byte
or, `none`, is indeterminate (never written). -/
abbrev CharArray := List (Option Nat)

/-- The loop of `wcstombs` in the "C" locale, the locale of a program that
never calls `setlocale`: wide characters are stored one by one while fewer
than `n` bytes are written; a character above 255 stops the conversion with an
error, the bytes written before it stay; the terminating zero is stored if
there is room for it.  Whatever the array held beyond the bytes written
remains. -/
def wcstombs.loop (n : Nat) : List Nat → Nat → CharArray → CharArray
  | [], count, s => if count < n then s.set count (some 0) else s
  | c :: pwcs, count, s =>
    if count < n then
      if c > 255 then s
      else if c = 0 then s.set count (some 0)
      else wcstombs.loop n pwcs (count + 1) (s.set count (some c))
    else s

/-- The call `wcstombs(str, argv[i], 256)`, whose result the parser ignores:
the array afterwards. -/
def wcstombs (str : CharArray) (token : String) (n : Nat) : CharArray :=
  wcstombs.loop n (token.toList.map Char.toNat) 0 str

/-- The test `strcmp(str, literal) == 0` for a literal without zero byte,
given as its bytes.  `none` when the comparison reads an indeterminate element
or runs past the end of the array: undefined behaviour. -/
def strcmp : CharArray → List Nat → Option Bool
  | [], _ => none
  | none :: _, _ => none
  | some b :: _, [] => some (decide (b = 0))
  | some b :: str, c :: literal => if b = c then strcmp str literal else some false

/-- The `isspace` test of the "C" locale. -/
def isspace (b : Nat) : Bool := b = 32 || (9 ≤ b && b ≤ 13)

/-- The digits `atoi` reads: up to the first byte that is no decimal digit.
`none` when an indeterminate element or the end of the array is reached
first. -/
def atoi.digits : CharArray → Nat → Option Nat
  | [], _ => none
  | none :: _, _ => none
  | some b :: str, acc =>
    if 48 ≤ b ∧ b ≤ 57 then atoi.digits str (acc * 10 + (b - 48)) else some acc

/-- The sign and digits `atoi` reads after the white space. -/
def atoi.signed : CharArray → Option Int
  | some 45 :: str => (atoi.digits str 0).map fun n => - (n : Int)
  | some 43 :: str => (atoi.digits str 0).map fun n => (n : Int)
  | str => (atoi.digits str 0).map fun n => (n : Int)

/-- White space skipped by `atoi`, then sign and digits. -/
def atoi.skip : CharArray → Option Int
  | [] => none
  | none :: _ => none
  | some b :: str => if isspace b then atoi.skip str else atoi.signed (some b :: str)

/-- `atoi(str)` of the C library: white space, an optional sign, decimal
digits up to the first other byte; 0 when there is no digit.  `none` when the
number is not representable as an `int` or the array is read where it holds no
byte: undefined behaviour. -/
def atoi (str : CharArray) : Option Int :=
  match atoi.skip str with
  | none => none
  | some value => if -2147483648 ≤ value ∧ value < 2147483648 then some value else none

/-- What the argument loop has done: the indices at which it read `argv`, in
order, and the configuration it leaves; `none` once the loop has run into
undefined behaviour: `argv` read at an index that is not below `argc`, or
`str` read where it holds no byte, or a number `atoi` cannot represent. -/
structure ParseOutcome where
  reads : List Nat
  config : Option ConfigInfo
  deriving DecidableEq, Repr

/-- The `while (i < argc)` loop of `Utils::ParseCommandLine`, with `argc` the
length of `argv` and `str` the contents of `char str[256]`.  The first
argument bounds the number of iterations; `argc` iterations are enough, since
every iteration increases `i`. -/
def ParseCommandLine.loop (argv : List String) :
    Nat → Nat → CharArray → ConfigInfo → List Nat → ParseOutcome
  | 0, _, _, config, reads => { reads := reads, config := some config }
  | fuel + 1, i, str, config, reads =>
    if i < argv.length then
      match argv[i]? with
      | none => { reads := reads ++ [i], config := none }
      | some token =>
        let str := wcstombs str token 256
        match strcmp str [45, 119, 105, 100, 116, 104] with
        | none => { reads := reads ++ [i], config := none }
        | some true =>
          match argv[i + 1]? with
          | none => { reads := reads ++ [i, i + 1], config := none }
          | some token =>
            let str := wcstombs str token 256
            match atoi str with
            | none => { reads := reads ++ [i, i + 1], config := none }
            | some value =>
              ParseCommandLine.loop argv fuel (i + 2) str { config with width := value }
                (reads ++ [i, i + 1])
        | some false =>
          match strcmp str [45, 104, 101, 105, 103, 104, 116] with
          | none => { reads := reads ++ [i], config := none }
          | some true =>
            match argv[i + 1]? with
            | none => { reads := reads ++ [i, i + 1], config := none }
            | some token =>
              let str := wcstombs str token 256
              match atoi str with
              | none => { reads := reads ++ [i, i + 1], config := none }
              | some value =>
                ParseCommandLine.loop argv fuel (i + 2) str { config with height := value }
                  (reads ++ [i, i + 1])
          | some false =>
            match strcmp str [45, 118, 115, 121, 110, 99] with
            | none => { reads := reads ++ [i], config := none }
            | some true =>
              match argv[i + 1]? with
              | none => { reads := reads ++ [i, i + 1], config := none }
              | some token =>
                let str := wcstombs str token 256
                match atoi str with
                | none => { reads := reads ++ [i, i + 1], config := none }
                | some value =>
                  ParseCommandLine.loop argv fuel (i + 2) str
                    { config with vsync := decide (value > 0) } (reads ++ [i, i + 1])
            | some false => ParseCommandLine.loop argv fuel (i + 1) str config (reads ++ [i])
    else { reads := reads, config := some config }

/-- The argument loop of `Utils::ParseCommandLine` as it is entered: `i = 1`,
`argc > 1`, `str` not yet written. -/
def ParseCommandLine.scan (argv : List String) (config : ConfigInfo) : ParseOutcome :=
  ParseCommandLine.loop argv argv.length 1 (List.replicate 256 none) config []

/-- `Utils::ParseCommandLine`.  `argv` is what `CommandLineToArgvW` returns
(`none` for `NULL`); the result is the returned code and `config` afterwards,
`none` when the loop runs into undefined behaviour. -/
def ParseCommandLine (argv : Option (List String)) (config : ConfigInfo) (p : Process) :
    Option (HRESULT × ConfigInfo × Process) :=
  match argv with
  | none => some (E_FAIL, config, p.perform (.MessageBox "Unable to parse command line!"))
  | some argv =>
    if argv.length > 1 then
      match (ParseCommandLine.scan argv config).config with
      | none => none
      | some config => some (S_OK, config, p)
    else some (E_FAIL, config, p.perform (.MessageBox "Incorrect command line usage!"))

/-- The indices at which `Utils::ParseCommandLine` reads `argv`. -/
def ParseCommandLine.reads (argv : List String) : List Nat :=
  if argv.length > 1 then (ParseCommandLine.scan argv {}).reads else []

/-- `wWinMain` up to the call of `app.Init`: either the code it returns
before `Init` runs, or the configuration it calls `Init` with. -/
def wWinMain (argv : Option (List String)) (p : Process) :
    Option (Sum HRESULT ConfigInfo × Process) :=
  match ParseCommandLine argv {} p with
  | none => none
  | some (hr, config, p) => if hr ≠ EXIT_SUCCESS then some (.inl hr, p) else some (.inr config, p)

/-- Whether a token is one of the three recognised flags. -/
def isFlag (token : String) : Bool :=
  token = "-width" || token = "-height" || token = "-vsync"

/-- A token `wcstombs` converts completely into `str`, terminating zero
included: fewer than 256 characters, each one between 1 and 255. -/
def plainToken (token : String) : Prop :=
  token.length < 256 ∧ ∀ c, c ∈ token.toList → 0 < c.toNat ∧ c.toNat ≤ 255

instance (token : String) : Decidable (plainToken token) := by
  unfold plainToken
  infer_instance

/-- The number a token stands for: what `atoi` returns for an array that holds
the token and its terminating zero; `none` when the token is not plain or the
number is not representable as an `int`. -/
def tokenValue (token : String) : Option Int :=
  atoi ((token.toList.map fun c => some c.toNat) ++ [some 0])

/-- In the words of the claims: the flags in flag position among the tokens
after the program name, in order, each with the value token it consumes.  The
first argument is the flag whose value is awaited, if any. -/
def flagValues : Option String → List String → List (String × String)
  | _, [] => []
  | some flag, value :: rest => (flag, value) :: flagValues none rest
  | none, token :: rest =>
    if isFlag token then flagValues (some token) rest else flagValues none rest

/-- In the words of the claims: the final token is a flag in flag position,
that is, some flag in flag position is not followed by a value token. -/
def danglingFlag : Option String → List String → Bool
  | some _, [] => true
  | none, [] => false
  | some _, _ :: rest => danglingFlag none rest
  | none, token :: rest =>
    if isFlag token then danglingFlag (some token) rest else danglingFlag none rest

/-- The value token of the last occurrence of `flag` in flag position. -/
def lastValue (flag : String) (args : List String) : Option String :=
  ((flagValues none args).filter fun fv => fv.1 = flag).getLast?.map fun fv => fv.2

/-- The assignment a flag with its value stands for. -/
def applyFlag (config : ConfigInfo) (fv : String × String) : ConfigInfo :=
  if fv.1 = "-width" then { config with width := (tokenValue fv.2).getD 0 }
  else if fv.1 = "-height" then { config with height := (tokenValue fv.2).getD 0 }
  else if fv.1 = "-vsync" then { config with vsync := decide ((tokenValue fv.2).getD 0 > 0) }
  else config

/-! ## Device, viewport and scissor (Graphics.cpp) -/

/-- An adapter `EnumAdapters1` enumerates: whether its description carries
`DXGI_ADAPTER_FLAG_SOFTWARE`, and the code `D3D12CreateDevice` returns for
it. -/
structure Adapter where
  software : Bool
  hrCreateDevice : HRESULT
  deriving DecidableEq, Repr

/-- The loop of `D3D12::Create_Device` over the adapters not yet enumerated,
`adapterIndex` being the index of the first of them.  The result is the index
of the adapter the device was created on, `none` when `d3d.device` is still
null at the end. -/
def Create_Device.loop : List Adapter → Nat → Process → Option Nat × Process
  | [], _, p => (none, p)
  | adapter :: rest, adapterIndex, p =>
    if adapter.software then Create_Device.loop rest (adapterIndex + 1) p
    else if FAILED adapter.hrCreateDevice then
      Create_Device.loop rest (adapterIndex + 1)
        (Validate E_FAIL "Error: failed to create a D3D12 device!" p)
    else (some adapterIndex, p)

/-- `D3D12::Create_Device` (release build).  `hrFactory` is the code of
`CreateDXGIFactory1`, `adapters` are the adapters `EnumAdapters1` enumerates
before it returns `DXGI_ERROR_NOT_FOUND`. -/
def Create_Device (hrFactory : HRESULT) (adapters : List Adapter) (p : Process) :
    Option Nat × Process :=
  let p := Validate hrFactory "Error: failed to create DXGI factory!" p
  if FAILED hrFactory then (none, p.crash "d3d.factory->EnumAdapters1(...)")
  else Create_Device.loop adapters 0 p

/-- The number of low bits a magnitude loses when it is cut to 24 significant
bits: how often it must be halved to fall below 2^24.  The first argument
bounds the count; 8 is enough for a 32-bit magnitude. -/
def excessBits : Nat → Nat → Nat
  | 0, _ => 0
  | fuel + 1, n => if n < 16777216 then 0 else excessBits fuel (n / 2) + 1

/-- The value of `(float)x` for an `int` x: the nearest number with a 24-bit
significand, ties to the even significand.  It is an integer. -/
def floatOfInt (x : Int) : Int :=
  let n := x.natAbs
  if n < 16777216 then x
  else
    let e := excessBits 8 n
    let q := n / 2 ^ e
    let r := n % 2 ^ e
    let q := if 2 ^ (e - 1) < r ∨ (r = 2 ^ (e - 1) ∧ q % 2 = 1) then q + 1 else q
    x.sign * ((q * 2 ^ e : Nat) : Int)

/-- `D3D12_VIEWPORT`.  The fields are `float`s; all values stored in them are
integers. -/
structure D3D12_VIEWPORT where
  TopLeftX : Int
  TopLeftY : Int
  Width : Int
  Height : Int
  MinDepth : Int
  MaxDepth : Int
  deriving DecidableEq, Repr

/-- `D3D12_RECT`. -/
structure D3D12_RECT where
  left : Int
  top : Int
  right : Int
  bottom : Int
  deriving DecidableEq, Repr

/-- `D3D12::Create_Viewport` for `d3d.width` and `d3d.height`, which `Init`
has set to the configured width and height. -/
def Create_Viewport (width height : Int) : D3D12_VIEWPORT :=
  { Width := floatOfInt width
    Height := floatOfInt height
    MinDepth := 0
    MaxDepth := 1
    TopLeftX := 0
    TopLeftY := 0 }

/-- `D3D12::Create_Scissor` for `d3d.width` and `d3d.height`. -/
def Create_Scissor (width height : Int) : D3D12_RECT :=
  { left := 0, top := 0, right := width, bottom := height }

/-! ## Reading the run -/

/-- The main loop of `wWinMain` runs `Update`, then `Render`, once per frame.
`Update` copies the constants into the mapped buffer and touches neither the
queue nor the fence: the result lists, frame by frame, the state in which
that copy is made. -/
def updateStates : List FrameEnv → D3D12Global → Option (List D3D12Global)
  | [], _ => some []
  | env :: frames, d3d =>
    match Render env d3d with
    | none => none
    | some next =>
      match updateStates frames next with
      | none => none
      | some states => some (d3d :: states)

/-- The effect of one API call on what is known of the latest submission,
whatever its allocator. -/
def AllocatorUse.submitStep (use : AllocatorUse) (e : Event) : AllocatorUse :=
  match e with
  | .executeCommandLists _ => .awaitingSignal
  | .signal v =>
    match use with
    | .awaitingSignal => .fenced v
    | _ => use
  | _ => use

/-- What the trace says about the most recent `ExecuteCommandLists`: none so
far; no signal scheduled behind it yet; or `value` scheduled for signal
behind it. -/
def submissionUse (trace : List Event) : AllocatorUse :=
  trace.foldl AllocatorUse.submitStep .unused

/-- The number of `WaitForSingleObjectEx` calls in the trace. -/
def waitCalls (trace : List Event) : Nat :=
  (trace.filter fun e =>
    match e with
    | .waitForSingleObject => true
    | _ => false).length

/-- Whether an element of a call sequence is one of the three calls (and not
GPU progress). -/
def SyncCall.isCall : SyncCall → Bool
  | .gpu _ => false
  | _ => true

/-- The indices at which iteration `i` of the loop of `Utils::FormatTexture`
reads `pixels`. -/
def FormatTexture.iterationReads (oldStride i : Nat) : List Nat :=
  [mulUINT i oldStride, addUINT (mulUINT i oldStride) 1, addUINT (mulUINT i oldStride) 2]

/-- The indices at which `Utils::FormatTexture` reads `pixels`, in order. -/
def FormatTexture.reads (info : TextureInfo) : List Nat :=
  ((List.range (toUINT (toINT (info.width * info.height)))).map
    (FormatTexture.iterationReads (toUINT info.stride))).flatten

/-- The bytes of the upload buffer the `memcpy` of `Upload_Texture` writes:
the offset of the first one and their number. -/
def Upload_Texture.range (texture : TextureInfo) : Int × Nat :=
  (texture.offset,
    toUINT64 (toINT (toINT (texture.width * texture.height) * texture.stride)))

/-- Sample adapters: the software adapter only. -/
def softwareOnly : List Adapter := [{ software := true, hrCreateDevice := S_OK }]

/-- What a read-back of the bytes `[offset, offset + size)` of a staging
resource returns. -/
def readBack (staging : List UInt8) (offset size : Nat) : List UInt8 :=
  (staging.drop offset).take size

/-- For every `GetCompletedValue` comparison in `MoveToNextFrame`, in call
order: the value the fence reported and the target it is compared with. -/
def moveComparisons (trace : List Event) : List (Nat × Nat) :=
  trace.filterMap fun e =>
    match e with
    | .getCompletedValue value target => some (value, target)
    | _ => none

/-- One frame after whose `Present` the swap chain still reports buffer 0. -/
def stuckFrames : List FrameEnv :=
  [{ gWait := 0, next := 0, gMove := 0, gReset := 0 }]

/-- Two frames: the first `Present` flips to buffer 1, after the second the
swap chain reports buffer 1 again. -/
def flipThenStuck : List FrameEnv :=
  [{ gWait := 0, next := 1, gMove := 0, gReset := 0 },
   { gWait := 0, next := 1, gMove := 0, gReset := 0 }]

/-! # Proofs -/

/-! ## The GPU side -/

theorem retireAll_nil (c : Nat) : retireAll c [] = c := rfl

theorem retireAll_cons (c : Nat) (e : Event) (l : List Event) :
    retireAll c (e :: l) = retireAll (retire e c) l := rfl

theorem pending_tail {lo : Nat} {e : Event} {q : List Event} (h : Pending lo (e :: q)) :
    Pending (retire e lo) q ∧ lo ≤ retire e lo := by
  cases e <;> simp_all [Pending, retire]

theorem pending_retireAll {dropped : List Event} :
    ∀ {lo : Nat} {q : List Event}, Pending lo (dropped ++ q) →
      Pending (retireAll lo dropped) q ∧ lo ≤ retireAll lo dropped ∧
      (∀ v, Event.signal v ∈ dropped → v ≤ retireAll lo dropped) ∧
      (∀ hi, lo ≤ hi → (∀ v, Event.signal v ∈ dropped → v ≤ hi) →
        retireAll lo dropped ≤ hi) := by
  induction dropped with
  | nil => intro lo q h; simpa [retireAll] using h
  | cons e l ih =>
    intro lo q h
    have h1 := pending_tail (by simpa using h : Pending lo (e :: (l ++ q)))
    obtain ⟨hp, hle, hsig, hhi⟩ := ih h1.1
    refine ⟨by simpa [retireAll_cons] using hp, ?_, ?_, ?_⟩
    · rw [retireAll_cons]; exact le_trans h1.2 hle
    · intro v hv
      rw [retireAll_cons]
      rcases List.mem_cons.1 hv with hv | hv
      · subst hv; simpa [retire] using hle
      · exact hsig v hv
    · intro hi hlo hall
      rw [retireAll_cons]
      apply hhi hi
      · cases e <;> simp_all [retire]
      · intro v hv; exact hall v (List.mem_cons_of_mem _ hv)

theorem gpuAdvance_eq (g : Nat) :
    ∀ d3d : D3D12Global, ∃ dropped,
      d3d.cmdQueue = dropped ++ (gpuAdvance g d3d).cmdQueue ∧
      gpuAdvance g d3d =
        { d3d with
          fenceCompleted := retireAll d3d.fenceCompleted dropped
          cmdQueue := (gpuAdvance g d3d).cmdQueue } := by
  induction g with
  | zero => intro d3d; exact ⟨[], by simp [gpuAdvance, retireAll]⟩
  | succ g ih =>
    intro d3d
    rcases hq : d3d.cmdQueue with _ | ⟨e, rest⟩
    · refine ⟨[], ?_⟩
      simp [gpuAdvance, hq, retireAll]
      cases d3d; simp_all
    · obtain ⟨dropped, h1, h2⟩ :=
        ih { d3d with fenceCompleted := retire e d3d.fenceCompleted, cmdQueue := rest }
      refine ⟨e :: dropped, ?_, ?_⟩
      · simp only [gpuAdvance, hq]
        simpa using h1
      · simp only [gpuAdvance, hq, retireAll_cons]
        rw [h2]

theorem waitFence_eq {target : Nat} {q : List Event} :
    ∀ {c c' : Nat} {q' : List Event}, waitFence target c q = some (c', q') →
      target ≤ c' ∧ ∃ dropped, q = dropped ++ q' ∧ c' = retireAll c dropped := by
  induction q with
  | nil =>
    intro c c' q' h
    simp only [waitFence] at h
    split at h
    · simp only [Option.some.injEq, Prod.mk.injEq] at h
      obtain ⟨rfl, rfl⟩ := h
      exact ⟨by assumption, [], by simp [retireAll]⟩
    · simp at h
  | cons e rest ih =>
    intro c c' q' h
    simp only [waitFence] at h
    split at h
    · simp only [Option.some.injEq, Prod.mk.injEq] at h
      obtain ⟨rfl, rfl⟩ := h
      exact ⟨by assumption, [], by simp [retireAll]⟩
    · obtain ⟨h1, dropped, h2, h3⟩ := ih h
      exact ⟨h1, e :: dropped, by simp [h2], by simp [retireAll_cons, h3]⟩

theorem waitFence_isSome {target : Nat} {q : List Event} :
    ∀ {c : Nat}, (target ≤ c ∨ ∃ v, Event.signal v ∈ q ∧ target ≤ v) →
      (waitFence target c q).isSome := by
  induction q with
  | nil =>
    intro c h
    rcases h with h | ⟨v, hv, _⟩
    · simp [waitFence, h]
    · simp at hv
  | cons e rest ih =>
    intro c h
    simp only [waitFence]
    split
    · simp
    · apply ih
      rcases h with h | ⟨v, hv, hle⟩
      · contradiction
      · rcases List.mem_cons.1 hv with hv | hv
        · subst hv; left; simpa [retire] using hle
        · right; exact ⟨v, hv, hle⟩

theorem pending_no_execute {q : List Event} :
    ∀ {lo : Nat} (hi : Nat), Pending lo q → (∀ v, Event.signal v ∈ q → v ≤ hi) → hi ≤ lo →
      ∀ a, Event.executeCommandLists a ∉ q := by
  induction q with
  | nil => intro lo hi _ _ _ a; simp
  | cons e rest ih =>
    intro lo hi hp hq hle a hmem
    have hrest : ∀ v, Event.signal v ∈ rest → v ≤ hi :=
      fun v hv => hq v (List.mem_cons_of_mem _ hv)
    cases e with
    | signal v =>
      simp only [Pending] at hp
      have : Event.executeCommandLists a ∈ rest := by simpa using hmem
      exact ih hi hp.2 hrest (le_trans hle hp.1) a this
    | executeCommandLists b =>
      simp only [Pending] at hp
      obtain ⟨⟨v, rest', hr, hlt⟩, _⟩ := hp
      have hv : v ≤ hi := hq v (by simp [hr])
      omega
    | close | getCurrentBackBufferIndex | getCompletedValue | setEventOnCompletion
      | waitForSingleObject | present | resetAllocator | resetCommandList =>
      simp only [Pending] at hp
      have : Event.executeCommandLists a ∈ rest := by simpa using hmem
      exact ih hi hp hrest hle a this


theorem pending_append_signal {q : List Event} (x : Nat) :
    ∀ {lo : Nat}, Pending lo q → (∀ v, Event.signal v ∈ q → v ≤ x) → lo ≤ x →
      Pending lo (q ++ [Event.signal x]) := by
  induction q with
  | nil => intro lo _ _ h; simpa [Pending] using h
  | cons e rest ih =>
    intro lo hp hq hle
    have hrest : ∀ v, Event.signal v ∈ rest → v ≤ x :=
      fun v hv => hq v (List.mem_cons_of_mem _ hv)
    cases e with
    | signal v =>
      simp only [Pending, List.cons_append] at hp ⊢
      exact ⟨hp.1, ih hp.2 hrest (hq v (List.mem_cons_self _ _))⟩
    | executeCommandLists b =>
      simp only [Pending, List.cons_append] at hp ⊢
      obtain ⟨⟨v, rest', hr, hlt⟩, hp2⟩ := hp
      exact ⟨⟨v, rest' ++ [Event.signal x], by simp [hr], hlt⟩, ih hp2 hrest hle⟩
    | close | getCurrentBackBufferIndex | getCompletedValue | setEventOnCompletion
      | waitForSingleObject | present | resetAllocator | resetCommandList =>
      simp only [Pending, List.cons_append] at hp ⊢
      exact ih hp hrest hle

theorem pending_append_execute {q : List Event} (a : Fin 2) (x : Nat) :
    ∀ {lo : Nat}, Pending lo q → (∀ v, Event.signal v ∈ q → v < x) → lo < x →
      Pending lo (q ++ [Event.executeCommandLists a, Event.signal x]) := by
  induction q with
  | nil => intro lo _ _ h; simp [Pending, h]; omega
  | cons e rest ih =>
    intro lo hp hq hle
    have hrest : ∀ v, Event.signal v ∈ rest → v < x :=
      fun v hv => hq v (List.mem_cons_of_mem _ hv)
    cases e with
    | signal v =>
      simp only [Pending, List.cons_append] at hp ⊢
      exact ⟨hp.1, ih hp.2 hrest (hq v (List.mem_cons_self _ _))⟩
    | executeCommandLists b =>
      simp only [Pending, List.cons_append] at hp ⊢
      obtain ⟨⟨v, rest', hr, hlt⟩, hp2⟩ := hp
      exact ⟨⟨v, rest' ++ [Event.executeCommandLists a, Event.signal x], by simp [hr], hlt⟩,
        ih hp2 hrest hle⟩
    | close | getCurrentBackBufferIndex | getCompletedValue | setEventOnCompletion
      | waitForSingleObject | present | resetAllocator | resetCommandList =>
      simp only [Pending, List.cons_append] at hp ⊢
      exact ih hp hrest hle

/-! ## Reading the trace -/

theorem signalValues_append (t u : List Event) :
    signalValues (t ++ u) = signalValues t ++ signalValues u := by
  simp [signalValues]

theorem moveBlocked_append (t u : List Event) :
    moveBlocked (t ++ u) = moveBlocked t ++ moveBlocked u := by
  simp [moveBlocked]

theorem allocatorUse_append (a : Fin 2) (t u : List Event) :
    allocatorUse a (t ++ u) = u.foldl (AllocatorUse.step a) (allocatorUse a t) := by
  simp [allocatorUse]

/-! ## The synchroniser calls, field by field -/

section fields

variable (d3d : D3D12Global)

@[simp]
theorem gpuAdvance_frameIndex (g : Nat) : (gpuAdvance g d3d).frameIndex = d3d.frameIndex := by
  induction g generalizing d3d with
  | zero => rfl
  | succ g ih => simp only [gpuAdvance]; split <;> simp [ih]

@[simp]
theorem gpuAdvance_fenceValues (g : Nat) : (gpuAdvance g d3d).fenceValues = d3d.fenceValues := by
  induction g generalizing d3d with
  | zero => rfl
  | succ g ih => simp only [gpuAdvance]; split <;> simp [ih]

@[simp]
theorem gpuAdvance_trace (g : Nat) : (gpuAdvance g d3d).trace = d3d.trace := by
  induction g generalizing d3d with
  | zero => rfl
  | succ g ih => simp only [gpuAdvance]; split <;> simp [ih]

@[simp]
theorem gpuAdvance_swapChainIndex (g : Nat) :
    (gpuAdvance g d3d).swapChainIndex = d3d.swapChainIndex := by
  induction g generalizing d3d with
  | zero => rfl
  | succ g ih => simp only [gpuAdvance]; split <;> simp [ih]

@[simp]
theorem gpuAdvance_cmdListAlloc (g : Nat) :
    (gpuAdvance g d3d).cmdListAlloc = d3d.cmdListAlloc := by
  induction g generalizing d3d with
  | zero => rfl
  | succ g ih => simp only [gpuAdvance]; split <;> simp [ih]

@[simp]
theorem gpuAdvance_cmdList (g : Nat) : (gpuAdvance g d3d).cmdList = d3d.cmdList := by
  induction g generalizing d3d with
  | zero => rfl
  | succ g ih => simp only [gpuAdvance]; split <;> simp [ih]

theorem gpuAdvance_retired (g : Nat) :
    ∃ dropped, d3d.cmdQueue = dropped ++ (gpuAdvance g d3d).cmdQueue ∧
      (gpuAdvance g d3d).fenceCompleted = retireAll d3d.fenceCompleted dropped := by
  obtain ⟨dropped, h1, h2⟩ := gpuAdvance_eq g d3d
  exact ⟨dropped, h1, by rw [h2]⟩

end fields

/-- What a wait that returns has done: the GPU retired `dropped`. -/
theorem WaitForFence_some {value : Nat} {d3d d3d' : D3D12Global}
    (h : WaitForFence value d3d = some d3d') :
    d3d'.frameIndex = d3d.frameIndex ∧ d3d'.fenceValues = d3d.fenceValues ∧
    d3d'.swapChainIndex = d3d.swapChainIndex ∧ d3d'.cmdListAlloc = d3d.cmdListAlloc ∧
    d3d'.cmdList = d3d.cmdList ∧
    d3d'.trace = d3d.trace ++ [.setEventOnCompletion value, .waitForSingleObject] ∧
    value ≤ d3d'.fenceCompleted ∧
    ∃ dropped, d3d.cmdQueue = dropped ++ d3d'.cmdQueue ∧
      d3d'.fenceCompleted = retireAll d3d.fenceCompleted dropped := by
  unfold WaitForFence at h
  split at h
  · simp at h
  · rename_i c q hw
    simp only [Option.some.injEq] at h
    subst h
    obtain ⟨h1, dropped, h2, h3⟩ := waitFence_eq hw
    exact ⟨rfl, rfl, rfl, rfl, rfl, rfl, h1, dropped, h2, h3⟩

theorem WaitForFence_isSome {value : Nat} {d3d : D3D12Global}
    (h : value ≤ d3d.fenceCompleted ∨ ∃ v, Event.signal v ∈ d3d.cmdQueue ∧ value ≤ v) :
    (WaitForFence value d3d).isSome := by
  have := waitFence_isSome h
  unfold WaitForFence
  split
  · simp_all
  · simp


/-! ## Preservation of the invariant -/

theorem retireAll_append (c : Nat) (l₁ l₂ : List Event) :
    retireAll c (l₁ ++ l₂) = retireAll (retireAll c l₁) l₂ := by
  simp [retireAll]

theorem SyncInv_retire {d3d d3d' : D3D12Global} (h : SyncInv d3d)
    (hfi : d3d'.frameIndex = d3d.frameIndex) (hfv : d3d'.fenceValues = d3d.fenceValues)
    (htr : signalValues d3d'.trace = signalValues d3d.trace) (dropped : List Event)
    (hq : d3d.cmdQueue = dropped ++ d3d'.cmdQueue)
    (hc : d3d'.fenceCompleted = retireAll d3d.fenceCompleted dropped) : SyncInv d3d' := by
  have hp := h.pending
  rw [hq] at hp
  obtain ⟨hp1, _, _, hp4⟩ := pending_retireAll hp
  have hmem : ∀ v, Event.signal v ∈ d3d'.cmdQueue → Event.signal v ∈ d3d.cmdQueue := by
    intro v hv; rw [hq]; exact List.mem_append_right _ hv
  refine ⟨?_, ?_, ?_, ?_, ?_, ?_⟩
  · rw [hc]; exact hp1
  · intro v hv; rw [hfv, hfi]; exact h.queue_le v (hmem v hv)
  · rw [hc, hfv, hfi]
    apply hp4 _ h.completed_le
    intro v hv
    exact h.queue_le v (by rw [hq]; exact List.mem_append_left _ hv)
  · intro j hj; rw [hfv, hfi]; exact h.other_lt j (by rwa [hfi] at hj)
  · intro v hv; rw [hfv, hfi]; exact h.trace_le v (by rwa [htr] at hv)
  · rw [htr]; exact h.sorted

theorem SyncInv_gpuAdvance {d3d : D3D12Global} (h : SyncInv d3d) (g : Nat) :
    SyncInv (gpuAdvance g d3d) := by
  obtain ⟨dropped, h1, h2⟩ := gpuAdvance_retired d3d g
  exact SyncInv_retire h (by simp) (by simp) (by simp) dropped h1 h2

theorem SyncInv_Signal {d3d : D3D12Global} (h : SyncInv d3d) :
    SyncInv (Signal (d3d.fenceValues d3d.frameIndex) d3d) := by
  refine ⟨?_, ?_, ?_, ?_, ?_, ?_⟩
  · exact pending_append_signal _ h.pending h.queue_le h.completed_le
  · intro v hv
    simp only [Signal, List.mem_append, List.mem_singleton, Event.signal.injEq] at hv
    rcases hv with hv | hv
    · exact h.queue_le v hv
    · simp [Signal, hv]
  · exact h.completed_le
  · exact h.other_lt
  · intro v hv
    simp only [Signal, signalValues_append, List.mem_append] at hv
    rcases hv with hv | hv
    · exact h.trace_le v hv
    · simp [signalValues] at hv; simp [Signal, hv]
  · simp only [Signal, signalValues_append, List.pairwise_append]
    refine ⟨h.sorted, by simp [signalValues], ?_⟩
    intro a ha b hb
    simp [signalValues] at hb
    subst hb
    exact h.trace_le a ha

theorem SyncInv_advance {d3d d3d' : D3D12Global} (h : SyncInv d3d) (next : Fin 2)
    (hfi : d3d'.frameIndex = next)
    (hfv : d3d'.fenceValues =
      Function.update d3d.fenceValues next (d3d.fenceValues d3d.frameIndex + 1))
    (hq : d3d'.cmdQueue = d3d.cmdQueue) (hc : d3d'.fenceCompleted = d3d.fenceCompleted)
    (htr : signalValues d3d'.trace = signalValues d3d.trace) : SyncInv d3d' := by
  have hcur : d3d'.fenceValues d3d'.frameIndex = d3d.fenceValues d3d.frameIndex + 1 := by
    rw [hfv, hfi]; simp
  refine ⟨?_, ?_, ?_, ?_, ?_, ?_⟩
  · rw [hc, hq]; exact h.pending
  · intro v hv; rw [hcur]; rw [hq] at hv; exact Nat.le_succ_of_le (h.queue_le v hv)
  · rw [hcur, hc]; exact Nat.le_succ_of_le h.completed_le
  · intro j hj
    rw [hcur]
    rw [hfi] at hj
    rw [hfv, Function.update_noteq hj]
    by_cases hj' : j = d3d.frameIndex
    · subst hj'; exact Nat.lt_succ_self _
    · exact Nat.lt_succ_of_lt (h.other_lt j hj')
  · intro v hv; rw [hcur]; rw [htr] at hv; exact Nat.le_succ_of_le (h.trace_le v hv)
  · rw [htr]; exact h.sorted

theorem SyncInv_incrementFenceValue {d3d : D3D12Global} (h : SyncInv d3d) :
    SyncInv (incrementFenceValue d3d) :=
  SyncInv_advance h d3d.frameIndex rfl rfl rfl rfl rfl

theorem SyncInv_Submit_CmdList {d3d : D3D12Global} (h : SyncInv d3d) :
    SyncInv (Submit_CmdList d3d) := by
  have hcur : (Submit_CmdList d3d).fenceValues (Submit_CmdList d3d).frameIndex =
      d3d.fenceValues d3d.frameIndex + 1 := by
    simp [Submit_CmdList, Signal, incrementFenceValue, ExecuteCommandLists, Close]
  have hsig : signalValues (Submit_CmdList d3d).trace =
      signalValues d3d.trace ++ [d3d.fenceValues d3d.frameIndex + 1] := by
    simp [Submit_CmdList, Signal, incrementFenceValue, ExecuteCommandLists, Close, signalValues]
  have hq : (Submit_CmdList d3d).cmdQueue =
      d3d.cmdQueue ++ [.executeCommandLists d3d.cmdListAlloc,
        .signal (d3d.fenceValues d3d.frameIndex + 1)] := by
    simp [Submit_CmdList, Signal, incrementFenceValue, ExecuteCommandLists, Close]
  have hfv : (Submit_CmdList d3d).fenceValues =
      Function.update d3d.fenceValues d3d.frameIndex (d3d.fenceValues d3d.frameIndex + 1) := rfl
  have hfi : (Submit_CmdList d3d).frameIndex = d3d.frameIndex := rfl
  refine ⟨?_, ?_, ?_, ?_, ?_, ?_⟩
  · rw [hq]
    exact pending_append_execute _ _ h.pending
      (fun v hv => Nat.lt_succ_of_le (h.queue_le v hv)) (Nat.lt_succ_of_le h.completed_le)
  · intro v hv
    rw [hcur]
    rw [hq] at hv
    simp only [List.mem_append, List.mem_cons, Event.signal.injEq, List.mem_singleton,
      List.not_mem_nil, or_false, false_or, reduceCtorEq] at hv
    rcases hv with hv | hv
    · exact Nat.le_succ_of_le (h.queue_le v hv)
    · omega
  · rw [hcur]; exact Nat.le_succ_of_le h.completed_le
  · intro j hj
    rw [hcur]
    rw [hfi] at hj
    rw [hfv, Function.update_noteq hj]
    exact Nat.lt_succ_of_lt (h.other_lt j hj)
  · intro v hv
    rw [hcur]
    rw [hsig] at hv
    simp only [List.mem_append, List.mem_singleton] at hv
    rcases hv with hv | hv
    · exact Nat.le_succ_of_le (h.trace_le v hv)
    · omega
  · rw [hsig, List.pairwise_append]
    refine ⟨h.sorted, by simp, ?_⟩
    intro a ha b hb
    simp only [List.mem_singleton] at hb
    subst hb
    exact Nat.le_succ_of_le (h.trace_le a ha)


/-! ## `WaitForGPU` and `MoveToNextFrame` -/

theorem WaitForGPU_unfold (d3d : D3D12Global) :
    ∃ d1, WaitForFence (d3d.fenceValues d3d.frameIndex)
        (Signal (d3d.fenceValues d3d.frameIndex) d3d) = some d1 ∧
      WaitForGPU d3d = some (incrementFenceValue d1) := by
  have hs : (WaitForFence (d3d.fenceValues d3d.frameIndex)
      (Signal (d3d.fenceValues d3d.frameIndex) d3d)).isSome :=
    WaitForFence_isSome (Or.inr ⟨d3d.fenceValues d3d.frameIndex, by simp [Signal], le_refl _⟩)
  obtain ⟨d1, h1⟩ := Option.isSome_iff_exists.1 hs
  refine ⟨d1, h1, ?_⟩
  unfold WaitForGPU
  have : (Signal (d3d.fenceValues d3d.frameIndex) d3d).fenceValues
      (Signal (d3d.fenceValues d3d.frameIndex) d3d).frameIndex =
      d3d.fenceValues d3d.frameIndex := rfl
  simp only [this, h1]

/-- `WaitForGPU` always returns; on return the fence has reached the target the
slot had on entry, and that target has been incremented. -/
theorem WaitForGPU_spec (d3d : D3D12Global) :
    ∃ d3d', WaitForGPU d3d = some d3d' ∧
      d3d'.frameIndex = d3d.frameIndex ∧
      d3d'.fenceValues = Function.update d3d.fenceValues d3d.frameIndex
        (d3d.fenceValues d3d.frameIndex + 1) ∧
      d3d'.swapChainIndex = d3d.swapChainIndex ∧ d3d'.cmdListAlloc = d3d.cmdListAlloc ∧
      d3d'.cmdList = d3d.cmdList ∧
      d3d'.trace = d3d.trace ++ [.signal (d3d.fenceValues d3d.frameIndex),
        .setEventOnCompletion (d3d.fenceValues d3d.frameIndex), .waitForSingleObject] ∧
      d3d.fenceValues d3d.frameIndex ≤ d3d'.fenceCompleted ∧
      ∃ dropped,
        d3d.cmdQueue ++ [.signal (d3d.fenceValues d3d.frameIndex)] = dropped ++ d3d'.cmdQueue ∧
        d3d'.fenceCompleted = retireAll d3d.fenceCompleted dropped := by
  obtain ⟨d1, h1, h2⟩ := WaitForGPU_unfold d3d
  obtain ⟨e1, e2, e3, e4, e5, e6, e7, dropped, e8, e9⟩ := WaitForFence_some h1
  refine ⟨_, h2, ?_, ?_, ?_, ?_, ?_, ?_, ?_, dropped, ?_, ?_⟩
  · simpa [incrementFenceValue] using e1
  · simp [incrementFenceValue, e1, e2, Signal]
  · simpa [incrementFenceValue] using e3
  · simpa [incrementFenceValue] using e4
  · simpa [incrementFenceValue] using e5
  · simp [incrementFenceValue, e6, Signal]
  · simpa [incrementFenceValue] using e7
  · simpa [incrementFenceValue, Signal] using e8
  · simpa [incrementFenceValue, Signal] using e9

theorem SyncInv_WaitForGPU {d3d d3d' : D3D12Global} (h : SyncInv d3d)
    (hw : WaitForGPU d3d = some d3d') : SyncInv d3d' := by
  obtain ⟨d1, h1, h2⟩ := WaitForGPU_unfold d3d
  obtain ⟨e1, e2, _, _, _, e6, _, dropped, e8, e9⟩ := WaitForFence_some h1
  have hd : d3d' = incrementFenceValue d1 := by
    rw [h2] at hw; exact (Option.some.inj hw).symm
  rw [hd]
  apply SyncInv_incrementFenceValue
  exact SyncInv_retire (SyncInv_Signal h) e1 e2 (by simp [e6, signalValues_append, signalValues])
    dropped e8 e9

theorem gpuAdvance_congr (g : Nat) :
    ∀ (d₁ d₂ : D3D12Global), d₁.fenceCompleted = d₂.fenceCompleted → d₁.cmdQueue = d₂.cmdQueue →
      (gpuAdvance g d₁).fenceCompleted = (gpuAdvance g d₂).fenceCompleted ∧
      (gpuAdvance g d₁).cmdQueue = (gpuAdvance g d₂).cmdQueue := by
  induction g with
  | zero => intro d₁ d₂ h1 h2; exact ⟨h1, h2⟩
  | succ g ih =>
    intro d₁ d₂ h1 h2
    rcases hq : d₂.cmdQueue with _ | ⟨e, rest⟩
    · rw [hq] at h2
      simp only [gpuAdvance, h2, hq]
      exact ⟨h1, trivial⟩
    · rw [hq] at h2
      simp only [gpuAdvance, h2, hq]
      exact ih _ _ (by simp [h1]) rfl

/-- What `MoveToNextFrame` has done when it returns.  `obs` is the value
`GetCompletedValue` reported. -/
theorem MoveToNextFrame_some {g : Nat} {d3d d3d' : D3D12Global}
    (h : MoveToNextFrame g d3d = some d3d') :
    d3d'.frameIndex = d3d.swapChainIndex ∧
    d3d'.fenceValues = Function.update d3d.fenceValues d3d.swapChainIndex
      (d3d.fenceValues d3d.frameIndex + 1) ∧
    d3d'.swapChainIndex = d3d.swapChainIndex ∧ d3d'.cmdListAlloc = d3d.cmdListAlloc ∧
    d3d'.cmdList = d3d.cmdList ∧
    d3d'.trace = d3d.trace ++
      [.signal (d3d.fenceValues d3d.frameIndex),
       .getCurrentBackBufferIndex d3d.swapChainIndex,
       .getCompletedValue (gpuAdvance g (Signal (d3d.fenceValues d3d.frameIndex) d3d)).fenceCompleted
          (d3d.fenceValues d3d.swapChainIndex)] ++
      (if (gpuAdvance g (Signal (d3d.fenceValues d3d.frameIndex) d3d)).fenceCompleted <
            d3d.fenceValues d3d.swapChainIndex then
          [.setEventOnCompletion (d3d.fenceValues d3d.swapChainIndex), .waitForSingleObject]
        else []) ∧
    d3d.fenceValues d3d.swapChainIndex ≤ d3d'.fenceCompleted ∧
    ∃ dropped,
      d3d.cmdQueue ++ [.signal (d3d.fenceValues d3d.frameIndex)] = dropped ++ d3d'.cmdQueue ∧
      d3d'.fenceCompleted = retireAll d3d.fenceCompleted dropped := by
  unfold MoveToNextFrame at h
  simp only [] at h
  generalize hS : Signal (d3d.fenceValues d3d.frameIndex) d3d = S at h ⊢
  have S1 : S.swapChainIndex = d3d.swapChainIndex := by rw [← hS]; rfl
  have S2 : S.fenceValues = d3d.fenceValues := by rw [← hS]; rfl
  have S3 : S.cmdListAlloc = d3d.cmdListAlloc := by rw [← hS]; rfl
  have S4 : S.cmdList = d3d.cmdList := by rw [← hS]; rfl
  have S5 : S.trace = d3d.trace ++ [.signal (d3d.fenceValues d3d.frameIndex)] := by
    rw [← hS]; rfl
  have S6 : S.cmdQueue = d3d.cmdQueue ++ [.signal (d3d.fenceValues d3d.frameIndex)] := by
    rw [← hS]; rfl
  have S7 : S.fenceCompleted = d3d.fenceCompleted := by rw [← hS]; rfl
  obtain ⟨hc, hq⟩ := gpuAdvance_congr g
    { S with
      frameIndex := S.swapChainIndex
      trace := S.trace ++ [.getCurrentBackBufferIndex S.swapChainIndex] }
    S rfl rfl
  obtain ⟨drop1, hd1, hd2⟩ := gpuAdvance_retired S g
  rw [S6] at hd1
  rw [S7] at hd2
  simp only [gpuAdvance_frameIndex, gpuAdvance_fenceValues, gpuAdvance_trace, hc] at h
  split at h
  · simp at h
  · rename_i dm hm
    simp only [Option.some.injEq] at h
    subst h
    split at hm
    · rename_i hlt
      obtain ⟨e1, e2, e3, e4, e5, e6, e7, drop2, e8, e9⟩ := WaitForFence_some hm
      simp only [gpuAdvance_frameIndex, gpuAdvance_fenceValues, gpuAdvance_trace,
        gpuAdvance_swapChainIndex, gpuAdvance_cmdListAlloc, gpuAdvance_cmdList, hc, hq]
        at e1 e2 e3 e4 e5 e6 e7 e8 e9 hlt
      simp only [S1, S2, S3, S4, S5] at e1 e2 e3 e4 e5 e6 e7 e8 e9 hlt
      refine ⟨e1, ?_, e3, e4, e5, ?_, e7, drop1 ++ drop2, ?_, ?_⟩
      · simp [e1, e2]
      · simp [e6, hlt]
      · rw [hd1, e8]; simp
      · rw [e9, hd2, retireAll_append]
    · rename_i hge
      simp only [Option.some.injEq] at hm
      subst hm
      simp only [gpuAdvance_frameIndex, gpuAdvance_fenceValues, gpuAdvance_trace,
        gpuAdvance_swapChainIndex, gpuAdvance_cmdListAlloc, gpuAdvance_cmdList, hc, hq]
        at hge ⊢
      simp only [S1, S2, S3, S4, S5] at hge ⊢
      refine ⟨trivial, trivial, trivial, trivial, trivial, ?_, ?_, drop1, hd1, hd2⟩
      · simp [hge]
      · exact Nat.le_of_not_lt hge

theorem MoveToNextFrame_isSome {d3d : D3D12Global} (h : SyncInv d3d) (g : Nat) :
    (MoveToNextFrame g d3d).isSome := by
  have hS := SyncInv_Signal h
  have htarget : d3d.fenceValues d3d.swapChainIndex ≤ d3d.fenceValues d3d.frameIndex := by
    by_cases hj : d3d.swapChainIndex = d3d.frameIndex
    · rw [hj]
    · exact le_of_lt (h.other_lt _ hj)
  unfold MoveToNextFrame
  simp only []
  generalize hSd : Signal (d3d.fenceValues d3d.frameIndex) d3d = S at hS ⊢
  have S1 : S.swapChainIndex = d3d.swapChainIndex := by rw [← hSd]; rfl
  have S2 : S.fenceValues = d3d.fenceValues := by rw [← hSd]; rfl
  have S6 : S.cmdQueue = d3d.cmdQueue ++ [.signal (d3d.fenceValues d3d.frameIndex)] := by
    rw [← hSd]; rfl
  obtain ⟨hc, hq⟩ := gpuAdvance_congr g
    { S with
      frameIndex := S.swapChainIndex
      trace := S.trace ++ [.getCurrentBackBufferIndex S.swapChainIndex] }
    S rfl rfl
  obtain ⟨drop1, hd1, hd2⟩ := gpuAdvance_retired S g
  have hp := hS.pending
  rw [hd1] at hp
  obtain ⟨_, _, hp3, _⟩ := pending_retireAll hp
  simp only [gpuAdvance_frameIndex, gpuAdvance_fenceValues, gpuAdvance_trace, hc]
  have hw : (WaitForFence (S.fenceValues S.swapChainIndex)
      { gpuAdvance g { S with
          frameIndex := S.swapChainIndex
          trace := S.trace ++ [.getCurrentBackBufferIndex S.swapChainIndex] } with
        trace := S.trace ++ [.getCurrentBackBufferIndex S.swapChainIndex] ++
          [.getCompletedValue (gpuAdvance g S).fenceCompleted
            (S.fenceValues S.swapChainIndex)] }).isSome := by
    apply WaitForFence_isSome
    simp only [hq, hc]
    simp only [S1, S2]
    have hmem : Event.signal (d3d.fenceValues d3d.frameIndex) ∈
        drop1 ++ (gpuAdvance g S).cmdQueue := by
      rw [← hd1, S6]; simp
    rcases List.mem_append.1 hmem with hm | hm
    · left
      rw [hd2]
      exact le_trans htarget (hp3 _ hm)
    · right
      exact ⟨_, hm, htarget⟩
  simp only [gpuAdvance_frameIndex, gpuAdvance_fenceValues, gpuAdvance_trace, hc] at hw
  split
  · rename_i hnone
    split at hnone
    · rw [hnone] at hw; simp at hw
    · simp at hnone
  · simp

theorem SyncInv_MoveToNextFrame {g : Nat} {d3d d3d' : D3D12Global} (h : SyncInv d3d)
    (hm : MoveToNextFrame g d3d = some d3d') : SyncInv d3d' := by
  obtain ⟨e1, e2, _, _, _, e6, _, dropped, e8, e9⟩ := MoveToNextFrame_some hm
  have hR : SyncInv { Signal (d3d.fenceValues d3d.frameIndex) d3d with
      fenceCompleted := d3d'.fenceCompleted, cmdQueue := d3d'.cmdQueue } :=
    SyncInv_retire (SyncInv_Signal h) rfl rfl rfl dropped e8 e9
  refine SyncInv_advance hR d3d.swapChainIndex e1 e2 rfl rfl ?_
  rw [e6]
  split <;> simp [Signal, signalValues]

theorem SyncInv_Present {d3d : D3D12Global} (h : SyncInv d3d) (next : Fin 2) :
    SyncInv (Present next d3d) :=
  SyncInv_retire h rfl rfl (by simp [Present, signalValues]) [] rfl rfl

theorem SyncInv_Reset_CommandList {d3d : D3D12Global} (h : SyncInv d3d) :
    SyncInv (Reset_CommandList d3d) :=
  SyncInv_retire h rfl rfl (by simp [Reset_CommandList, signalValues]) [] rfl rfl

theorem SyncInv_Build_CmdList {d3d : D3D12Global} (h : SyncInv d3d) :
    SyncInv (UI.Build_CmdList (Build_CmdList d3d)) :=
  SyncInv_retire h rfl rfl rfl [] rfl rfl

/-- When `WaitForGPU` returns, no execution is left in the queue. -/
theorem WaitForGPU_idle {d3d d3d' : D3D12Global} (h : SyncInv d3d)
    (hw : WaitForGPU d3d = some d3d') : ∀ a, Event.executeCommandLists a ∉ d3d'.cmdQueue := by
  obtain ⟨d1, h1, h2⟩ := WaitForGPU_unfold d3d
  obtain ⟨e1, e2, _, _, _, e6, e7, dropped, e8, e9⟩ := WaitForFence_some h1
  have hd : d3d' = incrementFenceValue d1 := by
    rw [h2] at hw; exact (Option.some.inj hw).symm
  have h1inv : SyncInv d1 :=
    SyncInv_retire (SyncInv_Signal h) e1 e2 (by simp [e6, signalValues_append, signalValues])
      dropped e8 e9
  rw [hd]
  have hcur : d1.fenceValues d1.frameIndex = d3d.fenceValues d3d.frameIndex := by
    rw [e1, e2]; rfl
  exact pending_no_execute (d3d.fenceValues d3d.frameIndex) h1inv.pending
    (fun v hv => hcur ▸ h1inv.queue_le v hv) e7


/-! ## Allocator use and reset safety -/

theorem resetSafe_mono {use : AllocatorUse} {c c' : Nat} (h : use.resetSafe c) (hle : c ≤ c') :
    use.resetSafe c' := by
  cases use with
  | unused => trivial
  | awaitingSignal => exact h.elim
  | fenced v => exact le_trans h hle

theorem foldl_step_stable (a : Fin 2) {ext : List Event} :
    ∀ {use : AllocatorUse} {c : Nat}, use.resetSafe c →
      (∀ b, Event.executeCommandLists b ∉ ext) →
      ext.foldl (AllocatorUse.step a) use = use := by
  induction ext with
  | nil => intro use c _ _; rfl
  | cons e rest ih =>
    intro use c hs hno
    have hstep : AllocatorUse.step a use e = use := by
      cases e with
      | executeCommandLists b => exact absurd (List.mem_cons_self _ _) (hno b)
      | signal v => cases use <;> simp_all [AllocatorUse.step, AllocatorUse.resetSafe]
      | close | getCurrentBackBufferIndex | getCompletedValue | setEventOnCompletion
        | waitForSingleObject | present | resetAllocator | resetCommandList => rfl
    rw [List.foldl_cons, hstep]
    exact ih hs (fun b hb => hno b (List.mem_cons_of_mem _ hb))

theorem allocatorUse_stable (a : Fin 2) {t ext : List Event} {c : Nat}
    (hs : (allocatorUse a t).resetSafe c) (hno : ∀ b, Event.executeCommandLists b ∉ ext) :
    allocatorUse a (t ++ ext) = allocatorUse a t := by
  rw [allocatorUse_append]
  exact foldl_step_stable a hs hno

theorem ResetsSafe_append {t ext : List Event} (h : ResetsSafe t)
    (hno : ∀ a c b, Event.resetAllocator a c b ∉ ext) : ResetsSafe (t ++ ext) := by
  intro p a c busy hp
  by_cases hlt : p < t.length
  · rw [List.getElem?_append_left hlt] at hp
    rw [List.take_append_of_le_length (le_of_lt hlt)]
    exact h p a c busy hp
  · rw [List.getElem?_append_right (Nat.le_of_not_lt hlt)] at hp
    exact absurd (List.getElem?_mem hp) (hno a c busy)

theorem ResetsSafe_append_reset {t : List Event} (h : ResetsSafe t) (a : Fin 2) (c : Nat)
    (hs : (allocatorUse a t).resetSafe c) :
    ResetsSafe (t ++ [.resetAllocator a c false, .resetCommandList a]) := by
  intro p a' c' busy hp
  by_cases hlt : p < t.length
  · rw [List.getElem?_append_left hlt] at hp
    rw [List.take_append_of_le_length (le_of_lt hlt)]
    exact h p a' c' busy hp
  · have hge := Nat.le_of_not_lt hlt
    rw [List.getElem?_append_right hge] at hp
    obtain ⟨k, hk⟩ : ∃ k, p = t.length + k := ⟨p - t.length, by omega⟩
    subst hk
    simp only [Nat.add_sub_cancel_left] at hp
    match k, hp with
    | 0, hp =>
      simp only [List.getElem?_cons_zero, Option.some.injEq, Event.resetAllocator.injEq] at hp
      obtain ⟨rfl, rfl, rfl⟩ := hp
      refine ⟨rfl, ?_⟩
      simpa using hs
    | 1, hp => simp at hp
    | k + 2, hp => simp at hp


/-! ## Preservation of quietness -/

theorem Quiet_step {d3d d3d' : D3D12Global} (h : Quiet d3d) (hs : SyncInv d3d')
    (ext : List Event) (htr : d3d'.trace = d3d.trace ++ ext)
    (hexec : ∀ b, Event.executeCommandLists b ∉ ext)
    (hreset : ∀ a c b, Event.resetAllocator a c b ∉ ext)
    (hidle : ∀ a, Event.executeCommandLists a ∉ d3d'.cmdQueue)
    (hmono : d3d.fenceCompleted ≤ d3d'.fenceCompleted) : Quiet d3d' := by
  refine ⟨hs, hidle, ?_, ?_⟩
  · intro a
    rw [htr, allocatorUse_stable a (h.fenced a) hexec]
    exact resetSafe_mono (h.fenced a) hmono
  · rw [htr]; exact ResetsSafe_append h.safe hreset

theorem gpuAdvance_mono {d3d : D3D12Global} (h : SyncInv d3d) (g : Nat) :
    d3d.fenceCompleted ≤ (gpuAdvance g d3d).fenceCompleted ∧
    ∀ e, e ∈ (gpuAdvance g d3d).cmdQueue → e ∈ d3d.cmdQueue := by
  obtain ⟨dropped, h1, h2⟩ := gpuAdvance_retired d3d g
  have hp := h.pending
  rw [h1] at hp
  refine ⟨?_, ?_⟩
  · rw [h2]; exact (pending_retireAll hp).2.1
  · intro e he; rw [h1]; exact List.mem_append_right _ he

theorem Quiet_gpuAdvance {d3d : D3D12Global} (h : Quiet d3d) (g : Nat) :
    Quiet (gpuAdvance g d3d) := by
  obtain ⟨h1, h2⟩ := gpuAdvance_mono h.sync g
  exact Quiet_step h (SyncInv_gpuAdvance h.sync g) [] (by simp) (by simp) (by simp)
    (fun a ha => h.idle a (h2 _ ha)) h1

theorem Quiet_Present {d3d : D3D12Global} (h : Quiet d3d) (next : Fin 2) :
    Quiet (Present next d3d) :=
  Quiet_step h (SyncInv_Present h.sync next) [.present] rfl (by simp) (by simp) h.idle
    (le_refl _)

theorem Quiet_MoveToNextFrame {g : Nat} {d3d d3d' : D3D12Global} (h : Quiet d3d)
    (hm : MoveToNextFrame g d3d = some d3d') : Quiet d3d' := by
  obtain ⟨_, _, _, _, _, e6, _, dropped, e8, e9⟩ := MoveToNextFrame_some hm
  have hp := (SyncInv_Signal h.sync).pending
  simp only [Signal] at hp
  rw [e8] at hp
  refine Quiet_step h (SyncInv_MoveToNextFrame h.sync hm) _ (by rw [e6, List.append_assoc])
    ?_ ?_ ?_ ?_
  · intro b; split <;> simp
  · intro a c b; split <;> simp
  · intro a ha
    have : Event.executeCommandLists a ∈
        d3d.cmdQueue ++ [.signal (d3d.fenceValues d3d.frameIndex)] := by
      rw [e8]; exact List.mem_append_right _ ha
    simp only [List.mem_append, List.mem_singleton, reduceCtorEq, or_false] at this
    exact h.idle a this
  · rw [e9]; exact (pending_retireAll hp).2.1

theorem Quiet_Reset_CommandList {d3d : D3D12Global} (h : Quiet d3d) :
    Quiet (Reset_CommandList d3d) := by
  have hbusy : decide (Event.executeCommandLists d3d.frameIndex ∈ d3d.cmdQueue) = false := by
    simpa using h.idle d3d.frameIndex
  have htr : (Reset_CommandList d3d).trace = d3d.trace ++
      [.resetAllocator d3d.frameIndex d3d.fenceCompleted false,
       .resetCommandList d3d.frameIndex] := by
    simp [Reset_CommandList, hbusy]
  refine ⟨SyncInv_Reset_CommandList h.sync, h.idle, ?_, ?_⟩
  · intro a
    rw [htr, allocatorUse_stable a (h.fenced a) (by simp)]
    exact h.fenced a
  · rw [htr]
    exact ResetsSafe_append_reset h.safe _ _ (h.fenced _)

/-- Submitting a frame and waiting for the GPU leaves the GPU with nothing to
execute. -/
theorem Quiet_submit_wait {d3d d3d' : D3D12Global} (h : FrameInv d3d) (g : Nat)
    (hw : WaitForGPU (gpuAdvance g (Submit_CmdList (UI.Build_CmdList (Build_CmdList d3d))))
      = some d3d') :
    Quiet d3d' ∧ d3d.fenceValues d3d.frameIndex + 1 ≤ d3d'.fenceCompleted ∧
      d3d'.frameIndex = d3d.frameIndex ∧
      d3d'.fenceValues = Function.update d3d.fenceValues d3d.frameIndex
        (d3d.fenceValues d3d.frameIndex + 2) ∧
      moveBlocked d3d'.trace = moveBlocked d3d.trace := by
  have hB := SyncInv_Build_CmdList h.quiet.sync
  have hS := SyncInv_Submit_CmdList hB
  have hG := SyncInv_gpuAdvance hS g
  have hW := SyncInv_WaitForGPU hG hw
  obtain ⟨d5, h5, e1, e2, _, _, _, e6, e7, dropped, e8, e9⟩ :=
    WaitForGPU_spec (gpuAdvance g (Submit_CmdList (UI.Build_CmdList (Build_CmdList d3d))))
  rw [hw] at h5
  obtain rfl := Option.some.inj h5
  simp only [gpuAdvance_frameIndex, gpuAdvance_fenceValues, gpuAdvance_trace] at e1 e2 e6 e7 e8 e9
  have hfi : (Submit_CmdList (UI.Build_CmdList (Build_CmdList d3d))).frameIndex
      = d3d.frameIndex := rfl
  have hfv : (Submit_CmdList (UI.Build_CmdList (Build_CmdList d3d))).fenceValues
      = Function.update d3d.fenceValues d3d.frameIndex (d3d.fenceValues d3d.frameIndex + 1) :=
    rfl
  have htr : (Submit_CmdList (UI.Build_CmdList (Build_CmdList d3d))).trace = d3d.trace ++
      [.close, .executeCommandLists d3d.cmdListAlloc,
        .signal (d3d.fenceValues d3d.frameIndex + 1)] := by
    simp [Submit_CmdList, Signal, incrementFenceValue, ExecuteCommandLists, Close,
      UI.Build_CmdList, Build_CmdList]
  simp only [hfi, hfv, Function.update_same, htr, Function.update_idem] at e1 e2 e6 e7
  refine ⟨⟨hW, WaitForGPU_idle hG hw, ?_, ?_⟩, e7, e1, ?_, ?_⟩
  · intro a
    rw [e6, List.append_assoc, allocatorUse_append]
    have h0 := h.quiet.fenced a
    by_cases ha : d3d.cmdListAlloc = a
    · simp [AllocatorUse.step, ha, AllocatorUse.resetSafe, e7]
    · have hmono : d3d.fenceCompleted ≤ d3d'.fenceCompleted :=
        le_trans (le_trans h.quiet.sync.completed_le (Nat.le_succ _)) e7
      generalize allocatorUse a d3d.trace = u at h0 ⊢
      cases u with
      | unused => simp [AllocatorUse.step, ha, AllocatorUse.resetSafe]
      | awaitingSignal => exact h0.elim
      | fenced v =>
        simp only [List.cons_append, List.nil_append, List.foldl_cons, List.foldl_nil,
          AllocatorUse.step, ha, if_false, AllocatorUse.resetSafe]
        exact le_trans h0 hmono
  · rw [e6, List.append_assoc]
    exact ResetsSafe_append h.quiet.safe (by simp)
  · rw [e2]
  · rw [e6]; simp [moveBlocked]


/-! ## One frame -/

/-- The effect of one `Render` call from a state between two frames: it
returns, the invariant holds again, `frameIndex` is the back buffer the swap
chain reported, and `MoveToNextFrame` made one comparison, which did not lead
to blocking when the swap chain moved to the other buffer. -/
theorem Render_spec (env : FrameEnv) {d3d : D3D12Global} (h : FrameInv d3d) :
    ∃ d3d' blocked, Render env d3d = some d3d' ∧ FrameInv d3d' ∧
      d3d'.frameIndex = env.next ∧
      d3d'.fenceValues d3d'.frameIndex = d3d.fenceValues d3d.frameIndex + 3 ∧
      moveBlocked d3d'.trace = moveBlocked d3d.trace ++ [blocked] ∧
      (env.next ≠ d3d.frameIndex → blocked = false) := by
  obtain ⟨d5, hw, _⟩ :=
    WaitForGPU_spec (gpuAdvance env.gWait (Submit_CmdList (UI.Build_CmdList (Build_CmdList d3d))))
  obtain ⟨q5, c5, f5, v5, b5⟩ := Quiet_submit_wait h env.gWait hw
  have q6 := Quiet_Present q5 env.next
  obtain ⟨d7, hm⟩ := Option.isSome_iff_exists.1 (MoveToNextFrame_isSome q6.sync env.gMove)
  have q7 := Quiet_MoveToNextFrame q6 hm
  have q9 := Quiet_Reset_CommandList (Quiet_gpuAdvance q7 env.gReset)
  obtain ⟨m1, m2, m3, _, _, m6, _, _, _, _⟩ := MoveToNextFrame_some hm
  have hobs := (gpuAdvance_mono (SyncInv_Signal q6.sync) env.gMove).1
  have P1 : (Present env.next d5).frameIndex = d5.frameIndex := rfl
  have P2 : (Present env.next d5).fenceValues = d5.fenceValues := rfl
  have P3 : (Present env.next d5).swapChainIndex = env.next := rfl
  have P4 : (Present env.next d5).trace = d5.trace ++ [.present] := rfl
  have P5 : (Signal (d5.fenceValues d5.frameIndex) (Present env.next d5)).fenceCompleted =
      d5.fenceCompleted := rfl
  simp only [P1, P2, P3, P4] at m1 m2 m3 m6 hobs
  rw [P5] at hobs
  generalize (gpuAdvance env.gMove
    (Signal (d5.fenceValues d5.frameIndex) (Present env.next d5))).fenceCompleted = obs
    at m6 hobs
  refine ⟨Reset_CommandList (gpuAdvance env.gReset d7), decide (obs < d5.fenceValues env.next),
    ?_, ⟨q9, ?_, ?_⟩, ?_, ?_, ?_, ?_⟩
  · simp [Render, hw, hm]
  · simp [Reset_CommandList]
  · simp [Reset_CommandList, m1, m3]
  · simp [Reset_CommandList, m1]
  · simp only [Reset_CommandList, gpuAdvance_frameIndex, gpuAdvance_fenceValues, m1, m2, f5, v5]
    simp
  · simp only [Reset_CommandList, gpuAdvance_trace, m6, moveBlocked_append, b5]
    have hb : moveBlocked (if obs < d5.fenceValues env.next then
        [Event.setEventOnCompletion (d5.fenceValues env.next), Event.waitForSingleObject]
        else []) = [] := by
      split <;> rfl
    rw [hb]
    simp [moveBlocked]
  · intro hne
    simp only [decide_eq_false_iff_not, not_lt]
    have h1 : d5.fenceValues env.next = d3d.fenceValues env.next := by
      rw [v5, Function.update_noteq hne]
    have h2 := h.quiet.sync.other_lt env.next hne
    rw [h1]
    omega

/-! ## The commands recorded by the texture uploads -/

theorem Upload_Texture_some {d3d d3d' : D3D12Global} {dest src : Resource}
    {staging staging' : List UInt8} {texture : TextureInfo} {k : Nat}
    (h : Upload_Texture d3d dest src staging texture k = some (d3d', staging')) :
    d3d' = { d3d with
      cmdList := d3d.cmdList ++
        [.CopyTextureRegion dest k src (Upload_Texture.footprint texture)] } ∧
    memcpy staging texture.offset texture.pixels
      (toUINT64 (toINT (toINT (texture.width * texture.height) * texture.stride)))
      = some staging' := by
  unfold Upload_Texture at h
  split at h
  · simp at h
  · rename_i st hst
    simp only [Option.some.injEq, Prod.mk.injEq] at h
    exact ⟨h.1.symm, by rw [hst, h.2]⟩

theorem upload_some {textures : List TextureInfo} :
    ∀ {d3d d3d' : D3D12Global} {staging staging' : List UInt8} {first : Nat},
      Load_Blue_Noise_Texture_Array.upload d3d staging textures first = some (d3d', staging') →
      d3d' = { d3d with
        cmdList := d3d.cmdList ++
          List.zipWith
            (fun i t => Command.CopyTextureRegion .blueNoiseArray i
              .blueNoiseArrayUploadResource (Upload_Texture.footprint t))
            (List.range' first textures.length) textures } := by
  induction textures with
  | nil =>
    intro d3d d3d' staging staging' first h
    simp only [Load_Blue_Noise_Texture_Array.upload, Option.some.injEq, Prod.mk.injEq] at h
    simp [← h.1]
  | cons t rest ih =>
    intro d3d d3d' staging staging' first h
    simp only [Load_Blue_Noise_Texture_Array.upload] at h
    split at h
    · simp at h
    · rename_i d1 st1 h1
      obtain ⟨e1, _⟩ := Upload_Texture_some h1
      have e2 := ih h
      rw [e2, e1]
      simp [List.range'_succ]

theorem textures_length {files : Nat → Option StbImage} :
    ∀ {num : Nat} {textures : List TextureInfo},
      Load_Blue_Noise_Texture_Array.textures files num = some textures →
      textures.length = num := by
  intro num
  induction num with
  | zero =>
    intro textures h
    simp only [Load_Blue_Noise_Texture_Array.textures, Option.some.injEq] at h
    simp [← h]
  | succ i ih =>
    intro textures h
    simp only [Load_Blue_Noise_Texture_Array.textures, Option.bind_eq_bind,
      Option.bind_eq_some] at h
    obtain ⟨ts, hts, t, _, h⟩ := h
    have := ih hts
    split at h
    · simp only [Option.bind_eq_some, Option.some.injEq] at h
      obtain ⟨prev, _, rfl⟩ := h
      simp [this]
    · simp only [Option.some.injEq] at h
      simp [← h, this]

/-- The commands `Load_Blue_Noise_Texture_Array` has recorded when it returns. -/
theorem Load_Blue_Noise_Texture_Array_some {d3d d3d' : D3D12Global}
    {files : Nat → Option StbImage} {num : Nat} {staging : List UInt8}
    (h : Load_Blue_Noise_Texture_Array d3d files num = some (d3d', staging)) :
    ∃ textures, Load_Blue_Noise_Texture_Array.textures files num = some textures ∧
      d3d' = { d3d with
        cmdList := d3d.cmdList ++
          List.zipWith
            (fun i t => Command.CopyTextureRegion .blueNoiseArray i
              .blueNoiseArrayUploadResource (Upload_Texture.footprint t))
            (List.range num) textures ++
          [.ResourceBarrier .blueNoiseArray .COPY_DEST .PIXEL_SHADER_RESOURCE
            D3D12_RESOURCE_BARRIER_ALL_SUBRESOURCES] } := by
  simp only [Load_Blue_Noise_Texture_Array, Option.bind_eq_bind, Option.bind_eq_some] at h
  obtain ⟨textures, hts, first, _, ⟨d1, st1⟩, hup, h⟩ := h
  simp only [Option.some.injEq, Prod.mk.injEq] at h
  refine ⟨textures, hts, ?_⟩
  have e := upload_some hup
  rw [textures_length hts, ← List.range_eq_range'] at e
  rw [← h.1, e]

/-- The commands `Load_Blue_Noise_Texture` has recorded when it returns. -/
theorem Load_Blue_Noise_Texture_some {d3d d3d' : D3D12Global} {file : Option StbImage}
    {staging : List UInt8} (h : Load_Blue_Noise_Texture d3d file = some (d3d', staging)) :
    ∃ texture, LoadTexture file = some texture ∧
      d3d' = { d3d with
        cmdList := d3d.cmdList ++
          [.CopyTextureRegion .blueNoise 0 .blueNoiseUploadResource
              (Upload_Texture.footprint texture),
           .ResourceBarrier .blueNoise .COPY_DEST .PIXEL_SHADER_RESOURCE
              D3D12_RESOURCE_BARRIER_ALL_SUBRESOURCES] } := by
  simp only [Load_Blue_Noise_Texture, Option.bind_eq_bind, Option.bind_eq_some] at h
  obtain ⟨texture, ht, ⟨d1, st1⟩, hup, h⟩ := h
  simp only [Option.some.injEq, Prod.mk.injEq] at h
  obtain ⟨e1, _⟩ := Upload_Texture_some hup
  refine ⟨texture, ht, ?_⟩
  rw [← h.1, e1]
  simp


/-! ## `Init` and the main loop -/

/-- The state `Init` returns is determined by the index the swap chain reports. -/
theorem Init_some {env : InitEnv} {d3d : D3D12Global} {resources : D3D12Resources}
    (h : Init env = some (d3d, resources)) :
    d3d =
      { frameIndex := env.first
        fenceValues := Function.update (fun _ => 0) env.first 2
        fenceCompleted := 1
        cmdQueue := []
        swapChainIndex := env.first
        cmdList := []
        cmdListAlloc := env.first
        trace :=
          [.close, .getCurrentBackBufferIndex env.first,
           .resetAllocator env.first 0 false, .resetCommandList env.first,
           .close, .executeCommandLists env.first, .signal 1,
           .setEventOnCompletion 1, .waitForSingleObject,
           .resetAllocator env.first 1 false, .resetCommandList env.first] } := by
  simp only [Init, Option.bind_eq_bind, Option.bind_eq_some] at h
  obtain ⟨⟨d1, st1⟩, h1, ⟨d2, st2⟩, h2, d3, h3, h⟩ := h
  simp only [Option.some.injEq, Prod.mk.injEq] at h
  obtain ⟨_, _, e1⟩ := Load_Blue_Noise_Texture_Array_some h1
  obtain ⟨_, _, e2⟩ := Load_Blue_Noise_Texture_some h2
  subst e1
  subst e2
  rw [← h.1]
  simp only [WaitForGPU, Signal, ExecuteCommandLists, Close, Reset_CommandList, Create_Fence,
    Create_SwapChain, Create_CommandList, incrementFenceValue, WaitForFence, waitFence, retire,
    Function.update_same, List.nil_append, List.cons_append] at h3
  simp at h3
  subst h3
  simp [Reset_CommandList, incrementFenceValue]


theorem ResetsSafe_nil : ResetsSafe [] := by
  intro p a c busy h
  simp at h

theorem FrameInv_Init {env : InitEnv} {d3d : D3D12Global} {resources : D3D12Resources}
    (h : Init env = some (d3d, resources)) : FrameInv d3d := by
  rw [Init_some h]
  refine ⟨⟨⟨?_, ?_, ?_, ?_, ?_, ?_⟩, ?_, ?_, ?_⟩, rfl, rfl⟩
  · simp [Pending]
  · simp
  · simp
  · intro j hj
    simp only [Function.update_same]
    rw [Function.update_noteq hj]
    exact Nat.zero_lt_two
  · simp [signalValues]
  · simp [signalValues]
  · simp
  · intro a
    by_cases ha : env.first = a
    · simp [allocatorUse, AllocatorUse.step, ha, AllocatorUse.resetSafe]
    · simp [allocatorUse, AllocatorUse.step, ha, AllocatorUse.resetSafe]
  · have h1 : ResetsSafe ([Event.close, Event.getCurrentBackBufferIndex env.first] ++
        [Event.resetAllocator env.first 0 false, Event.resetCommandList env.first]) :=
      ResetsSafe_append_reset (ResetsSafe_append ResetsSafe_nil (by simp)) _ _
        (by simp [allocatorUse, AllocatorUse.step, AllocatorUse.resetSafe])
    have h2 : ResetsSafe (([Event.close, Event.getCurrentBackBufferIndex env.first] ++
        [Event.resetAllocator env.first 0 false, Event.resetCommandList env.first]) ++
        [Event.close, Event.executeCommandLists env.first,
          Event.signal 1, Event.setEventOnCompletion 1, Event.waitForSingleObject]) :=
      ResetsSafe_append h1 (by simp)
    have h3 := ResetsSafe_append_reset h2 env.first 1
      (by simp [allocatorUse, AllocatorUse.step, AllocatorUse.resetSafe])
    simpa using h3

theorem renderLoop_spec (frames : List FrameEnv) :
    ∀ {d3d : D3D12Global}, FrameInv d3d →
      ∃ d3d', renderLoop frames d3d = some d3d' ∧ FrameInv d3d' := by
  induction frames with
  | nil => intro d3d h; exact ⟨d3d, rfl, h⟩
  | cons env rest ih =>
    intro d3d h
    obtain ⟨d1, _, h1, hinv, _⟩ := Render_spec env h
    obtain ⟨d2, h2, hinv2⟩ := ih hinv
    exact ⟨d2, by simp [renderLoop, h1, h2], hinv2⟩

theorem run_spec {init : InitEnv} (h : (Init init).isSome) (frames : List FrameEnv) :
    ∃ d3d, run init frames = some d3d ∧ FrameInv d3d := by
  obtain ⟨⟨d0, r⟩, h0⟩ := Option.isSome_iff_exists.1 h
  obtain ⟨d, h1, h2⟩ := renderLoop_spec frames (FrameInv_Init h0)
  refine ⟨d, ?_, h2⟩
  unfold run
  rw [h0]
  exact h1


/-! ## The synchroniser claims -/

/-- C1: in every run of `Init` followed by any number of `Render` iterations
(whatever the GPU's progress and whatever buffer the swap chain reports), the
run never blocks for ever, and at every `cmdAlloc[frameIndex]->Reset()` of
`Reset_CommandList` the queue holds no execution of a list recorded with that
allocator and the fence's completed value is at least the value that was
scheduled for signal behind the latest execution of such a list. -/
theorem C1_allocator_reset_after_fence (init : InitEnv) (frames : List FrameEnv)
    (h : (Init init).isSome) :
    ∃ d3d, run init frames = some d3d ∧
      ∀ p a c busy, d3d.trace[p]? = some (.resetAllocator a c busy) →
        busy = false ∧ (allocatorUse a (d3d.trace.take p)).resetSafe c := by
  obtain ⟨d3d, h1, h2⟩ := run_spec h frames
  exact ⟨d3d, h1, h2.quiet.safe⟩

set_option maxRecDepth 100000 in
/-- C1, at the sample run of two frames. -/
theorem C1_allocator_reset_after_fence_witness :
    (Init sampleInit).isSome ∧
    ∃ d3d, run sampleInit sampleFrames = some d3d ∧
      ∀ p a c busy, d3d.trace[p]? = some (.resetAllocator a c busy) →
        busy = false ∧ (allocatorUse a (d3d.trace.take p)).resetSafe c :=
  ⟨by decide, C1_allocator_reset_after_fence sampleInit sampleFrames (by decide)⟩

theorem SyncInv_fenceCreated (first : Fin 2) : SyncInv (fenceCreated first) := by
  refine ⟨?_, ?_, ?_, ?_, ?_, ?_⟩
  · simp [fenceCreated, Create_Fence, incrementFenceValue, Create_SwapChain, Create_CommandList,
      Close, Pending]
  · simp [fenceCreated, Create_Fence, incrementFenceValue, Create_SwapChain, Create_CommandList,
      Close]
  · simp [fenceCreated, Create_Fence, incrementFenceValue, Create_SwapChain, Create_CommandList,
      Close]
  · intro j hj
    have hj' : j ≠ first := hj
    simp [fenceCreated, Create_Fence, incrementFenceValue, Create_SwapChain, Create_CommandList,
      Close, Function.update_noteq hj']
  · simp [fenceCreated, Create_Fence, incrementFenceValue, Create_SwapChain, Create_CommandList,
      Close, signalValues]
  · simp [fenceCreated, Create_Fence, incrementFenceValue, Create_SwapChain, Create_CommandList,
      Close, signalValues]

theorem SyncCall_apply_spec (call : SyncCall) {d3d : D3D12Global} (h : SyncInv d3d) :
    ∃ d3d', call.apply d3d = some d3d' ∧ SyncInv d3d' := by
  cases call with
  | Submit_CmdList => exact ⟨_, rfl, SyncInv_Submit_CmdList h⟩
  | WaitForGPU =>
    obtain ⟨d', hw, _⟩ := WaitForGPU_spec d3d
    exact ⟨d', hw, SyncInv_WaitForGPU h hw⟩
  | MoveToNextFrame reported g =>
    have h' : SyncInv { d3d with swapChainIndex := reported } :=
      SyncInv_retire h rfl rfl rfl [] rfl rfl
    obtain ⟨d', hm⟩ := Option.isSome_iff_exists.1 (MoveToNextFrame_isSome h' g)
    exact ⟨d', hm, SyncInv_MoveToNextFrame h' hm⟩
  | gpu g => exact ⟨_, rfl, SyncInv_gpuAdvance h g⟩

theorem runCalls_spec (calls : List SyncCall) :
    ∀ {d3d : D3D12Global}, SyncInv d3d →
      ∃ d3d', runCalls calls d3d = some d3d' ∧ SyncInv d3d' := by
  induction calls with
  | nil => intro d3d h; exact ⟨d3d, rfl, h⟩
  | cons call rest ih =>
    intro d3d h
    obtain ⟨d1, h1, hinv⟩ := SyncCall_apply_spec call h
    obtain ⟨d2, h2, hinv2⟩ := ih hinv
    exact ⟨d2, by simp [runCalls, h1, h2], hinv2⟩

/-- C2: starting from `Create_Fence`, every sequence of `Submit_CmdList`,
`WaitForGPU` and `MoveToNextFrame` calls, with any GPU progress in between and
whatever back-buffer index the swap chain reports to each `MoveToNextFrame`,
runs to completion, and the values it has passed to `cmdQueue->Signal` form a
non-decreasing sequence. -/
theorem C2_signal_values_nondecreasing (first : Fin 2) (calls : List SyncCall) :
    ∃ d3d, runCalls calls (fenceCreated first) = some d3d ∧
      (signalValues d3d.trace).Pairwise (· ≤ ·) := by
  obtain ⟨d3d, h1, h2⟩ := runCalls_spec calls (SyncInv_fenceCreated first)
  exact ⟨d3d, h1, h2.sorted⟩

/-- C3: `MoveToNextFrame` returns from every state that satisfies the
synchroniser invariant; and whenever it returns it has scheduled a signal of
the vacated slot's target, set `frameIndex` to the swap chain's current
back-buffer index, read the fence, executed the blocking wait exactly when the
value read was below the new slot's previously recorded target, and the
fence's completed value is at least that target. -/
theorem C3_MoveToNextFrame (g : Nat) (d3d : D3D12Global) :
    (SyncInv d3d → (MoveToNextFrame g d3d).isSome) ∧
    ∀ d3d', MoveToNextFrame g d3d = some d3d' →
      d3d'.trace = d3d.trace ++
        [.signal (d3d.fenceValues d3d.frameIndex),
         .getCurrentBackBufferIndex d3d.swapChainIndex,
         .getCompletedValue
            (gpuAdvance g (Signal (d3d.fenceValues d3d.frameIndex) d3d)).fenceCompleted
            (d3d.fenceValues d3d.swapChainIndex)] ++
        (if (gpuAdvance g (Signal (d3d.fenceValues d3d.frameIndex) d3d)).fenceCompleted <
              d3d.fenceValues d3d.swapChainIndex then
            [.setEventOnCompletion (d3d.fenceValues d3d.swapChainIndex), .waitForSingleObject]
          else []) ∧
      (∃ dropped, d3d.cmdQueue ++ [.signal (d3d.fenceValues d3d.frameIndex)] =
        dropped ++ d3d'.cmdQueue) ∧
      d3d'.frameIndex = d3d.swapChainIndex ∧
      d3d.fenceValues d3d.swapChainIndex ≤ d3d'.fenceCompleted := by
  refine ⟨fun h => MoveToNextFrame_isSome h g, ?_⟩
  intro d3d' h
  obtain ⟨e1, _, _, _, _, e6, e7, dropped, e8, _⟩ := MoveToNextFrame_some h
  exact ⟨e6, ⟨dropped, e8⟩, e1, e7⟩

/-- C3, at the state in which `Init` leaves `Create_Fence`. -/
theorem C3_MoveToNextFrame_witness :
    SyncInv (fenceCreated 0) ∧
    ∃ d3d', MoveToNextFrame 0 (fenceCreated 0) = some d3d' ∧
      d3d'.frameIndex = (fenceCreated 0).swapChainIndex ∧
      (fenceCreated 0).fenceValues (fenceCreated 0).swapChainIndex ≤ d3d'.fenceCompleted := by
  refine ⟨SyncInv_fenceCreated 0, ?_⟩
  obtain ⟨d3d', h⟩ := Option.isSome_iff_exists.1
    ((C3_MoveToNextFrame 0 (fenceCreated 0)).1 (SyncInv_fenceCreated 0))
  exact ⟨d3d', h, ((C3_MoveToNextFrame 0 (fenceCreated 0)).2 d3d' h).2.2⟩

/-- C4: `Submit_CmdList` closes the command list, executes it on the queue,
increments `fenceValues[frameIndex]` by exactly one and schedules a signal of
the incremented value, in this order; `frameIndex` and the other slot's target
are unchanged. -/
theorem C4_Submit_CmdList (d3d : D3D12Global) :
    (Submit_CmdList d3d).trace = d3d.trace ++
      [.close, .executeCommandLists d3d.cmdListAlloc,
       .signal (d3d.fenceValues d3d.frameIndex + 1)] ∧
    (Submit_CmdList d3d).cmdQueue = d3d.cmdQueue ++
      [.executeCommandLists d3d.cmdListAlloc, .signal (d3d.fenceValues d3d.frameIndex + 1)] ∧
    (Submit_CmdList d3d).fenceValues d3d.frameIndex = d3d.fenceValues d3d.frameIndex + 1 ∧
    (Submit_CmdList d3d).frameIndex = d3d.frameIndex ∧
    (Submit_CmdList d3d).fenceValues (d3d.frameIndex + 1) = d3d.fenceValues (d3d.frameIndex + 1) := by
  refine ⟨?_, ?_, ?_, rfl, ?_⟩
  · simp [Submit_CmdList, Signal, incrementFenceValue, ExecuteCommandLists, Close]
  · simp [Submit_CmdList, Signal, incrementFenceValue, ExecuteCommandLists, Close]
  · simp [Submit_CmdList, Signal, incrementFenceValue, ExecuteCommandLists, Close]
  · have hne : d3d.frameIndex + 1 ≠ d3d.frameIndex := by
      generalize d3d.frameIndex = i
      revert i; decide
    simp [Submit_CmdList, Signal, incrementFenceValue, ExecuteCommandLists, Close,
      Function.update_noteq hne]


theorem renderLoop_flip (frames : List FrameEnv) :
    ∀ {d3d : D3D12Global}, FrameInv d3d → flipChain d3d.frameIndex frames →
      ∃ d3d', renderLoop frames d3d = some d3d' ∧ FrameInv d3d' ∧
        d3d'.frameIndex.val = (d3d.frameIndex.val + frames.length) % 2 ∧
        moveBlocked d3d'.trace = moveBlocked d3d.trace ++ List.replicate frames.length false := by
  induction frames with
  | nil =>
    intro d3d h _
    refine ⟨d3d, rfl, h, ?_, by simp⟩
    have := d3d.frameIndex.isLt
    simp only [List.length_nil, Nat.add_zero]
    omega
  | cons env rest ih =>
    intro d3d h hflip
    obtain ⟨hnext, hrest⟩ := hflip
    obtain ⟨d1, blocked, h1, hinv, e1, _, e3, e4⟩ := Render_spec env h
    have hne : env.next ≠ d3d.frameIndex := by
      rw [hnext]
      generalize d3d.frameIndex = i
      revert i; decide
    rw [← e1] at hrest
    obtain ⟨d2, h2, hinv2, f2, b2⟩ := ih hinv hrest
    refine ⟨d2, by simp [renderLoop, h1, h2], hinv2, ?_, ?_⟩
    · rw [f2, e1, hnext, Fin.val_add]
      simp only [List.length_cons, Fin.val_one]
      omega
    · rw [b2, e3, e4 hne]
      simp [List.replicate_succ]

theorem run_flip {init : InitEnv} (h : (Init init).isSome) (frames : List FrameEnv)
    (hflip : flipChain init.first frames) :
    ∃ d3d, run init frames = some d3d ∧ FrameInv d3d ∧
      d3d.frameIndex.val = (init.first.val + frames.length) % 2 ∧
      moveBlocked d3d.trace = List.replicate frames.length false := by
  obtain ⟨⟨d0, r⟩, h0⟩ := Option.isSome_iff_exists.1 h
  have e0 := Init_some h0
  have hfi : d0.frameIndex = init.first := by rw [e0]
  have hb : moveBlocked d0.trace = [] := by rw [e0]; rfl
  obtain ⟨d, h1, h2, h3, h4⟩ := renderLoop_flip frames (FrameInv_Init h0) (by rwa [hfi])
  refine ⟨d, ?_, h2, by rw [h3, hfi], by rw [h4, hb]; simp⟩
  unfold run
  rw [h0]
  exact h1

/-- C5: with a two-buffer swap chain whose current back buffer starts at 0 and
advances by one modulo 2 on each `Present`, the run returns, `frameIndex` is 0
after `Init` and `k mod 2` after the `k`-th `Present` + `MoveToNextFrame`, and
it equals the swap chain's current back-buffer index. -/
theorem C5_frameIndex_alternates (init : InitEnv) (frames : List FrameEnv)
    (h : (Init init).isSome) (h0 : init.first = 0) (hflip : flipChain init.first frames) :
    ∃ d3d, run init frames = some d3d ∧
      d3d.frameIndex.val = frames.length % 2 ∧ d3d.frameIndex = d3d.swapChainIndex := by
  obtain ⟨d3d, h1, h2, h3, _⟩ := run_flip h frames hflip
  refine ⟨d3d, h1, ?_, h2.current.symm⟩
  rw [h3, h0]
  simp

set_option maxRecDepth 100000 in
/-- C5, at the sample run of two frames. -/
theorem C5_frameIndex_alternates_witness :
    (Init sampleInit).isSome ∧ sampleInit.first = 0 ∧ flipChain sampleInit.first sampleFrames ∧
    ∃ d3d, run sampleInit sampleFrames = some d3d ∧
      d3d.frameIndex.val = sampleFrames.length % 2 ∧ d3d.frameIndex = d3d.swapChainIndex :=
  ⟨by decide, rfl, by simp [flipChain, sampleFrames, sampleInit],
    C5_frameIndex_alternates sampleInit sampleFrames (by decide) rfl
      (by simp [flipChain, sampleFrames, sampleInit])⟩

theorem moveComparisons_append (t u : List Event) :
    moveComparisons (t ++ u) = moveComparisons t ++ moveComparisons u := by
  simp [moveComparisons]

theorem Render_target {env : FrameEnv} {d3d d3d' : D3D12Global}
    (h : Render env d3d = some d3d') :
    d3d'.frameIndex = env.next ∧
    d3d'.fenceValues = Function.update
      (Function.update d3d.fenceValues d3d.frameIndex (d3d.fenceValues d3d.frameIndex + 2))
      env.next (d3d.fenceValues d3d.frameIndex + 3) ∧
    ∃ value, moveComparisons d3d'.trace = moveComparisons d3d.trace ++
      [(value, if env.next = d3d.frameIndex then d3d.fenceValues d3d.frameIndex + 2
        else d3d.fenceValues env.next)] := by
  simp only [Render, Option.bind_eq_bind, Option.bind_eq_some, Option.some.injEq] at h
  obtain ⟨d5, hw, d7, hm, hd⟩ := h
  obtain ⟨d5', hw', f5, v5, _, _, _, t5, _⟩ :=
    WaitForGPU_spec (gpuAdvance env.gWait (Submit_CmdList (UI.Build_CmdList (Build_CmdList d3d))))
  rw [hw] at hw'
  obtain rfl : d5 = d5' := Option.some.inj hw'
  obtain ⟨f7, v7, _, _, _, t7, _⟩ := MoveToNextFrame_some hm
  have X1 : (gpuAdvance env.gWait (Submit_CmdList (UI.Build_CmdList
      (Build_CmdList d3d)))).frameIndex = d3d.frameIndex := by
    simp [Submit_CmdList, Signal, incrementFenceValue, ExecuteCommandLists, Close,
      UI.Build_CmdList, Build_CmdList]
  have X2 : (gpuAdvance env.gWait (Submit_CmdList (UI.Build_CmdList
      (Build_CmdList d3d)))).fenceValues
      = Function.update d3d.fenceValues d3d.frameIndex (d3d.fenceValues d3d.frameIndex + 1) := by
    simp [Submit_CmdList, Signal, incrementFenceValue, ExecuteCommandLists, Close,
      UI.Build_CmdList, Build_CmdList]
  have X3 : (gpuAdvance env.gWait (Submit_CmdList (UI.Build_CmdList (Build_CmdList d3d)))).trace
      = d3d.trace ++ [.close, .executeCommandLists d3d.cmdListAlloc,
          .signal (d3d.fenceValues d3d.frameIndex + 1)] := by
    simp [Submit_CmdList, Signal, incrementFenceValue, ExecuteCommandLists, Close,
      UI.Build_CmdList, Build_CmdList]
  rw [X1] at f5
  rw [X1, X2] at v5
  rw [X3, X1, X2] at t5
  have v5' : d5.fenceValues = Function.update d3d.fenceValues d3d.frameIndex
      (d3d.fenceValues d3d.frameIndex + 2) := by
    rw [v5]
    simp
  have P1 : (Present env.next d5).frameIndex = d5.frameIndex := rfl
  have P2 : (Present env.next d5).fenceValues = d5.fenceValues := rfl
  have P3 : (Present env.next d5).swapChainIndex = env.next := rfl
  have P4 : (Present env.next d5).trace = d5.trace ++ [.present] := rfl
  generalize (gpuAdvance env.gMove (Signal ((Present env.next d5).fenceValues
    (Present env.next d5).frameIndex) (Present env.next d5))).fenceCompleted = obs at t7
  rw [P3] at f7
  rw [P1, P2, P3, f5, v5'] at v7
  rw [P1, P2, P3, P4, f5, v5'] at t7
  subst hd
  have htarget : Function.update d3d.fenceValues d3d.frameIndex
      (d3d.fenceValues d3d.frameIndex + 2) env.next
      = if env.next = d3d.frameIndex then d3d.fenceValues d3d.frameIndex + 2
        else d3d.fenceValues env.next := by
    by_cases hne : env.next = d3d.frameIndex
    · rw [if_pos hne, hne]; simp
    · rw [if_neg hne, Function.update_noteq hne]
  refine ⟨by simp [Reset_CommandList, f7], ?_, obs, ?_⟩
  · simp only [Reset_CommandList, gpuAdvance_fenceValues, v7]
    simp
  · simp only [Reset_CommandList, gpuAdvance_trace, t7, t5, moveComparisons_append, htarget]
    by_cases hb : obs < (if env.next = d3d.frameIndex then d3d.fenceValues d3d.frameIndex + 2
        else d3d.fenceValues env.next) <;> simp [moveComparisons, hb]

theorem renderLoop_comparisons (frames : List FrameEnv) :
    ∀ {d3d d3d' : D3D12Global}, renderLoop frames d3d = some d3d' →
      ∃ more, moveComparisons d3d'.trace = moveComparisons d3d.trace ++ more := by
  induction frames with
  | nil =>
    intro d3d d3d' h
    simp only [renderLoop, Option.some.injEq] at h
    subst h
    exact ⟨[], by simp⟩
  | cons env rest ih =>
    intro d3d d3d' h
    unfold renderLoop at h
    cases h1 : Render env d3d with
    | none => rw [h1] at h; simp at h
    | some d1 =>
      rw [h1] at h
      obtain ⟨_, _, value, e1⟩ := Render_target h1
      obtain ⟨more, e2⟩ := ih h
      exact ⟨(value, if env.next = d3d.frameIndex then d3d.fenceValues d3d.frameIndex + 2
        else d3d.fenceValues env.next) :: more, by rw [e2, e1]; simp⟩

theorem first_two_targets {d0 d3d : D3D12Global} (frames : List FrameEnv)
    (hfv : d0.fenceValues = Function.update (fun _ => 0) d0.frameIndex 2)
    (hc : moveComparisons d0.trace = [])
    (hflip : flipChain d0.frameIndex frames) (h : renderLoop frames d0 = some d3d) :
    ((moveComparisons d3d.trace).map Prod.snd).take 2 = [0, 4].take frames.length := by
  have hne : ∀ i : Fin 2, i + 1 ≠ i := by decide
  have hback : ∀ i : Fin 2, i + 1 + 1 = i := by decide
  cases frames with
  | nil =>
    simp only [renderLoop, Option.some.injEq] at h
    subst h
    simp [hc]
  | cons e1 rest =>
    obtain ⟨hn1, hrest⟩ := hflip
    unfold renderLoop at h
    cases h1 : Render e1 d0 with
    | none => rw [h1] at h; simp at h
    | some d1 =>
      rw [h1] at h
      obtain ⟨f1, v1, val1, c1⟩ := Render_target h1
      have t1 : (if e1.next = d0.frameIndex then d0.fenceValues d0.frameIndex + 2
          else d0.fenceValues e1.next) = 0 := by
        rw [if_neg (by rw [hn1]; exact hne _), hfv, hn1,
          Function.update_noteq (hne _)]
      rw [t1, hc, List.nil_append] at c1
      cases rest with
      | nil =>
        simp only [renderLoop, Option.some.injEq] at h
        subst h
        simp [c1]
      | cons e2 rest2 =>
        obtain ⟨hn2, _⟩ := hrest
        unfold renderLoop at h
        cases h2 : Render e2 d1 with
        | none => rw [h2] at h; simp at h
        | some d2 =>
          rw [h2] at h
          obtain ⟨_, _, val2, c2⟩ := Render_target h2
          have e2n : e2.next = d0.frameIndex := by rw [hn2, hn1, hback]
          have t2 : (if e2.next = d1.frameIndex then d1.fenceValues d1.frameIndex + 2
              else d1.fenceValues e2.next) = 4 := by
            rw [f1, if_neg (by rw [hn2]; exact hne _), v1, e2n, hn1,
              Function.update_noteq (hne _).symm, hfv]
            simp
          rw [t2, c1] at c2
          obtain ⟨more, e3⟩ := renderLoop_comparisons rest2 h
          rw [e3, c2]
          simp

set_option maxRecDepth 100000 in
/-- C6 as stated fails without a condition on the swap chain, and its reason
is not the one at work in the second frame.  When the swap chain still
reports buffer 0 after the first `Present`, the first `MoveToNextFrame`
compares the completed value 3 with the target 4 of the slot it stays on and
blocks.  On a flip chain neither of the first two calls blocks, the second
one, though, with a target of 4, which the fence has passed (7). -/
theorem C6_counterexample :
    ((run sampleInit stuckFrames).map fun d3d =>
      (moveBlocked d3d.trace, moveComparisons d3d.trace)) = some ([true], [(3, 4)]) ∧
    ((run sampleInit sampleFrames).map fun d3d =>
      (moveBlocked d3d.trace, moveComparisons d3d.trace))
      = some ([false, false], [(3, 0), (7, 4)]) := by
  decide

/-- C6, amended: in every run of `Init` followed by `Render` iterations on a
two-buffer flip chain (every `Present` advances the current back buffer) the
run returns and the first two `MoveToNextFrame` calls do not take the
blocking branch: both targets start at zero, the first call compares with the
target 0 of the slot it moves to, the second with the target 4 that slot has
by then. -/
theorem C6_first_two_frames_do_not_block (init : InitEnv) (frames : List FrameEnv)
    (h : (Init init).isSome) (hflip : flipChain init.first frames) :
    (∀ j, ({} : D3D12Global).fenceValues j = 0) ∧
    ∃ d3d, run init frames = some d3d ∧
      (moveBlocked d3d.trace).length = frames.length ∧
      (moveBlocked d3d.trace).take 2 = List.replicate (min 2 frames.length) false ∧
      ((moveComparisons d3d.trace).map Prod.snd).take 2 = [0, 4].take frames.length := by
  obtain ⟨d3d, h1, _, _, h4⟩ := run_flip h frames hflip
  refine ⟨fun _ => rfl, d3d, h1, by rw [h4]; simp, by rw [h4, List.take_replicate], ?_⟩
  obtain ⟨⟨d0, r⟩, h0⟩ := Option.isSome_iff_exists.1 h
  have e0 := Init_some h0
  have hfi : d0.frameIndex = init.first := by rw [e0]
  have hfv : d0.fenceValues = Function.update (fun _ => 0) d0.frameIndex 2 := by rw [e0]
  have hc : moveComparisons d0.trace = [] := by rw [e0]; rfl
  have hr : renderLoop frames d0 = some d3d := by
    unfold run at h1
    rw [h0] at h1
    exact h1
  exact first_two_targets frames hfv hc (by rwa [hfi]) hr

set_option maxRecDepth 100000 in
/-- C6 amended, at the sample run of two frames. -/
theorem C6_first_two_frames_do_not_block_witness :
    (Init sampleInit).isSome ∧ flipChain sampleInit.first sampleFrames ∧
    ∃ d3d, run sampleInit sampleFrames = some d3d ∧
      (moveBlocked d3d.trace).length = sampleFrames.length ∧
      (moveBlocked d3d.trace).take 2 = List.replicate (min 2 sampleFrames.length) false ∧
      ((moveComparisons d3d.trace).map Prod.snd).take 2 = [0, 4].take sampleFrames.length :=
  ⟨by decide, by simp [flipChain, sampleFrames, sampleInit],
    (C6_first_two_frames_do_not_block sampleInit sampleFrames (by decide)
      (by simp [flipChain, sampleFrames, sampleInit])).2⟩


/-! ## 32-bit arithmetic -/

theorem toUINT_toINT (x : Int) : toUINT (toINT x) = toUINT x := by
  unfold toUINT toINT
  omega

theorem toUINT_natCast {n : Nat} (h : n < 4294967296) : toUINT (n : Int) = n := by
  unfold toUINT
  omega

theorem toINT_natCast {n : Nat} (h : n < 2147483648) : toINT (n : Int) = n := by
  unfold toINT
  omega

theorem toUINT64_natCast {n : Nat} (h : n < 18446744073709551616) : toUINT64 (n : Int) = n := by
  unfold toUINT64
  omega

theorem mulUINT_eq {a b : Nat} (h : a * b < 4294967296) : mulUINT a b = a * b := by
  unfold mulUINT
  exact Nat.mod_eq_of_lt h

theorem addUINT_eq {a b : Nat} (h : a + b < 4294967296) : addUINT a b = a + b := by
  unfold addUINT
  exact Nat.mod_eq_of_lt h

/-! ## `FormatTexture` -/

theorem resize_length (v : List UInt8) (n : Nat) : (resize v n).length = n := by
  simp [resize]
  omega

theorem iteration_eq (pixels : Nat → UInt8) (s : Nat) (v : List UInt8) (i : Nat)
    (hi : i * 4 + 3 < v.length) (hlen : v.length ≤ 4294967296) (hs : i * s + 2 < 4294967296) :
    FormatTexture.iteration pixels s 4 v i =
      some ((((v.set (i * 4) (pixels (i * s))).set (i * 4 + 1) (pixels (i * s + 1))).set
        (i * 4 + 2) (pixels (i * s + 2))).set (i * 4 + 3) 0xFF) := by
  have h1 : mulUINT i 4 = i * 4 := mulUINT_eq (by omega)
  have h2 : mulUINT i s = i * s := mulUINT_eq (by omega)
  have a1 : addUINT (i * 4) 1 = i * 4 + 1 := addUINT_eq (by omega)
  have a2 : addUINT (i * 4) 2 = i * 4 + 2 := addUINT_eq (by omega)
  have a3 : addUINT (i * 4) 3 = i * 4 + 3 := addUINT_eq (by omega)
  have b1 : addUINT (i * s) 1 = i * s + 1 := addUINT_eq (by omega)
  have b2 : addUINT (i * s) 2 = i * s + 2 := addUINT_eq (by omega)
  simp only [FormatTexture.iteration, h1, h2, a1, a2, a3, b1, b2, storeByte]
  have c0 : i * 4 < v.length := by omega
  have c1 : i * 4 + 1 < v.length := by omega
  have c2 : i * 4 + 2 < v.length := by omega
  simp [c0, c1, c2, hi]

/-- The loop of `FormatTexture` after `k` iterations. -/
theorem FormatTexture_loop (pixels : Nat → UInt8) (s n : Nat) (v₀ : List UInt8)
    (hlen : v₀.length = n * 4) (hn : n * 4 < 4294967296) (hs : s ≤ 4) :
    ∀ k, k ≤ n → ∃ v,
      (List.range k).foldlM (FormatTexture.iteration pixels s 4) v₀ = some v ∧
      v.length = n * 4 ∧ ExpandedRGBA8 pixels s v 0 k := by
  intro k
  induction k with
  | zero =>
    intro _
    exact ⟨v₀, rfl, hlen, fun i hi => absurd hi (Nat.not_lt_zero i)⟩
  | succ k ih =>
    intro hk
    obtain ⟨v, hv, hl, hex⟩ := ih (Nat.le_of_succ_le hk)
    have hks : k * s ≤ k * 4 := Nat.mul_le_mul_left k hs
    have hstep := iteration_eq pixels s v k (by omega) (by omega) (by omega)
    refine ⟨(((v.set (k * 4) (pixels (k * s))).set (k * 4 + 1) (pixels (k * s + 1))).set
        (k * 4 + 2) (pixels (k * s + 2))).set (k * 4 + 3) 0xFF, ?_, ?_, ?_⟩
    · rw [List.range_succ, List.foldlM_append, hv]
      simp only [Option.bind_eq_bind, Option.some_bind, List.foldlM_cons, List.foldlM_nil]
      rw [hstep]
      rfl
    · simp [hl]
    · intro i hi
      rcases Nat.lt_succ_iff_lt_or_eq.1 hi with hlt | rfl
      · obtain ⟨e0, e1, e2, e3⟩ := hex i hlt
        simp only [Nat.zero_add] at e0 e1 e2 e3 ⊢
        refine ⟨?_, ?_, ?_, ?_⟩
        · rw [← e0]; simp only [List.getElem?_set]; repeat' rw [if_neg (by omega)]
        · rw [← e1]; simp only [List.getElem?_set]; repeat' rw [if_neg (by omega)]
        · rw [← e2]; simp only [List.getElem?_set]; repeat' rw [if_neg (by omega)]
        · rw [← e3]; simp only [List.getElem?_set]; repeat' rw [if_neg (by omega)]
      · simp only [Nat.zero_add]
        have m : s * i = i * s := Nat.mul_comm s i
        refine ⟨?_, ?_, ?_, ?_⟩
        · simp only [List.getElem?_set, List.length_set]
          rw [if_neg (by omega), if_neg (by omega), if_neg (by omega), if_pos (by omega),
            if_pos (by omega), m]
        · simp only [List.getElem?_set, List.length_set]
          rw [if_neg (by omega), if_neg (by omega), if_pos (by omega), if_pos (by omega), m]
        · simp only [List.getElem?_set, List.length_set]
          rw [if_neg (by omega), if_pos (by omega), if_pos (by omega), m]
        · simp only [List.getElem?_set, List.length_set]
          rw [if_pos (by omega), if_pos (by omega)]


/-- `FormatTexture` on an image whose expanded size fits 32 bits: it returns,
and the new pixel vector is the RGBA8 expansion of the source. -/
theorem FormatTexture_spec (info : TextureInfo) (pixels : Nat → UInt8) (w h s : Nat)
    (hw : info.width = w) (hh : info.height = h) (hst : info.stride = s)
    (hn : w * h * 4 < 4294967296) (hs : s ≤ 4) :
    ∃ v, FormatTexture info pixels = some { info with pixels := v, stride := 4 } ∧
      v.length = w * h * 4 ∧ ExpandedRGBA8 pixels s v 0 (w * h) := by
  have e1 : toUINT (toINT (info.width * info.height)) = w * h := by
    rw [toUINT_toINT, hw, hh, ← Nat.cast_mul]
    exact toUINT_natCast (by omega)
  have e2 : toUINT info.stride = s := by
    rw [hst]; exact toUINT_natCast (by omega)
  have e3 : mulUINT (w * h) 4 = w * h * 4 := mulUINT_eq hn
  obtain ⟨v, hv, hl, hex⟩ := FormatTexture_loop pixels s (w * h) (resize info.pixels (w * h * 4))
    (resize_length _ _) hn hs (w * h) (le_refl _)
  refine ⟨v, ?_, hl, hex⟩
  simp only [FormatTexture, e1, e2, e3, hv]

theorem LoadTexture_spec (img : StbImage) (w h s : Nat)
    (hx : img.x = w) (hy : img.y = h) (hc : img.comp = s)
    (hn : w * h * 4 < 4294967296) (hs : s ≤ 4) :
    ∃ v, LoadTexture (some img) =
        some { pixels := v, width := w, height := h, stride := 4, offset := 0 } ∧
      v.length = w * h * 4 ∧ ExpandedRGBA8 img.data s v 0 (w * h) := by
  obtain ⟨v, hv, hl, hex⟩ := FormatTexture_spec
    { pixels := [], width := img.x, height := img.y, stride := img.comp } img.data w h s
    hx hy hc hn hs
  refine ⟨v, ?_, hl, hex⟩
  simp only [LoadTexture, hv]
  simp [hx, hy]

/-! ## `Upload_Texture` -/

theorem memcpy_spec (dst src : List UInt8) (pos n : Nat)
    (hdst : pos + n ≤ dst.length) (hsrc : n ≤ src.length) :
    ∃ out, memcpy dst pos src n = some out ∧ out.length = dst.length ∧
      (∀ j, j < n → out[pos + j]? = src[j]?) ∧
      (∀ j, j < pos → out[j]? = dst[j]?) ∧
      (∀ j, pos + n ≤ j → out[j]? = dst[j]?) := by
  refine ⟨dst.take pos ++ src.take n ++ dst.drop (pos + n), ?_, ?_, ?_, ?_, ?_⟩
  · simp [memcpy, hdst, hsrc]
  · simp only [List.length_append, List.length_take, List.length_drop]
    omega
  · intro j hj
    have h1 : (dst.take pos).length = pos := by simp; omega
    have h2 : (src.take n).length = n := by simp; omega
    rw [List.append_assoc, List.getElem?_append_right (by omega), h1,
      List.getElem?_append_left (by omega), Nat.add_sub_cancel_left, List.getElem?_take]
    simp [hj]
  · intro j hj
    have h1 : (dst.take pos).length = pos := by simp; omega
    rw [List.append_assoc, List.getElem?_append_left (by omega), List.getElem?_take]
    simp [hj]
  · intro j hj
    have h1 : (dst.take pos ++ src.take n).length = pos + n := by simp; omega
    rw [List.getElem?_append_right (by omega), h1, List.getElem?_drop]
    congr 1
    omega


theorem Upload_Texture_eq (d3d : D3D12Global) (dest src : Resource) (staging out : List UInt8)
    (texture : TextureInfo) (k : Nat)
    (h : memcpy staging texture.offset texture.pixels
      (toUINT64 (toINT (toINT (texture.width * texture.height) * texture.stride))) = some out) :
    Upload_Texture d3d dest src staging texture k =
      some ({ d3d with
        cmdList := d3d.cmdList ++
          [.CopyTextureRegion dest k src (Upload_Texture.footprint texture)] }, out) := by
  rw [Upload_Texture, h]

theorem mem_reads (info : TextureInfo) (w h s : Nat)
    (hw : info.width = w) (hh : info.height = h) (hs : info.stride = s)
    (hn : w * h < 2147483648) (hs2 : s < 2147483648) (j : Nat) :
    j ∈ FormatTexture.reads info ↔
      ∃ i, i < w * h ∧ j ∈ FormatTexture.iterationReads s i := by
  have e1 : toUINT (toINT (info.width * info.height)) = w * h := by
    rw [hw, hh, ← Nat.cast_mul, toINT_natCast hn]
    exact toUINT_natCast (by omega)
  have e2 : toUINT info.stride = s := by
    rw [hs]
    exact toUINT_natCast (by omega)
  unfold FormatTexture.reads
  rw [e1, e2]
  simp only [List.mem_flatten, List.mem_map, List.mem_range]
  constructor
  · rintro ⟨l, ⟨i, hi, rfl⟩, hj⟩
    exact ⟨i, hi, hj⟩
  · rintro ⟨i, hi, hj⟩
    exact ⟨_, ⟨i, hi, rfl⟩, hj⟩

theorem reads_inside (info : TextureInfo) (w h s : Nat)
    (hw : info.width = w) (hh : info.height = h) (hs : info.stride = s)
    (hs3 : 3 ≤ s) (hfit : w * h * s < 2147483648) :
    ∀ j, j ∈ FormatTexture.reads info → j < w * h * s := by
  intro j hj
  have hwh : w * h ≤ w * h * s := Nat.le_mul_of_pos_right _ (by omega)
  by_cases hz : w * h = 0
  · rw [mem_reads info w h s hw hh hs (by omega)
      (by rcases Nat.lt_or_ge s 2147483648 with h' | h'
          · exact h'
          · exfalso
            unfold FormatTexture.reads at hj
            have e1 : toUINT (toINT (info.width * info.height)) = 0 := by
              rw [hw, hh, ← Nat.cast_mul, hz]
              rfl
            rw [e1] at hj
            simp at hj)] at hj
    obtain ⟨i, hi, _⟩ := hj
    omega
  · have hss : s ≤ w * h * s := Nat.le_mul_of_pos_left _ (by omega)
    obtain ⟨i, hi, hm⟩ := (mem_reads info w h s hw hh hs (by omega) (by omega) j).1 hj
    have hle : (i + 1) * s ≤ w * h * s := Nat.mul_le_mul_right s hi
    have hexp : (i + 1) * s = i * s + s := Nat.succ_mul i s
    have e0 : mulUINT i s = i * s := mulUINT_eq (by omega)
    have e1 : addUINT (i * s) 1 = i * s + 1 := addUINT_eq (by omega)
    have e2 : addUINT (i * s) 2 = i * s + 2 := addUINT_eq (by omega)
    simp only [FormatTexture.iterationReads, e0, e1, e2, List.mem_cons, List.mem_singleton,
      List.not_mem_nil, or_false] at hm
    rcases hm with rfl | rfl | rfl <;> omega

/-! ## The upload claims -/

/-- C7 as stated fails for large images: for a decoded 32768×16384 RGB image
`FormatTexture` produces 2^31 bytes, the `int` product
`width * height * stride` of `Upload_Texture` wraps to -2^31, and the `memcpy`
length it converts to exceeds the pixel vector: no staging buffer receives the
expanded image.  It also fails for a source stride below 3: for a decoded 1×1
image of one channel, whose buffer holds one byte, `FormatTexture` reads the
bytes 1 and 2. -/
theorem C7_counterexample :
    (∃ texture, LoadTexture (some largeImage) = some texture ∧
      texture.pixels.length = 2147483648 ∧
      toUINT64 (toINT (toINT (texture.width * texture.height) * texture.stride))
        = 18446744071562067968 ∧
      ∀ d3d dest src staging k, Upload_Texture d3d dest src staging texture k = none) ∧
    FormatTexture.reads { width := 1, height := 1, stride := 1 } = [0, 1, 2] := by
  refine ⟨?_, by decide⟩
  obtain ⟨v, hv, hl, _⟩ := LoadTexture_spec largeImage 32768 16384 3 rfl rfl rfl
    (by norm_num) (by norm_num)
  have hn : toUINT64 (toINT (toINT ((32768 : Int) * 16384) * 4)) = 18446744071562067968 := by
    decide
  refine ⟨_, hv, by simpa using hl, ?_, ?_⟩
  · simpa using hn
  · intro d3d dest src staging k
    simp only [Upload_Texture, Nat.cast_ofNat, hn, memcpy, hl]
    simp

/-- C7, amended: for every decoded image of width `w`, height `h` and source
stride `s` of 3 or 4 with `w·h·4 < 2^31`, and every staging buffer that holds
`[offset, offset + w·h·4)`, `LoadTexture` and `Upload_Texture` return, every
source byte `FormatTexture` reads lies in the decoded buffer, the copy
recorded reads the tightly packed footprint at `offset`, a read-back of the
staging bytes `[offset, offset + w·h·4)` returns the bytes `FormatTexture`
produced, and these are the source image expanded to RGBA8: for every pixel
`i < w·h` the R, G, B bytes are source bytes `s·i`, `s·i+1`, `s·i+2` and the
A byte is `0xFF`. -/
theorem C7_upload_is_rgba8_expansion (img : StbImage) (w h s : Nat)
    (hx : img.x = w) (hy : img.y = h) (hc : img.comp = s)
    (hw : 0 < w) (hh : 0 < h) (hs3 : 3 ≤ s) (hs : s ≤ 4) (hn : w * h * 4 < 2147483648)
    (d3d : D3D12Global) (dest src : Resource) (staging : List UInt8) (offset k : Nat)
    (hoff : offset < 2147483648) (hfit : offset + w * h * 4 ≤ staging.length) :
    ∃ texture d3d' staging', LoadTexture (some img) = some texture ∧
      Upload_Texture d3d dest src staging { texture with offset := offset } k
        = some (d3d', staging') ∧
      d3d'.cmdList = d3d.cmdList ++
        [.CopyTextureRegion dest k src
          { Offset := offset, formatRGBA8 := true, Width := w, Height := h, Depth := 1,
            RowPitch := w * 4 }] ∧
      staging'.length = staging.length ∧
      (∀ j, j ∈ FormatTexture.reads
          { width := img.x, height := img.y, stride := img.comp } → j < w * h * s) ∧
      readBack staging' offset (w * h * 4) = texture.pixels ∧
      ExpandedRGBA8 img.data s (readBack staging' offset (w * h * 4)) 0 (w * h) ∧
      ExpandedRGBA8 img.data s staging' offset (w * h) := by
  have hin : ∀ j, j ∈ FormatTexture.reads
      { width := img.x, height := img.y, stride := img.comp } → j < w * h * s := by
    have hle : w * h * s ≤ w * h * 4 := Nat.mul_le_mul_left _ hs
    exact reads_inside _ w h s hx hy hc hs3 (by omega)
  obtain ⟨v, hv, hl, hex⟩ := LoadTexture_spec img w h s hx hy hc (by omega) hs
  have hwh : w * h < 2147483648 := by omega
  have hw4 : w * 4 ≤ w * h * 4 := by
    have : w * 1 ≤ w * h := Nat.mul_le_mul_left w hh
    omega
  have hh4 : h ≤ w * h := by
    have : 1 * h ≤ w * h := Nat.mul_le_mul_right h hw
    omega
  have e1 : toUINT64 (toINT (toINT ((w : Int) * (h : Int)) * 4)) = w * h * 4 := by
    rw [← Nat.cast_mul, toINT_natCast hwh]
    have : ((w * h : Nat) : Int) * 4 = ((w * h * 4 : Nat) : Int) := by push_cast; rfl
    rw [this, toINT_natCast hn]
    exact toUINT64_natCast (by omega)
  obtain ⟨out, hout, holen, hcopy, _, _⟩ := memcpy_spec staging v offset (w * h * 4) hfit
    (by omega)
  have efp : Upload_Texture.footprint
      { pixels := v, width := (w : Int), height := (h : Int), stride := 4, offset := (offset : Int) }
      = { Offset := offset, formatRGBA8 := true, Width := w, Height := h, Depth := 1,
          RowPitch := w * 4 } := by
    have f1 : toUINT64 (offset : Int) = offset := toUINT64_natCast (by omega)
    have f2 : toUINT (w : Int) = w := toUINT_natCast (by omega)
    have f3 : toUINT (h : Int) = h := toUINT_natCast (by omega)
    have f4 : toUINT (toINT ((w : Int) * 4)) = w * 4 := by
      have : (w : Int) * 4 = ((w * 4 : Nat) : Int) := by push_cast; rfl
      rw [toUINT_toINT, this]
      exact toUINT_natCast (by omega)
    simp only [Upload_Texture.footprint, f1, f2, f3, f4]
  have hrb : readBack out offset (w * h * 4) = v := by
    apply List.ext_getElem?
    intro j
    unfold readBack
    by_cases hj : j < w * h * 4
    · rw [List.getElem?_take_of_lt hj, List.getElem?_drop, hcopy j hj]
    · rw [List.getElem?_eq_none (by rw [List.length_take]; omega),
        List.getElem?_eq_none (by omega)]
  refine ⟨_, { d3d with cmdList := d3d.cmdList ++ [.CopyTextureRegion dest k src
      { Offset := offset, formatRGBA8 := true, Width := w, Height := h, Depth := 1,
        RowPitch := w * 4 }] }, out, hv, ?_, rfl, holen, hin, hrb, by rw [hrb]; exact hex, ?_⟩
  · have hm : memcpy staging (offset : Int) v
        (toUINT64 (toINT (toINT ((w : Int) * (h : Int)) * 4))) = some out := by
      rw [e1]; exact hout
    have hu := Upload_Texture_eq d3d dest src staging out
      { pixels := v, width := (w : Int), height := (h : Int), stride := 4,
        offset := (offset : Int) } k hm
    rw [efp] at hu
    exact hu
  · intro i hi
    obtain ⟨x0, x1, x2, x3⟩ := hex i hi
    simp only [Nat.zero_add] at x0 x1 x2 x3
    refine ⟨?_, ?_, ?_, ?_⟩
    · rw [hcopy (4 * i) (by omega), x0]
    · rw [Nat.add_assoc, hcopy (4 * i + 1) (by omega), x1]
    · rw [Nat.add_assoc, hcopy (4 * i + 2) (by omega), x2]
    · rw [Nat.add_assoc, hcopy (4 * i + 3) (by omega), x3]

/-- C7, at a decoded 2×1 RGB image and an 8-byte staging buffer. -/
theorem C7_upload_is_rgba8_expansion_witness :
    ∃ texture d3d' staging', LoadTexture (some wideImage) = some texture ∧
      Upload_Texture {} .blueNoise .blueNoiseUploadResource (List.replicate 8 0)
        { texture with offset := (0 : Nat) } 0 = some (d3d', staging') ∧
      d3d'.cmdList = ({} : D3D12Global).cmdList ++
        [.CopyTextureRegion .blueNoise 0 .blueNoiseUploadResource
          { Offset := 0, formatRGBA8 := true, Width := 2, Height := 1, Depth := 1,
            RowPitch := 2 * 4 }] ∧
      staging'.length = (List.replicate 8 (0 : UInt8)).length ∧
      (∀ j, j ∈ FormatTexture.reads
          { width := wideImage.x, height := wideImage.y, stride := wideImage.comp } →
        j < 2 * 1 * 3) ∧
      readBack staging' 0 (2 * 1 * 4) = texture.pixels ∧
      ExpandedRGBA8 wideImage.data 3 (readBack staging' 0 (2 * 1 * 4)) 0 (2 * 1) ∧
      ExpandedRGBA8 wideImage.data 3 staging' 0 (2 * 1) :=
  C7_upload_is_rgba8_expansion wideImage 2 1 3 rfl rfl rfl (by decide) (by decide) (by decide)
    (by decide) (by decide) {} .blueNoise .blueNoiseUploadResource (List.replicate 8 0) 0 0
    (by decide) (by decide)


/-! ## Offsets in the texture array -/

/-- C10: whenever `Load_Blue_Noise_Texture_Array` runs to completion, `num ≥ 1`
and the commands it has recorded are `num` texture copies, to subresources
0, 1, …, `num − 1` of `blueNoiseArray` in that order, directly followed by one
transition barrier on all subresources of `blueNoiseArray` from `COPY_DEST` to
`PIXEL_SHADER_RESOURCE`, and nothing else; whenever `Load_Blue_Noise_Texture`
runs to completion it has recorded one copy followed by one such barrier on
`blueNoise`. -/
theorem C10_upload_commands (d3d : D3D12Global) (files : Nat → Option StbImage) (num : Nat)
    (file : Option StbImage)
    (h₁ : (Load_Blue_Noise_Texture_Array d3d files num).isSome)
    (h₂ : (Load_Blue_Noise_Texture d3d file).isSome) :
    (∃ d3d' staging textures,
      Load_Blue_Noise_Texture_Array d3d files num = some (d3d', staging) ∧
      1 ≤ num ∧ textures.length = num ∧
      d3d'.cmdList = d3d.cmdList ++
        List.zipWith
          (fun i t => Command.CopyTextureRegion .blueNoiseArray i
            .blueNoiseArrayUploadResource (Upload_Texture.footprint t))
          (List.range num) textures ++
        [.ResourceBarrier .blueNoiseArray .COPY_DEST .PIXEL_SHADER_RESOURCE
          D3D12_RESOURCE_BARRIER_ALL_SUBRESOURCES]) ∧
    (∃ d3d' staging texture,
      Load_Blue_Noise_Texture d3d file = some (d3d', staging) ∧
      d3d'.cmdList = d3d.cmdList ++
        [.CopyTextureRegion .blueNoise 0 .blueNoiseUploadResource
            (Upload_Texture.footprint texture),
         .ResourceBarrier .blueNoise .COPY_DEST .PIXEL_SHADER_RESOURCE
            D3D12_RESOURCE_BARRIER_ALL_SUBRESOURCES]) := by
  obtain ⟨⟨d1, st1⟩, e1⟩ := Option.isSome_iff_exists.1 h₁
  obtain ⟨⟨d2, st2⟩, e2⟩ := Option.isSome_iff_exists.1 h₂
  obtain ⟨textures, hts, hd1⟩ := Load_Blue_Noise_Texture_Array_some e1
  obtain ⟨texture, _, hd2⟩ := Load_Blue_Noise_Texture_some e2
  have hlen := textures_length hts
  have hnum : 1 ≤ num := by
    simp only [Load_Blue_Noise_Texture_Array, Option.bind_eq_bind, Option.bind_eq_some] at e1
    obtain ⟨ts, hts', first, hfirst, _⟩ := e1
    have hl := textures_length hts'
    obtain ⟨hlt, _⟩ := List.getElem?_eq_some.1 hfirst
    omega
  refine ⟨⟨d1, st1, textures, e1, hnum, hlen, ?_⟩, ⟨d2, st2, texture, e2, ?_⟩⟩
  · rw [hd1]
  · rw [hd2]

set_option maxRecDepth 100000 in
/-- C10, for two 1×1 images and a 2×1 image. -/
theorem C10_upload_commands_witness :
    (∃ d3d' staging textures,
      Load_Blue_Noise_Texture_Array {} (fun _ => some sampleImage) 2 = some (d3d', staging) ∧
      1 ≤ 2 ∧ textures.length = 2 ∧
      d3d'.cmdList = ({} : D3D12Global).cmdList ++
        List.zipWith
          (fun i t => Command.CopyTextureRegion .blueNoiseArray i
            .blueNoiseArrayUploadResource (Upload_Texture.footprint t))
          (List.range 2) textures ++
        [.ResourceBarrier .blueNoiseArray .COPY_DEST .PIXEL_SHADER_RESOURCE
          D3D12_RESOURCE_BARRIER_ALL_SUBRESOURCES]) ∧
    (∃ d3d' staging texture,
      Load_Blue_Noise_Texture {} (some wideImage) = some (d3d', staging) ∧
      d3d'.cmdList = ({} : D3D12Global).cmdList ++
        [.CopyTextureRegion .blueNoise 0 .blueNoiseUploadResource
            (Upload_Texture.footprint texture),
         .ResourceBarrier .blueNoise .COPY_DEST .PIXEL_SHADER_RESOURCE
            D3D12_RESOURCE_BARRIER_ALL_SUBRESOURCES]) :=
  C10_upload_commands {} (fun _ => some sampleImage) 2 (some wideImage) (by decide) (by decide)



/-! ## The recorded copy and the barriers of a frame -/

/-- C11: the copy `Upload_Texture` records for a texture is one
`CopyTextureRegion` into subresource `k` of the destination, whose source
footprint has format `R8G8B8A8_UNORM`, depth 1 and the fields of the texture
converted to the types of the footprint (`UINT64` offset, `UINT` width, height
and row pitch); for the non-negative `int` fields of an image whose row has
fewer than 2^32 bytes these are the offset, the width, the height and
width × stride themselves. -/
theorem C11_upload_footprint (d3d d3d' : D3D12Global) (dest src : Resource)
    (staging staging' : List UInt8) (texture : TextureInfo) (k : Nat)
    (h : Upload_Texture d3d dest src staging texture k = some (d3d', staging')) :
    ∃ fp : PlacedFootprint,
      d3d'.cmdList = d3d.cmdList ++ [.CopyTextureRegion dest k src fp] ∧
      fp.formatRGBA8 = true ∧ fp.Depth = 1 ∧
      fp.Offset = toUINT64 texture.offset ∧
      fp.Width = toUINT texture.width ∧
      fp.Height = toUINT texture.height ∧
      fp.RowPitch = toUINT (texture.width * texture.stride) ∧
      (texture.offset < 18446744073709551616 → (fp.Offset : Int) = texture.offset) ∧
      (0 ≤ texture.width → texture.width < 4294967296 → (fp.Width : Int) = texture.width) ∧
      (0 ≤ texture.height → texture.height < 4294967296 →
        (fp.Height : Int) = texture.height) ∧
      (0 ≤ texture.width * texture.stride → texture.width * texture.stride < 4294967296 →
        (fp.RowPitch : Int) = texture.width * texture.stride) := by
  obtain ⟨hd, hm⟩ := Upload_Texture_some h
  have ho : 0 ≤ texture.offset := by
    unfold memcpy at hm
    split at hm
    · rename_i hc
      exact hc.1
    · simp at hm
  refine ⟨Upload_Texture.footprint texture, by rw [hd], rfl, rfl, rfl, rfl, rfl, ?_, ?_, ?_, ?_, ?_⟩
  · exact toUINT_toINT _
  · intro hlt
    show ((toUINT64 texture.offset : Nat) : Int) = texture.offset
    unfold toUINT64
    omega
  · intro h0 hlt
    show ((toUINT texture.width : Nat) : Int) = texture.width
    unfold toUINT
    omega
  · intro h0 hlt
    show ((toUINT texture.height : Nat) : Int) = texture.height
    unfold toUINT
    omega
  · intro h0 hlt
    show ((toUINT (toINT (texture.width * texture.stride)) : Nat) : Int) = _
    rw [toUINT_toINT]
    generalize texture.width * texture.stride = x at h0 hlt
    unfold toUINT
    omega

/-- C11, at a 1×1 texture copied to the start of a four-byte staging
buffer. -/
theorem C11_upload_footprint_witness :
    ∃ fp : PlacedFootprint,
      ({ cmdList := [.CopyTextureRegion .blueNoise 0 .blueNoiseUploadResource
            (Upload_Texture.footprint sampleTexture)] } : D3D12Global).cmdList
        = ({} : D3D12Global).cmdList ++
          [.CopyTextureRegion .blueNoise 0 .blueNoiseUploadResource fp] ∧
      fp.formatRGBA8 = true ∧ fp.Depth = 1 ∧
      fp.Offset = toUINT64 sampleTexture.offset ∧
      fp.Width = toUINT sampleTexture.width ∧
      fp.Height = toUINT sampleTexture.height ∧
      fp.RowPitch = toUINT (sampleTexture.width * sampleTexture.stride) ∧
      (sampleTexture.offset < 18446744073709551616 → (fp.Offset : Int) = sampleTexture.offset) ∧
      (0 ≤ sampleTexture.width → sampleTexture.width < 4294967296 →
        (fp.Width : Int) = sampleTexture.width) ∧
      (0 ≤ sampleTexture.height → sampleTexture.height < 4294967296 →
        (fp.Height : Int) = sampleTexture.height) ∧
      (0 ≤ sampleTexture.width * sampleTexture.stride →
        sampleTexture.width * sampleTexture.stride < 4294967296 →
        (fp.RowPitch : Int) = sampleTexture.width * sampleTexture.stride) :=
  C11_upload_footprint {} _ .blueNoise .blueNoiseUploadResource [0, 0, 0, 0] [7, 7, 7, 255]
    sampleTexture 0
    (Upload_Texture_eq {} .blueNoise .blueNoiseUploadResource [0, 0, 0, 0] [7, 7, 7, 255]
      sampleTexture 0 (by decide))

/-- C12: in a frame (the command list was reset, then `D3D12::Build_CmdList`
and `UI::Build_CmdList` record into it) the barriers are, in order,
PRESENT → RENDER_TARGET and RENDER_TARGET → PRESENT of the current back buffer
in each of the two passes; followed from PRESENT, every barrier finds the back
buffer in its `StateBefore`, each pass leaves it in PRESENT again, and it is
in PRESENT at the end of the list that is submitted and presented. -/
theorem C12_back_buffer_states (d3d : D3D12Global) :
    (UI.Build_CmdList (Build_CmdList (Reset_CommandList d3d))).cmdList
        = (frameCommands d3d).1 ++ (frameCommands d3d).2 ∧
    transitions (frameCommands d3d).1 =
      [(.backBuffer d3d.frameIndex, .PRESENT, .RENDER_TARGET),
       (.backBuffer d3d.frameIndex, .RENDER_TARGET, .PRESENT)] ∧
    transitions (frameCommands d3d).2 =
      [(.backBuffer d3d.frameIndex, .PRESENT, .RENDER_TARGET),
       (.backBuffer d3d.frameIndex, .RENDER_TARGET, .PRESENT)] ∧
    trackState (.backBuffer d3d.frameIndex) .PRESENT (frameCommands d3d).1 = some .PRESENT ∧
    trackState (.backBuffer d3d.frameIndex) .PRESENT (frameCommands d3d).2 = some .PRESENT ∧
    trackState (.backBuffer d3d.frameIndex) .PRESENT
      ((frameCommands d3d).1 ++ (frameCommands d3d).2) = some .PRESENT ∧
    (Submit_CmdList (UI.Build_CmdList (Build_CmdList (Reset_CommandList d3d)))).cmdList
        = (frameCommands d3d).1 ++ (frameCommands d3d).2 := by
  simp [frameCommands, Build_CmdList, UI.Build_CmdList, Reset_CommandList, Submit_CmdList,
    Close, ExecuteCommandLists, Signal, incrementFenceValue, transitions, trackState]

/-- C13 as stated fails: the commands of `D3D12::Build_CmdList` are the first
twelve of the frame, with the core's barrier-out at index 11; the overlay's
draw is not among them, it is command 15, after the core's barrier-out. -/
theorem C13_counterexample :
    (Build_CmdList (Reset_CommandList {})).cmdList.length = 12 ∧
    (UI.Build_CmdList (Build_CmdList (Reset_CommandList {}))).cmdList.take 12
      = (Build_CmdList (Reset_CommandList {})).cmdList ∧
    (UI.Build_CmdList (Build_CmdList (Reset_CommandList {}))).cmdList[0]?
      = some (.ResourceBarrier (.backBuffer 0) .PRESENT .RENDER_TARGET
          D3D12_RESOURCE_BARRIER_ALL_SUBRESOURCES) ∧
    (UI.Build_CmdList (Build_CmdList (Reset_CommandList {}))).cmdList[11]?
      = some (.ResourceBarrier (.backBuffer 0) .RENDER_TARGET .PRESENT
          D3D12_RESOURCE_BARRIER_ALL_SUBRESOURCES) ∧
    Command.ImGuiRenderDrawData ∉
      (UI.Build_CmdList (Build_CmdList (Reset_CommandList {}))).cmdList.take 12 ∧
    (UI.Build_CmdList (Build_CmdList (Reset_CommandList {}))).cmdList[15]?
      = some .ImGuiRenderDrawData := by
  decide

/-- C13, amended: the overlay's draw is appended to the command list the core
builds, after all commands of `D3D12::Build_CmdList` (which end with the
core's barrier-out and hold no overlay draw), strictly between a barrier-in
and a barrier-out that `UI::Build_CmdList` records itself. -/
theorem C13_overlay_after_core (d3d : D3D12Global) :
    ∃ core : List Command,
      (Build_CmdList d3d).cmdList = d3d.cmdList ++ core ∧
      core.head? = some (.ResourceBarrier (.backBuffer d3d.frameIndex) .PRESENT .RENDER_TARGET
          D3D12_RESOURCE_BARRIER_ALL_SUBRESOURCES) ∧
      core.getLast? = some (.ResourceBarrier (.backBuffer d3d.frameIndex) .RENDER_TARGET
          .PRESENT D3D12_RESOURCE_BARRIER_ALL_SUBRESOURCES) ∧
      Command.ImGuiRenderDrawData ∉ core ∧
      (UI.Build_CmdList (Build_CmdList d3d)).cmdList = d3d.cmdList ++ core ++
        [.ResourceBarrier (.backBuffer d3d.frameIndex) .PRESENT .RENDER_TARGET
            D3D12_RESOURCE_BARRIER_ALL_SUBRESOURCES,
         .OMSetRenderTargets .rtvHeap d3d.frameIndex,
         .SetDescriptorHeaps .uiDescriptorHeap,
         .ImGuiRenderDrawData,
         .ResourceBarrier (.backBuffer d3d.frameIndex) .RENDER_TARGET .PRESENT
            D3D12_RESOURCE_BARRIER_ALL_SUBRESOURCES] := by
  refine ⟨_, rfl, rfl, rfl, ?_, ?_⟩
  · simp
  · simp [UI.Build_CmdList, Build_CmdList]

/-! ## Descriptor slots -/

theorem Create_BackBuffer_RTV_eq (layout : HeapLayout) :
    Create_BackBuffer_RTV layout =
      ([layout.slot .rtvHeap 0, layout.slot .rtvHeap 1], layout.slot .rtvHeap 2) := by
  simp [Create_BackBuffer_RTV, Create_BackBuffer_RTV.loop, HeapLayout.slot]
  omega

theorem rtvHandle_eq (layout : HeapLayout) (index : Nat)
    (hm : layout.increment .rtvHeap * index < 4294967296) :
    Build_CmdList.rtvHandle layout index = layout.slot .rtvHeap index := by
  simp [Build_CmdList.rtvHandle, HeapLayout.slot, mulUINT_eq hm, Nat.mul_comm]

theorem slot_inside_iff (layout : HeapLayout) (heap : Heap) (index : Nat)
    (hs : 0 < layout.increment heap) :
    layout.inside (layout.slot heap index) ↔
      index < Create_Descriptor_Heaps.NumDescriptors heap := by
  unfold HeapLayout.inside HeapLayout.slot
  simp only [Nat.le_add_right, true_and, Nat.add_lt_add_iff_left]
  exact Nat.mul_lt_mul_right hs

theorem slot_injective (layout : HeapLayout) (heap : Heap) (i j : Nat)
    (hs : 0 < layout.increment heap) (h : layout.slot heap i = layout.slot heap j) : i = j := by
  have hp : (layout.slot heap i).ptr = (layout.slot heap j).ptr := by rw [h]
  simp only [HeapLayout.slot, Nat.add_left_cancel_iff] at hp
  exact Nat.eq_of_mul_eq_mul_right hs hp

/-- C15: every descriptor handle the program uses is a slot of its heap with
an index below the capacity: `Create_BackBuffer_RTV` stores slots 0 and 1 of
the two-slot render-target heap; `Build_CmdList` computes slot `frameIndex`,
which is below 2, and both passes of a frame set slot `frameIndex` as render
target; the two noise textures get slots 0 and 1 of the two-slot
shader-resource heap, which are different handles; the overlay gets slot 0 of
its one-slot heap. -/
theorem C15_indices_below_capacity (layout : HeapLayout) (d3d : D3D12Global)
    (hr : layout.increment .rtvHeap < 4294967296)
    (hs : 0 < layout.increment .descriptorHeap) :
    ((Create_BackBuffer_RTV layout).1 = [layout.slot .rtvHeap 0, layout.slot .rtvHeap 1] ∧
      1 < Create_Descriptor_Heaps.NumDescriptors .rtvHeap) ∧
    (Build_CmdList.rtvHandle layout d3d.frameIndex = layout.slot .rtvHeap d3d.frameIndex ∧
      (d3d.frameIndex : Nat) < Create_Descriptor_Heaps.NumDescriptors .rtvHeap ∧
      renderTargetSlots ((frameCommands d3d).1 ++ (frameCommands d3d).2)
        = [(.rtvHeap, (d3d.frameIndex : Nat)), (.rtvHeap, (d3d.frameIndex : Nat))]) ∧
    (Load_Blue_Noise_Texture.handle layout = layout.slot .descriptorHeap 0 ∧
      Load_Blue_Noise_Texture_Array.handle layout = layout.slot .descriptorHeap 1 ∧
      1 < Create_Descriptor_Heaps.NumDescriptors .descriptorHeap ∧
      Load_Blue_Noise_Texture.handle layout ≠ Load_Blue_Noise_Texture_Array.handle layout) ∧
    (UI.Init.handle layout = layout.slot .uiDescriptorHeap 0 ∧
      0 < Create_Descriptor_Heaps.NumDescriptors .uiDescriptorHeap) := by
  have hf : (d3d.frameIndex : Nat) < 2 := d3d.frameIndex.isLt
  have hm : layout.increment .rtvHeap * (d3d.frameIndex : Nat) < 4294967296 := by
    have : layout.increment .rtvHeap * (d3d.frameIndex : Nat) ≤ layout.increment .rtvHeap * 1 :=
      Nat.mul_le_mul_left _ (by omega)
    omega
  refine ⟨⟨by rw [Create_BackBuffer_RTV_eq], by decide⟩, ⟨rtvHandle_eq layout _ hm, hf, ?_⟩,
    ⟨?_, ?_, by decide, ?_⟩, ?_, by decide⟩
  · simp [frameCommands, Build_CmdList, UI.Build_CmdList, Reset_CommandList, renderTargetSlots]
  · simp [Load_Blue_Noise_Texture.handle, HeapLayout.slot]
  · simp [Load_Blue_Noise_Texture_Array.handle, HeapLayout.slot]
  · intro h
    have hp : (Load_Blue_Noise_Texture.handle layout).ptr
        = (Load_Blue_Noise_Texture_Array.handle layout).ptr := by rw [h]
    simp only [Load_Blue_Noise_Texture.handle, Load_Blue_Noise_Texture_Array.handle] at hp
    omega
  · simp [UI.Init.handle, HeapLayout.slot]

/-- C15, at the sample layout and the initial state. -/
theorem C15_indices_below_capacity_witness :
    ((Create_BackBuffer_RTV sampleLayout).1
        = [sampleLayout.slot .rtvHeap 0, sampleLayout.slot .rtvHeap 1] ∧
      1 < Create_Descriptor_Heaps.NumDescriptors .rtvHeap) ∧
    (Build_CmdList.rtvHandle sampleLayout ({} : D3D12Global).frameIndex
        = sampleLayout.slot .rtvHeap ({} : D3D12Global).frameIndex ∧
      (({} : D3D12Global).frameIndex : Nat) < Create_Descriptor_Heaps.NumDescriptors .rtvHeap ∧
      renderTargetSlots ((frameCommands {}).1 ++ (frameCommands {}).2)
        = [(.rtvHeap, (({} : D3D12Global).frameIndex : Nat)),
           (.rtvHeap, (({} : D3D12Global).frameIndex : Nat))]) ∧
    (Load_Blue_Noise_Texture.handle sampleLayout = sampleLayout.slot .descriptorHeap 0 ∧
      Load_Blue_Noise_Texture_Array.handle sampleLayout = sampleLayout.slot .descriptorHeap 1 ∧
      1 < Create_Descriptor_Heaps.NumDescriptors .descriptorHeap ∧
      Load_Blue_Noise_Texture.handle sampleLayout
        ≠ Load_Blue_Noise_Texture_Array.handle sampleLayout) ∧
    (UI.Init.handle sampleLayout = sampleLayout.slot .uiDescriptorHeap 0 ∧
      0 < Create_Descriptor_Heaps.NumDescriptors .uiDescriptorHeap) :=
  C15_indices_below_capacity sampleLayout {} (by decide) (by decide)

/-! ## Error paths -/

@[simp] theorem perform_crashed (e : Effect) (p : Process) :
    (p.perform e).crashed = p.crashed := by
  unfold Process.perform
  split <;> simp_all

theorem perform_effects (e : Effect) (p : Process) (h : p.crashed = false) :
    (p.perform e).effects = p.effects ++ [e] := by
  simp [Process.perform, h]

@[simp] theorem Validate_crashed (hr : HRESULT) (msg : String) (p : Process) :
    (Validate hr msg p).crashed = p.crashed := by
  unfold Validate
  split <;> simp

theorem Validate_failed (hr : HRESULT) (msg : String) (p : Process)
    (hp : p.crashed = false) (h : FAILED hr = true) :
    Validate hr msg p =
      { p with effects := p.effects ++ [.MessageBox msg, .PostQuitMessage EXIT_FAILURE] } := by
  simp [Validate, h, Process.perform, hp]

theorem Validate_succeeded (hr : HRESULT) (msg : String) (p : Process)
    (h : FAILED hr = false) : Validate hr msg p = p := by
  simp [Validate, h]

theorem crash_spec (s : String) (p : Process) (hp : p.crashed = false) :
    p.crash s = { effects := p.effects ++ [.nullDereference s], crashed := true } := by
  simp [Process.crash, hp]

theorem Compile_Shader_failed_status (env : CompileEnv) (blob : Option IDxcBlob) (p : Process)
    (h : FAILED env.hrStatus = true) : (Compile_Shader env blob p).1 = blob := by
  unfold Compile_Shader
  simp only [h, if_true]
  split
  · rfl
  · split <;> rfl

theorem Compile_Shader_running (env : CompileEnv) (blob : Option IDxcBlob) (p : Process)
    (hc : FAILED env.hrCompile = false)
    (he : FAILED env.hrStatus = true → FAILED env.hrErrorBuffer = false) :
    (Compile_Shader env blob p).2.crashed = p.crashed := by
  unfold Compile_Shader
  simp only [hc]
  by_cases hs : FAILED env.hrStatus = true
  · simp [hs, he hs]
  · simp [hs]

/-- C16: the code breaks the claim.  When the vertex shader compiles and the
compiler reports a failure status for the pixel shader (its error buffer being
available), `Load_Shaders` leaves `psBytecode` null and `Init` goes on to
`Create_PSO`, which dereferences it: the process stops at
`resources.psBytecode->GetBufferSize()`. -/
theorem C16_Create_PSO_reached_with_null_blob (vs ps : CompileEnv) (pso : PSOEnv)
    (bytecode : IDxcBlob)
    (hv₁ : FAILED vs.hrCompile = false) (hv₂ : FAILED vs.hrStatus = false)
    (hv₃ : vs.result = some bytecode)
    (hp₁ : FAILED ps.hrCompile = false) (hp₂ : FAILED ps.hrStatus = true)
    (hp₃ : FAILED ps.hrErrorBuffer = false) :
    (Init.pipeline vs ps pso {} {}).1.vsBytecode = some bytecode ∧
    (Init.pipeline vs ps pso {} {}).1.psBytecode = none ∧
    (Init.pipeline vs ps pso {} {}).2.crashed = true ∧
    (Init.pipeline vs ps pso {} {}).2.effects.getLast?
      = some (.nullDereference "resources.psBytecode->GetBufferSize()") := by
  have e₁ : (Compile_Shader vs none {}).1 = some bytecode := by
    unfold Compile_Shader
    simp [hv₁, hv₂, hv₃]
  have e₂ : ∀ q, (Compile_Shader ps none q).1 = none := fun q =>
    Compile_Shader_failed_status ps none q hp₂
  have c₁ : (Compile_Shader vs none {}).2.crashed = false :=
    Compile_Shader_running vs none {} hv₁ (by simp [hv₂])
  have c₂ : (Compile_Shader ps none (Compile_Shader vs none {}).2).2.crashed = false := by
    rw [Compile_Shader_running ps none _ hp₁ (fun _ => hp₃), c₁]
  have hl : Load_Shaders vs ps {} {} =
      ({ vsBytecode := some bytecode, psBytecode := none },
        (Compile_Shader ps none (Compile_Shader vs none {}).2).2) := by
    simp [Load_Shaders, e₁, e₂]
  simp only [Init.pipeline, hl, Create_PSO, crash_spec _ _ c₂]
  simp

/-- C16, at a pixel shader whose source has an error. -/
theorem C16_Create_PSO_reached_with_null_blob_witness :
    (Init.pipeline compileOk compileError psoOk {} {}).1.vsBytecode = some [68, 88] ∧
    (Init.pipeline compileOk compileError psoOk {} {}).1.psBytecode = none ∧
    (Init.pipeline compileOk compileError psoOk {} {}).2.crashed = true ∧
    (Init.pipeline compileOk compileError psoOk {} {}).2.effects.getLast?
      = some (.nullDereference "resources.psBytecode->GetBufferSize()") :=
  C16_Create_PSO_reached_with_null_blob compileOk compileError psoOk [68, 88]
    (by decide) (by decide) rfl (by decide) (by decide) (by decide)

/-- C17: when the status the compiler reports is a failure, `Compile_Shader`
returns with `*blob` unchanged, so the pointers of `Load_Shaders`, null
before the call, stay null; `*blob` differs after the call only when the
status is a success, in which case it holds what `GetResult` stored. -/
theorem C17_blob_written_only_on_success (env : CompileEnv) (blob : Option IDxcBlob)
    (p : Process) :
    (FAILED env.hrStatus = true → (Compile_Shader env blob p).1 = blob) ∧
    ((Compile_Shader env blob p).1 ≠ blob → FAILED env.hrStatus = false) ∧
    (FAILED env.hrCompile = false → FAILED env.hrStatus = false →
      (Compile_Shader env blob p).1 = env.result) ∧
    (({} : D3D12Resources).vsBytecode = none ∧ ({} : D3D12Resources).psBytecode = none) ∧
    (FAILED env.hrStatus = true →
      (∀ ps, (Load_Shaders env ps {} p).1.vsBytecode = none) ∧
      (∀ vs, (Load_Shaders vs env {} p).1.psBytecode = none)) := by
  refine ⟨Compile_Shader_failed_status env blob p, ?_, ?_, ⟨rfl, rfl⟩, ?_⟩
  · intro hne
    by_contra hs
    exact hne (Compile_Shader_failed_status env blob p (by simpa using hs))
  · intro hc hs
    unfold Compile_Shader
    simp [hc, hs]
  · intro hs
    refine ⟨fun ps => ?_, fun vs => ?_⟩
    · simp only [Load_Shaders]
      exact Compile_Shader_failed_status env none p hs
    · simp only [Load_Shaders]
      exact Compile_Shader_failed_status env none _ hs

/-- C18 as stated fails in its middle part: the error `Present` reports does
not depend on the removal reason.  For a present that failed with
`DXGI_ERROR_DEVICE_REMOVED`, the reasons `DXGI_ERROR_DEVICE_HUNG` and
`DXGI_ERROR_DEVICE_REMOVED` lead to the same effects, a message box with the
fixed text and the quit message. -/
theorem C18_counterexample :
    DXGI_ERROR_DEVICE_HUNG ≠ DXGI_ERROR_DEVICE_REMOVED ∧
    Present.result DXGI_ERROR_DEVICE_REMOVED DXGI_ERROR_DEVICE_HUNG {}
      = Present.result DXGI_ERROR_DEVICE_REMOVED DXGI_ERROR_DEVICE_REMOVED {} ∧
    Present.result DXGI_ERROR_DEVICE_REMOVED DXGI_ERROR_DEVICE_HUNG {} =
      { effects := [.swapChainPresent, .GetDeviceRemovedReason,
          .MessageBox "Error: failed to present!", .PostQuitMessage 1] } := by
  decide

/-- C18, amended: when present fails and `GetDeviceRemovedReason` returns a
failing code, `Present` calls the swap chain once (no retry), asks for the
removal reason, shows the fixed text "Error: failed to present!" and posts
the quit message with `EXIT_FAILURE`; these effects are the same for every
failing reason. -/
theorem C18_Present_device_lost (hr reason : HRESULT) (p : Process)
    (hp : p.crashed = false) (h₁ : FAILED hr = true) (h₂ : FAILED reason = true) :
    Present.result hr reason p =
      { p with effects := p.effects ++
          [.swapChainPresent, .GetDeviceRemovedReason,
           .MessageBox "Error: failed to present!", .PostQuitMessage EXIT_FAILURE] } ∧
    ∀ reason', FAILED reason' = true →
      Present.result hr reason' p = Present.result hr reason p := by
  have key : ∀ r, FAILED r = true → Present.result hr r p =
      { p with effects := p.effects ++
          [.swapChainPresent, .GetDeviceRemovedReason,
           .MessageBox "Error: failed to present!", .PostQuitMessage EXIT_FAILURE] } := by
    intro r hr'
    simp [Present.result, h₁, Validate, hr', Process.perform, hp]
  exact ⟨key reason h₂, fun r hr' => by rw [key r hr', key reason h₂]⟩

/-- C18 amended, at a removed device that reports a hung GPU. -/
theorem C18_Present_device_lost_witness :
    Present.result DXGI_ERROR_DEVICE_REMOVED DXGI_ERROR_DEVICE_HUNG {} =
      { ({} : Process) with effects := ({} : Process).effects ++
          [.swapChainPresent, .GetDeviceRemovedReason,
           .MessageBox "Error: failed to present!", .PostQuitMessage EXIT_FAILURE] } ∧
    ∀ reason', FAILED reason' = true →
      Present.result DXGI_ERROR_DEVICE_REMOVED reason' {}
        = Present.result DXGI_ERROR_DEVICE_REMOVED DXGI_ERROR_DEVICE_HUNG {} :=
  C18_Present_device_lost DXGI_ERROR_DEVICE_REMOVED DXGI_ERROR_DEVICE_HUNG {} rfl
    (by decide) (by decide)

/-- C19 as stated fails: when present fails with
`DXGI_ERROR_WAS_STILL_DRAWING` and `GetDeviceRemovedReason` reports `S_OK`,
`Present` shows no message and posts no quit message. -/
theorem C19_counterexample :
    FAILED DXGI_ERROR_WAS_STILL_DRAWING = true ∧
    Present.result DXGI_ERROR_WAS_STILL_DRAWING S_OK {} =
      { effects := [.swapChainPresent, .GetDeviceRemovedReason] } ∧
    (Present.result DXGI_ERROR_WAS_STILL_DRAWING S_OK {}).quitRequested = false := by
  decide

/-- C19, amended: `Present` reports an error and posts the quit message
exactly when present fails and `GetDeviceRemovedReason` returns a failing
code as well; a failing present with a succeeding reason adds nothing but the
two calls, and a succeeding present nothing but the call itself. -/
theorem C19_Present_reports_iff (hr reason : HRESULT) (p : Process)
    (hp : p.crashed = false) (hq : p.quitRequested = false) :
    ((Present.result hr reason p).quitRequested = true ↔
      (FAILED hr = true ∧ FAILED reason = true)) ∧
    (FAILED hr = true → FAILED reason = true →
      (Present.result hr reason p).effects = p.effects ++
        [.swapChainPresent, .GetDeviceRemovedReason,
         .MessageBox "Error: failed to present!", .PostQuitMessage EXIT_FAILURE]) ∧
    (FAILED hr = true → FAILED reason = false →
      (Present.result hr reason p).effects = p.effects ++
        [.swapChainPresent, .GetDeviceRemovedReason]) ∧
    (FAILED hr = false →
      (Present.result hr reason p).effects = p.effects ++ [.swapChainPresent]) := by
  unfold Process.quitRequested at hq ⊢
  by_cases h₁ : FAILED hr = true <;> by_cases h₂ : FAILED reason = true <;>
    simp [Present.result, Validate, Process.perform, hp, h₁, h₂, hq]

/-- C19 amended, at a failing present on a device that is not removed. -/
theorem C19_Present_reports_iff_witness :
    ((Present.result DXGI_ERROR_WAS_STILL_DRAWING S_OK {}).quitRequested = true ↔
      (FAILED DXGI_ERROR_WAS_STILL_DRAWING = true ∧ FAILED S_OK = true)) ∧
    (FAILED DXGI_ERROR_WAS_STILL_DRAWING = true → FAILED S_OK = true →
      (Present.result DXGI_ERROR_WAS_STILL_DRAWING S_OK {}).effects = ({} : Process).effects ++
        [.swapChainPresent, .GetDeviceRemovedReason,
         .MessageBox "Error: failed to present!", .PostQuitMessage EXIT_FAILURE]) ∧
    (FAILED DXGI_ERROR_WAS_STILL_DRAWING = true → FAILED S_OK = false →
      (Present.result DXGI_ERROR_WAS_STILL_DRAWING S_OK {}).effects = ({} : Process).effects ++
        [.swapChainPresent, .GetDeviceRemovedReason]) ∧
    (FAILED DXGI_ERROR_WAS_STILL_DRAWING = false →
      (Present.result DXGI_ERROR_WAS_STILL_DRAWING S_OK {}).effects
        = ({} : Process).effects ++ [.swapChainPresent]) :=
  C19_Present_reports_iff DXGI_ERROR_WAS_STILL_DRAWING S_OK {} rfl rfl

/-- C20 as stated fails: `Validate` returns to its caller.  When the creation
of the constant buffer fails, `Create_ConstantBuffer` shows the message, posts
the quit message and then executes its next statement, the `Map` call through
the pointer that holds no buffer. -/
theorem C20_counterexample :
    FAILED E_FAIL = true ∧
    (Validate E_FAIL "Error: failed to create buffer resource!" {}).crashed = false ∧
    (Create_ConstantBuffer E_FAIL S_OK {} {}).1.bandingCB = none ∧
    (Create_ConstantBuffer E_FAIL S_OK {} {}).2 =
      { effects := [.CreateCommittedResource,
          .MessageBox "Error: failed to create buffer resource!", .PostQuitMessage 1,
          .nullDereference "resources.bandingCB->Map(...)"],
        crashed := true } := by
  decide

/-- C20, amended: for a failing code `Validate` shows the message and posts
the quit message with `EXIT_FAILURE`, and nothing else: the process is
running when `Validate` returns; for a succeeding code it has no effect. -/
theorem C20_Validate (hr : HRESULT) (msg : String) (p : Process) (hp : p.crashed = false) :
    (FAILED hr = true →
      Validate hr msg p =
        { effects := p.effects ++ [.MessageBox msg, .PostQuitMessage EXIT_FAILURE],
          crashed := false }) ∧
    (FAILED hr = false → Validate hr msg p = p) := by
  refine ⟨fun h => ?_, Validate_succeeded hr msg p⟩
  rw [Validate_failed hr msg p hp h, ← hp]

/-- C20 amended, at `E_FAIL` in a process without earlier effects. -/
theorem C20_Validate_witness :
    (FAILED E_FAIL = true →
      Validate E_FAIL "Error: failed to create buffer resource!" {} =
        { effects := ({} : Process).effects ++
            [.MessageBox "Error: failed to create buffer resource!",
             .PostQuitMessage EXIT_FAILURE],
          crashed := false }) ∧
    (FAILED E_FAIL = false → Validate E_FAIL "Error: failed to create buffer resource!" {} = {}) :=
  C20_Validate E_FAIL "Error: failed to create buffer resource!" {} rfl


/-! ## Device creation, viewport and scissor -/

theorem Create_Device_loop_software (adapters : List Adapter)
    (h : ∀ a, a ∈ adapters → a.software = true) :
    ∀ (index : Nat) (p : Process), Create_Device.loop adapters index p = (none, p) := by
  induction adapters with
  | nil => intro index p; rfl
  | cons a rest ih =>
    intro index p
    have ha : a.software = true := h a (List.mem_cons_self a rest)
    simp only [Create_Device.loop, ha, if_true]
    exact ih (fun b hb => h b (List.mem_cons_of_mem a hb)) (index + 1) p

theorem Create_Device_loop_some (adapters : List Adapter) :
    ∀ (index k : Nat) (p q : Process), Create_Device.loop adapters index p = (some k, q) →
      index ≤ k ∧ ∃ a, adapters[k - index]? = some a ∧ a.software = false ∧
        FAILED a.hrCreateDevice = false ∧
        ∀ j b, j < k - index → adapters[j]? = some b →
          b.software = true ∨ FAILED b.hrCreateDevice = true := by
  induction adapters with
  | nil => intro index k p q h; simp [Create_Device.loop] at h
  | cons a rest ih =>
    intro index k p q h
    unfold Create_Device.loop at h
    by_cases hs : a.software = true
    · simp only [hs, if_true] at h
      obtain ⟨hk, b, hb, h1, h2, h3⟩ := ih (index + 1) k p q h
      have e : k - index = (k - (index + 1)) + 1 := by omega
      refine ⟨by omega, b, by rw [e]; simpa using hb, h1, h2, ?_⟩
      intro j c hj hc
      cases j with
      | zero =>
        simp only [List.getElem?_cons_zero, Option.some.injEq] at hc
        subst hc
        exact Or.inl hs
      | succ j =>
        simp only [List.getElem?_cons_succ] at hc
        exact h3 j c (by omega) hc
    · have hs' : a.software = false := by simpa using hs
      simp only [hs', Bool.false_eq_true, if_false] at h
      by_cases hf : FAILED a.hrCreateDevice = true
      · simp only [hf, if_true] at h
        obtain ⟨hk, b, hb, h1, h2, h3⟩ := ih (index + 1) k _ q h
        have e : k - index = (k - (index + 1)) + 1 := by omega
        refine ⟨by omega, b, by rw [e]; simpa using hb, h1, h2, ?_⟩
        intro j c hj hc
        cases j with
        | zero =>
          simp only [List.getElem?_cons_zero, Option.some.injEq] at hc
          subst hc
          exact Or.inr hf
        | succ j =>
          simp only [List.getElem?_cons_succ] at hc
          exact h3 j c (by omega) hc
      · have hf' : FAILED a.hrCreateDevice = false := by simpa using hf
        simp only [hf', Bool.false_eq_true, if_false, Prod.mk.injEq, Option.some.injEq] at h
        refine ⟨by omega, a, ?_, hs', hf', ?_⟩
        · rw [← h.1]; simp
        · intro j c hj
          omega

theorem Create_Device_loop_effects (adapters : List Adapter) :
    ∀ (index : Nat) (p : Process), p.crashed = false →
      ∃ more, (Create_Device.loop adapters index p).2
          = { p with effects := p.effects ++ more } ∧
        ((Create_Device.loop adapters index p).1 = none →
          (∃ a, a ∈ adapters ∧ a.software = false) →
          Effect.MessageBox "Error: failed to create a D3D12 device!" ∈ more) := by
  induction adapters with
  | nil =>
    intro index p _
    exact ⟨[], by simp [Create_Device.loop], fun _ h => by simp at h⟩
  | cons a rest ih =>
    intro index p hp
    unfold Create_Device.loop
    by_cases hs : a.software = true
    · simp only [hs, if_true]
      obtain ⟨more, e, hm⟩ := ih (index + 1) p hp
      refine ⟨more, e, fun hn hex => hm hn ?_⟩
      obtain ⟨b, hb, hbs⟩ := hex
      rcases List.mem_cons.1 hb with rfl | hb'
      · rw [hs] at hbs; exact absurd hbs (by decide)
      · exact ⟨b, hb', hbs⟩
    · have hs' : a.software = false := by simpa using hs
      simp only [hs', Bool.false_eq_true, if_false]
      by_cases hf : FAILED a.hrCreateDevice = true
      · simp only [hf, if_true]
        have hv := Validate_failed E_FAIL "Error: failed to create a D3D12 device!" p hp
          (by decide)
        obtain ⟨more, e, _⟩ := ih (index + 1)
          (Validate E_FAIL "Error: failed to create a D3D12 device!" p) (by simp [hp])
        refine ⟨[.MessageBox "Error: failed to create a D3D12 device!",
          .PostQuitMessage EXIT_FAILURE] ++ more, ?_, fun _ _ => by simp⟩
        rw [e, hv]
        simp
      · have hf' : FAILED a.hrCreateDevice = false := by simpa using hf
        simp only [hf', Bool.false_eq_true, if_false]
        exact ⟨[], by simp, fun hn => by simp at hn⟩

/-- C21: the code breaks the first part of the claim.  When every enumerated
adapter is a software adapter, or none is enumerated, `Create_Device` ends
with `d3d.device` null and without any effect: nothing is reported.  (The
rest holds: a device is created on the first non-software adapter for which
the creation succeeds, and when no device is created although a hardware
adapter was enumerated, the failure is reported.) -/
theorem C21_Create_Device (adapters : List Adapter) (p : Process) (hp : p.crashed = false) :
    ((∀ a, a ∈ adapters → a.software = true) → Create_Device S_OK adapters p = (none, p)) ∧
    (∀ k q, Create_Device S_OK adapters p = (some k, q) →
      ∃ a, adapters[k]? = some a ∧ a.software = false ∧ FAILED a.hrCreateDevice = false ∧
        ∀ j b, j < k → adapters[j]? = some b →
          b.software = true ∨ FAILED b.hrCreateDevice = true) ∧
    ((Create_Device S_OK adapters p).1 = none → (∃ a, a ∈ adapters ∧ a.software = false) →
      ∃ more, (Create_Device S_OK adapters p).2 = { p with effects := p.effects ++ more } ∧
        Effect.MessageBox "Error: failed to create a D3D12 device!" ∈ more) := by
  have e : Create_Device S_OK adapters p = Create_Device.loop adapters 0 p := by
    simp [Create_Device, Validate, S_OK, FAILED]
  rw [e]
  refine ⟨fun h => Create_Device_loop_software adapters h 0 p, ?_, ?_⟩
  · intro k q h
    obtain ⟨_, a, ha, h1, h2, h3⟩ := Create_Device_loop_some adapters 0 k p q h
    exact ⟨a, by simpa using ha, h1, h2, fun j b hj hb => h3 j b (by simpa using hj) hb⟩
  · intro hn hex
    obtain ⟨more, e1, hm⟩ := Create_Device_loop_effects adapters 0 p hp
    exact ⟨more, e1, hm hn hex⟩

/-- C21, on a machine that enumerates only the software adapter: no device,
no report. -/
theorem C21_Create_Device_witness :
    ((∀ a, a ∈ softwareOnly → a.software = true) →
      Create_Device S_OK softwareOnly {} = (none, {})) ∧
    (∀ k q, Create_Device S_OK softwareOnly {} = (some k, q) →
      ∃ a, softwareOnly[k]? = some a ∧ a.software = false ∧ FAILED a.hrCreateDevice = false ∧
        ∀ j b, j < k → softwareOnly[j]? = some b →
          b.software = true ∨ FAILED b.hrCreateDevice = true) ∧
    ((Create_Device S_OK softwareOnly {}).1 = none →
      (∃ a, a ∈ softwareOnly ∧ a.software = false) →
      ∃ more, (Create_Device S_OK softwareOnly {}).2
          = { ({} : Process) with effects := ({} : Process).effects ++ more } ∧
        Effect.MessageBox "Error: failed to create a D3D12 device!" ∈ more) :=
  C21_Create_Device softwareOnly {} rfl

theorem floatOfInt_small (x : Int) (h : x.natAbs < 16777216) : floatOfInt x = x := by
  simp [floatOfInt, h]

/-- C23 as stated fails for large sizes: the viewport holds `float`s, and for
the width 16777217 `Create_Viewport` stores 16777216. -/
theorem C23_counterexample :
    Create_Viewport 16777217 360 =
      { TopLeftX := 0, TopLeftY := 0, Width := 16777216, Height := 360,
        MinDepth := 0, MaxDepth := 1 } ∧
    (Create_Viewport 16777217 360).Width ≠ 16777217 := by
  decide

/-- C23, amended: for a width and a height of magnitude below 2^24
`Create_Viewport` yields top-left (0,0), that width and that height (depth
range 0 to 1); for every width and height `Create_Scissor` yields
{0, 0, width, height}; width 640 and height 360 give {0,0,640,360} for
both. -/
theorem C23_viewport_and_scissor (w h : Int) (hw : w.natAbs < 16777216)
    (hh : h.natAbs < 16777216) :
    Create_Viewport w h =
      { TopLeftX := 0, TopLeftY := 0, Width := w, Height := h, MinDepth := 0, MaxDepth := 1 } ∧
    (∀ w' h' : Int, Create_Scissor w' h' = { left := 0, top := 0, right := w', bottom := h' }) ∧
    Create_Viewport 640 360 =
      { TopLeftX := 0, TopLeftY := 0, Width := 640, Height := 360,
        MinDepth := 0, MaxDepth := 1 } ∧
    Create_Scissor 640 360 = { left := 0, top := 0, right := 640, bottom := 360 } ∧
    ({} : ConfigInfo).width = 640 ∧ ({} : ConfigInfo).height = 360 := by
  refine ⟨?_, fun _ _ => rfl, by decide, rfl, rfl, rfl⟩
  simp [Create_Viewport, floatOfInt_small w hw, floatOfInt_small h hh]

/-- C23 amended, at 1920 × 1080. -/
theorem C23_viewport_and_scissor_witness :
    Create_Viewport 1920 1080 =
      { TopLeftX := 0, TopLeftY := 0, Width := 1920, Height := 1080,
        MinDepth := 0, MaxDepth := 1 } ∧
    (∀ w' h' : Int, Create_Scissor w' h' = { left := 0, top := 0, right := w', bottom := h' }) ∧
    Create_Viewport 640 360 =
      { TopLeftX := 0, TopLeftY := 0, Width := 640, Height := 360,
        MinDepth := 0, MaxDepth := 1 } ∧
    Create_Scissor 640 360 = { left := 0, top := 0, right := 640, bottom := 360 } ∧
    ({} : ConfigInfo).width = 640 ∧ ({} : ConfigInfo).height = 360 :=
  C23_viewport_and_scissor 1920 1080 (by decide) (by decide)

/-! ## The constant buffer, blocking and fence targets in the run -/

theorem waitCalls_append (t u : List Event) : waitCalls (t ++ u) = waitCalls t + waitCalls u := by
  simp [waitCalls]

theorem Render_trace {env : FrameEnv} {d3d d3d' : D3D12Global} (h : Render env d3d = some d3d') :
    ∃ more blocked, d3d'.trace = d3d.trace ++ more ∧
      moveBlocked more = [blocked] ∧
      waitCalls more = 1 + (if blocked = true then 1 else 0) := by
  simp only [Render, Option.bind_eq_bind, Option.bind_eq_some, Option.some.injEq] at h
  obtain ⟨d5, hw, d7, hm, hd⟩ := h
  obtain ⟨d5', hw', _, _, _, _, _, t5, _⟩ :=
    WaitForGPU_spec (gpuAdvance env.gWait (Submit_CmdList (UI.Build_CmdList (Build_CmdList d3d))))
  rw [hw] at hw'
  obtain rfl : d5 = d5' := Option.some.inj hw'
  obtain ⟨_, _, _, _, _, t7, _⟩ := MoveToNextFrame_some hm
  have P4 : (Present env.next d5).trace = d5.trace ++ [.present] := rfl
  rw [P4] at t7
  generalize (gpuAdvance env.gMove (Signal ((Present env.next d5).fenceValues
    (Present env.next d5).frameIndex) (Present env.next d5))).fenceCompleted = obs at t7
  generalize (Present env.next d5).fenceValues (Present env.next d5).swapChainIndex = target
    at t7
  generalize (Present env.next d5).fenceValues (Present env.next d5).frameIndex = cur at t7
  generalize (Present env.next d5).swapChainIndex = idx at t7
  have t0 : (gpuAdvance env.gWait (Submit_CmdList (UI.Build_CmdList (Build_CmdList d3d)))).trace
      = d3d.trace ++ [.close, .executeCommandLists d3d.cmdListAlloc,
          .signal (d3d.fenceValues d3d.frameIndex + 1)] := by
    simp [Submit_CmdList, Signal, incrementFenceValue, ExecuteCommandLists, Close,
      UI.Build_CmdList, Build_CmdList]
  rw [t0] at t5
  generalize (gpuAdvance env.gWait (Submit_CmdList (UI.Build_CmdList
    (Build_CmdList d3d)))).fenceValues (gpuAdvance env.gWait (Submit_CmdList (UI.Build_CmdList
    (Build_CmdList d3d)))).frameIndex = v at t5
  subst hd
  refine ⟨[.close, .executeCommandLists d3d.cmdListAlloc,
      .signal (d3d.fenceValues d3d.frameIndex + 1), .signal v, .setEventOnCompletion v,
      .waitForSingleObject, .present, .signal cur, .getCurrentBackBufferIndex idx,
      .getCompletedValue obs target] ++
      (if obs < target then [.setEventOnCompletion target, .waitForSingleObject] else []) ++
      [.resetAllocator (gpuAdvance env.gReset d7).frameIndex
          (gpuAdvance env.gReset d7).fenceCompleted
          (decide (Event.executeCommandLists (gpuAdvance env.gReset d7).frameIndex ∈
            (gpuAdvance env.gReset d7).cmdQueue)),
       .resetCommandList (gpuAdvance env.gReset d7).frameIndex],
    decide (obs < target), ?_, ?_, ?_⟩
  · simp only [Reset_CommandList, gpuAdvance_trace, t7, t5, List.append_assoc]
    rfl
  · by_cases hb : obs < target <;> simp [moveBlocked, hb]
  · by_cases hb : obs < target <;> simp [waitCalls, hb]

theorem renderLoop_waits (frames : List FrameEnv) :
    ∀ {d3d : D3D12Global}, FrameInv d3d → flipChain d3d.frameIndex frames →
      ∃ d3d', renderLoop frames d3d = some d3d' ∧
        moveBlocked d3d'.trace = moveBlocked d3d.trace ++ List.replicate frames.length false ∧
        waitCalls d3d'.trace = waitCalls d3d.trace + frames.length := by
  induction frames with
  | nil => intro d3d _ _; exact ⟨d3d, rfl, by simp, by simp⟩
  | cons env rest ih =>
    intro d3d h hflip
    obtain ⟨hnext, hrest⟩ := hflip
    obtain ⟨d1, blocked, h1, hinv, e1, _, e3, e4⟩ := Render_spec env h
    have hne : env.next ≠ d3d.frameIndex := by
      rw [hnext]
      generalize d3d.frameIndex = i
      revert i; decide
    obtain ⟨more, b, t1, m1, w1⟩ := Render_trace h1
    have hb : b = blocked := by
      rw [t1, moveBlocked_append, m1] at e3
      simpa using e3
    rw [hb, e4 hne] at w1 m1
    rw [← e1] at hrest
    obtain ⟨d2, h2, b2, w2⟩ := ih hinv hrest
    refine ⟨d2, by simp [renderLoop, h1, h2], ?_, ?_⟩
    · rw [b2, t1, moveBlocked_append, m1]
      simp [List.replicate_succ]
    · rw [w2, t1, waitCalls_append, w1]
      simp only [List.length_cons, Bool.false_eq_true, if_false]
      omega

set_option maxRecDepth 100000 in
/-- C26 as stated fails without a condition on the swap chain: when the swap
chain reports buffer 1 again after the second `Present` (the fence's
completed value going 3, then 6), the second `MoveToNextFrame` finds the
completed value 6 below the target 7 and blocks; of the four waits of the run
one is that of `MoveToNextFrame`. -/
theorem C26_counterexample :
    ((run sampleInit flipThenStuck).map fun d3d =>
      (moveBlocked d3d.trace, moveComparisons d3d.trace, waitCalls d3d.trace))
      = some ([false, true], [(3, 0), (6, 7)], 4) := by
  decide

/-- C26, amended: in every run of `Init` followed by `Render` iterations on a
two-buffer flip chain (every `Present` advances the current back buffer),
whatever the progress of the GPU, the run returns, at every
`GetCompletedValue` comparison of `MoveToNextFrame` the completed value is not
below the target, so the blocking branch is never taken, and the run has
waited on the fence event exactly once per `WaitForGPU` call: once in `Init`
and once in every frame. -/
theorem C26_MoveToNextFrame_never_blocks (init : InitEnv) (frames : List FrameEnv)
    (h : (Init init).isSome) (hflip : flipChain init.first frames) :
    ∃ d3d, run init frames = some d3d ∧
      moveBlocked d3d.trace = List.replicate frames.length false ∧
      (∀ value target, Event.getCompletedValue value target ∈ d3d.trace → ¬ value < target) ∧
      waitCalls d3d.trace = 1 + frames.length := by
  obtain ⟨⟨d0, r⟩, h0⟩ := Option.isSome_iff_exists.1 h
  have e0 := Init_some h0
  have hfi : d0.frameIndex = init.first := by rw [e0]
  have hb : moveBlocked d0.trace = [] := by rw [e0]; rfl
  have hw : waitCalls d0.trace = 1 := by rw [e0]; rfl
  obtain ⟨d, h1, h2, h3⟩ := renderLoop_waits frames (FrameInv_Init h0) (by rwa [hfi])
  rw [hb, List.nil_append] at h2
  refine ⟨d, ?_, h2, ?_, by rw [h3, hw]⟩
  · unfold run
    rw [h0]
    exact h1
  · intro value target hmem hlt
    have hm : decide (value < target) ∈ moveBlocked d.trace := by
      unfold moveBlocked
      exact List.mem_filterMap.2 ⟨_, hmem, rfl⟩
    rw [h2] at hm
    have := (List.mem_replicate.1 hm).2
    simp [hlt] at this

set_option maxRecDepth 100000 in
/-- C26 amended, at the sample run of two frames. -/
theorem C26_MoveToNextFrame_never_blocks_witness :
    (Init sampleInit).isSome ∧ flipChain sampleInit.first sampleFrames ∧
    ∃ d3d, run sampleInit sampleFrames = some d3d ∧
      moveBlocked d3d.trace = List.replicate sampleFrames.length false ∧
      (∀ value target, Event.getCompletedValue value target ∈ d3d.trace → ¬ value < target) ∧
      waitCalls d3d.trace = 1 + sampleFrames.length :=
  ⟨by decide, by simp [flipChain, sampleFrames, sampleInit],
    C26_MoveToNextFrame_never_blocks sampleInit sampleFrames (by decide)
      (by simp [flipChain, sampleFrames, sampleInit])⟩

theorem submitStep_ne_unused (use : AllocatorUse) (e : Event) (h : use ≠ .unused) :
    AllocatorUse.submitStep use e ≠ .unused := by
  cases e <;> cases use <;> simp_all [AllocatorUse.submitStep]

theorem submissionUse_eq (trace : List Event)
    (h : ∃ a, Event.executeCommandLists a ∈ trace) :
    submissionUse trace ≠ .unused ∧ ∃ a, submissionUse trace = allocatorUse a trace := by
  induction trace using List.reverseRecOn with
  | nil => simp at h
  | append_singleton l e ih =>
    have hs : submissionUse (l ++ [e]) = AllocatorUse.submitStep (submissionUse l) e := by
      simp [submissionUse]
    have ha : ∀ a, allocatorUse a (l ++ [e]) = AllocatorUse.step a (allocatorUse a l) e := by
      intro a
      simp [allocatorUse]
    by_cases he : ∃ b, e = Event.executeCommandLists b
    · obtain ⟨b, rfl⟩ := he
      refine ⟨by rw [hs]; simp [AllocatorUse.submitStep], b, ?_⟩
      rw [hs, ha]
      simp [AllocatorUse.submitStep, AllocatorUse.step]
    · have hl : ∃ a, Event.executeCommandLists a ∈ l := by
        obtain ⟨a, hmem⟩ := h
        rcases List.mem_append.1 hmem with h1 | h1
        · exact ⟨a, h1⟩
        · simp only [List.mem_singleton] at h1
          exact absurd ⟨a, h1.symm⟩ he
      obtain ⟨hne, a, hea⟩ := ih hl
      refine ⟨by rw [hs]; exact submitStep_ne_unused _ _ hne, a, ?_⟩
      rw [hs, ha, hea]
      cases e <;> first | rfl | exact absurd ⟨_, rfl⟩ he

theorem Quiet_submission {d3d : D3D12Global} (h : Quiet d3d)
    (hex : ∃ a, Event.executeCommandLists a ∈ d3d.trace) :
    (∀ a, Event.executeCommandLists a ∉ d3d.cmdQueue) ∧
    ∃ value, submissionUse d3d.trace = .fenced value ∧ value ≤ d3d.fenceCompleted := by
  refine ⟨h.idle, ?_⟩
  obtain ⟨hne, a, hea⟩ := submissionUse_eq d3d.trace hex
  have hf := h.fenced a
  rw [← hea] at hf
  cases hu : submissionUse d3d.trace with
  | unused => exact absurd hu hne
  | awaitingSignal => rw [hu] at hf; exact absurd hf (by simp [AllocatorUse.resetSafe])
  | fenced v => rw [hu] at hf; exact ⟨v, rfl, hf⟩

theorem updateStates_spec (frames : List FrameEnv) :
    ∀ {d3d : D3D12Global}, FrameInv d3d → (∃ a, Event.executeCommandLists a ∈ d3d.trace) →
      ∃ states, updateStates frames d3d = some states ∧ states.length = frames.length ∧
        ∀ s, s ∈ states → Quiet s ∧ ∃ a, Event.executeCommandLists a ∈ s.trace := by
  induction frames with
  | nil => intro d3d _ _; exact ⟨[], rfl, rfl, by simp⟩
  | cons env rest ih =>
    intro d3d h hex
    obtain ⟨d1, _, h1, hinv, _⟩ := Render_spec env h
    obtain ⟨more, _, t1, _, _⟩ := Render_trace h1
    have hex1 : ∃ a, Event.executeCommandLists a ∈ d1.trace := by
      obtain ⟨a, ha⟩ := hex
      exact ⟨a, by rw [t1]; exact List.mem_append_left _ ha⟩
    obtain ⟨states, h2, hlen, hall⟩ := ih hinv hex1
    refine ⟨d3d :: states, by simp [updateStates, h1, h2], by simp [hlen], ?_⟩
    intro s hs
    rcases List.mem_cons.1 hs with rfl | hs'
    · exact ⟨h.quiet, hex⟩
    · exact hall s hs'

/-- C22: in every run of `Init` followed by `Update` + `Render` iterations,
whatever the progress of the GPU and whatever buffer the swap chain reports,
the run returns, and in every state in which `Update` overwrites the mapped
constant buffer the queue holds no command list that is still to be executed
and the fence's completed value is at least the value that was scheduled for
signal behind the most recent `ExecuteCommandLists`. -/
theorem C22_constants_overwritten_when_idle (init : InitEnv) (frames : List FrameEnv)
    (h : (Init init).isSome) :
    ∃ d3d resources states, Init init = some (d3d, resources) ∧
      updateStates frames d3d = some states ∧ states.length = frames.length ∧
      ∀ s, s ∈ states →
        (∀ a, Event.executeCommandLists a ∉ s.cmdQueue) ∧
        ∃ value, submissionUse s.trace = .fenced value ∧ value ≤ s.fenceCompleted := by
  obtain ⟨⟨d0, r⟩, h0⟩ := Option.isSome_iff_exists.1 h
  have e0 := Init_some h0
  have hex : ∃ a, Event.executeCommandLists a ∈ d0.trace := ⟨init.first, by rw [e0]; simp⟩
  obtain ⟨states, h1, h2, h3⟩ := updateStates_spec frames (FrameInv_Init h0) hex
  exact ⟨d0, r, states, h0, h1, h2, fun s hs => Quiet_submission (h3 s hs).1 (h3 s hs).2⟩

set_option maxRecDepth 100000 in
/-- C22, at the sample run of two frames. -/
theorem C22_constants_overwritten_when_idle_witness :
    (Init sampleInit).isSome ∧
    ∃ d3d resources states, Init sampleInit = some (d3d, resources) ∧
      updateStates sampleFrames d3d = some states ∧ states.length = sampleFrames.length ∧
      ∀ s, s ∈ states →
        (∀ a, Event.executeCommandLists a ∉ s.cmdQueue) ∧
        ∃ value, submissionUse s.trace = .fenced value ∧ value ≤ s.fenceCompleted :=
  ⟨by decide, C22_constants_overwritten_when_idle sampleInit sampleFrames (by decide)⟩

theorem SyncCall_apply_target {call : SyncCall} {d3d d3d' : D3D12Global}
    (h : call.apply d3d = some d3d') :
    d3d'.fenceValues d3d'.frameIndex =
      d3d.fenceValues d3d.frameIndex + (if call.isCall = true then 1 else 0) := by
  cases call with
  | Submit_CmdList =>
    simp only [SyncCall.apply, Option.some.injEq] at h
    subst h
    simp [SyncCall.isCall, Submit_CmdList, Signal, incrementFenceValue, ExecuteCommandLists, Close]
  | WaitForGPU =>
    simp only [SyncCall.apply] at h
    obtain ⟨d', hw, f1, f2, _⟩ := WaitForGPU_spec d3d
    rw [h] at hw
    obtain rfl : d3d' = d' := Option.some.inj hw
    rw [f1, f2]
    simp [SyncCall.isCall]
  | MoveToNextFrame reported g =>
    simp only [SyncCall.apply] at h
    obtain ⟨f1, f2, _⟩ := MoveToNextFrame_some h
    rw [f1, f2]
    simp [SyncCall.isCall]
  | gpu g =>
    simp only [SyncCall.apply, Option.some.injEq] at h
    subst h
    simp [SyncCall.isCall]

theorem runCalls_target (calls : List SyncCall) :
    ∀ {d3d d3d' : D3D12Global}, runCalls calls d3d = some d3d' →
      d3d'.fenceValues d3d'.frameIndex =
        d3d.fenceValues d3d.frameIndex + (calls.filter SyncCall.isCall).length := by
  induction calls with
  | nil =>
    intro d3d d3d' h
    simp only [runCalls, Option.some.injEq] at h
    subst h
    simp
  | cons call rest ih =>
    intro d3d d3d' h
    unfold runCalls at h
    cases h1 : call.apply d3d with
    | none => rw [h1] at h; simp at h
    | some d1 =>
      rw [h1] at h
      rw [ih h, SyncCall_apply_target h1]
      by_cases hc : call.isCall = true
      · simp [hc]; omega
      · simp [hc]

/-- C27: from `fenceValues = {0,0}` and `Create_Fence`, every sequence of
`Submit_CmdList`, `WaitForGPU` and `MoveToNextFrame` calls (any GPU progress
in between, any index reported by the swap chain) runs to completion; each of
these calls makes the target of the slot that is current after it one more
than the target of the slot that was current before it; after `k` calls the
current target is `1 + k`, and it is strictly greater than the other slot's
target. -/
theorem C27_current_target_counts_calls (first : Fin 2) (calls : List SyncCall) :
    (∀ j, ({} : D3D12Global).fenceValues j = 0) ∧
    (fenceCreated first).fenceValues (fenceCreated first).frameIndex = 1 ∧
    (∀ (call : SyncCall) (d3d d3d' : D3D12Global), call.isCall = true →
      call.apply d3d = some d3d' →
      d3d'.fenceValues d3d'.frameIndex = d3d.fenceValues d3d.frameIndex + 1) ∧
    ∃ d3d, runCalls calls (fenceCreated first) = some d3d ∧
      d3d.fenceValues d3d.frameIndex = 1 + (calls.filter SyncCall.isCall).length ∧
      ∀ j, j ≠ d3d.frameIndex → d3d.fenceValues j < d3d.fenceValues d3d.frameIndex := by
  have h1 : (fenceCreated first).fenceValues (fenceCreated first).frameIndex = 1 := by
    simp [fenceCreated, Create_Fence, incrementFenceValue, Create_SwapChain, Create_CommandList,
      Close]
  refine ⟨fun _ => rfl, h1, ?_, ?_⟩
  · intro call d3d d3d' hc h
    rw [SyncCall_apply_target h, hc]
    simp
  · obtain ⟨d3d, hr, hinv⟩ := runCalls_spec calls (SyncInv_fenceCreated first)
    exact ⟨d3d, hr, by rw [runCalls_target calls hr, h1], hinv.other_lt⟩

/-! ## Source reads and staging ranges -/

theorem iteration_congr (p q : Nat → UInt8) (oldStride newStride : Nat) (v : List UInt8)
    (i : Nat) (h : ∀ j, j ∈ FormatTexture.iterationReads oldStride i → p j = q j) :
    FormatTexture.iteration p oldStride newStride v i
      = FormatTexture.iteration q oldStride newStride v i := by
  have h0 := h (mulUINT i oldStride) (by simp [FormatTexture.iterationReads])
  have h1 := h (addUINT (mulUINT i oldStride) 1) (by simp [FormatTexture.iterationReads])
  have h2 := h (addUINT (mulUINT i oldStride) 2) (by simp [FormatTexture.iterationReads])
  simp only [FormatTexture.iteration, h0, h1, h2]

theorem set_append_cons (pre : CharArray) (x a : Option Nat) (tl : CharArray) :
    (pre ++ x :: tl).set pre.length a = pre ++ a :: tl := by
  induction pre with
  | nil => rfl
  | cons p pre ih => simp [List.set, ih]

theorem wcstombs_loop_length (n : Nat) (pwcs : List Nat) :
    ∀ (count : Nat) (s : CharArray), (wcstombs.loop n pwcs count s).length = s.length := by
  induction pwcs with
  | nil =>
    intro count s
    unfold wcstombs.loop
    split <;> simp
  | cons c rest ih =>
    intro count s
    unfold wcstombs.loop
    split
    · split
      · rfl
      · split
        · simp
        · rw [ih]; simp
    · rfl

theorem wcstombs_length (str : CharArray) (token : String) (n : Nat) :
    (wcstombs str token n).length = str.length :=
  wcstombs_loop_length n _ 0 str

theorem wcstombs_loop_plain (n : Nat) (pwcs : List Nat) :
    ∀ (pre tail : CharArray), (∀ c, c ∈ pwcs → 0 < c ∧ c ≤ 255) →
      pre.length + pwcs.length < n → pwcs.length < tail.length →
      wcstombs.loop n pwcs pre.length (pre ++ tail) =
        pre ++ pwcs.map some ++ some 0 :: tail.drop (pwcs.length + 1) := by
  induction pwcs with
  | nil =>
    intro pre tail _ hn ht
    cases tail with
    | nil => simp at ht
    | cons x tl =>
      unfold wcstombs.loop
      rw [if_pos (by simpa using hn), set_append_cons]
      simp
  | cons c rest ih =>
    intro pre tail hall hn ht
    cases tail with
    | nil => simp at ht
    | cons x tl =>
      obtain ⟨hc0, hc1⟩ := hall c (List.mem_cons_self c rest)
      simp only [List.length_cons] at hn ht
      unfold wcstombs.loop
      rw [if_pos (by omega), if_neg (by omega), if_neg (by omega), set_append_cons]
      have e : pre ++ some c :: tl = (pre ++ [some c]) ++ tl := by simp
      have el : pre.length + 1 = (pre ++ [some c]).length := by simp
      rw [e, el, ih (pre ++ [some c]) tl (fun d hd => hall d (List.mem_cons_of_mem c hd))
        (by simp; omega) (by omega)]
      simp

theorem wcstombs_plain (str : CharArray) (token : String) (hs : str.length = 256)
    (hp : plainToken token) :
    wcstombs str token 256 =
      (token.toList.map fun c => some c.toNat) ++ some 0 :: str.drop (token.length + 1) := by
  obtain ⟨hl, hc⟩ := hp
  have hlen : (token.toList.map Char.toNat).length = token.length := by
    rw [List.length_map]
    rfl
  have h := wcstombs_loop_plain 256 (token.toList.map Char.toNat) [] str
    (by
      intro c hmem
      obtain ⟨ch, hch, rfl⟩ := List.mem_map.1 hmem
      exact hc ch hch)
    (by simp only [List.length_nil, Nat.zero_add, hlen]; exact hl)
    (by rw [hlen, hs]; exact hl)
  simp only [List.length_nil, List.nil_append, hlen, List.map_map] at h
  exact h

theorem strcmp_cstring (bytes : List Nat) :
    ∀ (literal : List Nat) (tail : CharArray), (∀ b, b ∈ bytes → 0 < b) →
      (∀ c, c ∈ literal → 0 < c) →
      strcmp (bytes.map some ++ some 0 :: tail) literal = some (decide (bytes = literal)) := by
  induction bytes with
  | nil =>
    intro literal tail _ hl
    cases literal with
    | nil => simp [strcmp]
    | cons c l =>
      have := hl c (List.mem_cons_self c l)
      have hne : ¬ 0 = c := by omega
      simp [strcmp, hne]
  | cons b bs ih =>
    intro literal tail hb hl
    have hb0 := hb b (List.mem_cons_self b bs)
    cases literal with
    | nil =>
      have hne : ¬ b = 0 := by omega
      simp [strcmp, hne]
    | cons c l =>
      by_cases hbc : b = c
      · subst hbc
        have hstep : strcmp (some b :: (bs.map some ++ some 0 :: tail)) (b :: l)
            = strcmp (bs.map some ++ some 0 :: tail) l := by
          simp [strcmp]
        rw [List.map_cons, List.cons_append, hstep,
          ih l tail (fun x hx => hb x (List.mem_cons_of_mem b hx))
            (fun x hx => hl x (List.mem_cons_of_mem b hx))]
        simp
      · simp [strcmp, hbc]

theorem digits_cstring (bytes : List Nat) :
    ∀ (acc : Nat) (tail : CharArray),
      atoi.digits (bytes.map some ++ some 0 :: tail) acc
        = atoi.digits (bytes.map some ++ [some 0]) acc := by
  induction bytes with
  | nil => intro acc tail; simp [atoi.digits]
  | cons b bs ih =>
    intro acc tail
    simp only [List.map_cons, List.cons_append, atoi.digits]
    split
    · exact ih _ tail
    · rfl

theorem signed_cstring (bytes : List Nat) (tail : CharArray) :
    atoi.signed (bytes.map some ++ some 0 :: tail)
      = atoi.signed (bytes.map some ++ [some 0]) := by
  cases bytes with
  | nil => simp [atoi.signed, atoi.digits]
  | cons b bs =>
    by_cases h45 : b = 45
    · subst h45
      simp only [List.map_cons, List.cons_append, atoi.signed, digits_cstring bs 0 tail]
    · by_cases h43 : b = 43
      · subst h43
        simp only [List.map_cons, List.cons_append, atoi.signed, digits_cstring bs 0 tail]
      · have e1 : atoi.signed ((b :: bs).map some ++ some 0 :: tail)
            = (atoi.digits ((b :: bs).map some ++ some 0 :: tail) 0).map fun n => (n : Int) := by
          simp only [List.map_cons, List.cons_append]
          unfold atoi.signed
          split
          · next heq => simp only [List.cons.injEq, Option.some.injEq] at heq; exact absurd heq.1 h45
          · next heq => simp only [List.cons.injEq, Option.some.injEq] at heq; exact absurd heq.1 h43
          · rfl
        have e2 : atoi.signed ((b :: bs).map some ++ [some 0])
            = (atoi.digits ((b :: bs).map some ++ [some 0]) 0).map fun n => (n : Int) := by
          simp only [List.map_cons, List.cons_append]
          unfold atoi.signed
          split
          · next heq => simp only [List.cons.injEq, Option.some.injEq] at heq; exact absurd heq.1 h45
          · next heq => simp only [List.cons.injEq, Option.some.injEq] at heq; exact absurd heq.1 h43
          · rfl
        rw [e1, e2, digits_cstring (b :: bs) 0 tail]

theorem skip_cstring (bytes : List Nat) :
    ∀ (tail : CharArray),
      atoi.skip (bytes.map some ++ some 0 :: tail) = atoi.skip (bytes.map some ++ [some 0]) := by
  induction bytes with
  | nil =>
    intro tail
    have h0 : isspace 0 = false := by decide
    simp only [List.map_nil, List.nil_append, atoi.skip, h0]
    exact signed_cstring [] tail
  | cons b bs ih =>
    intro tail
    simp only [List.map_cons, List.cons_append, atoi.skip]
    split
    · exact ih tail
    · exact signed_cstring (b :: bs) tail

theorem atoi_plain (str : CharArray) (token : String) (hs : str.length = 256)
    (hp : plainToken token) : atoi (wcstombs str token 256) = tokenValue token := by
  rw [wcstombs_plain str token hs hp]
  unfold atoi tokenValue
  have e : (token.toList.map fun c => some c.toNat)
      = (token.toList.map Char.toNat).map some := by simp [List.map_map]
  rw [e, skip_cstring]
  rfl

theorem toNat_injective : Function.Injective Char.toNat := by
  intro a b h
  apply Char.ext
  apply UInt32.ext
  exact h

theorem strcmp_plain (str : CharArray) (token literal : String) (hs : str.length = 256)
    (hp : plainToken token) (hl : ∀ c, c ∈ literal.toList → 0 < c.toNat) :
    strcmp (wcstombs str token 256) (literal.toList.map Char.toNat)
      = some (decide (token = literal)) := by
  rw [wcstombs_plain str token hs hp]
  have e : (token.toList.map fun c => some c.toNat)
      = (token.toList.map Char.toNat).map some := by simp [List.map_map]
  rw [e, strcmp_cstring]
  · congr 1
    apply decide_eq_decide.2
    constructor
    · intro h
      have := (List.map_injective_iff.2 toNat_injective) h
      exact String.ext this
    · intro h; rw [h]
  · intro b hb
    obtain ⟨ch, hch, rfl⟩ := List.mem_map.1 hb
    exact (hp.2 ch hch).1
  · intro b hb
    obtain ⟨ch, hch, rfl⟩ := List.mem_map.1 hb
    exact hl ch hch

theorem isFlag_iff (token : String) :
    isFlag token = true ↔ token = "-width" ∨ token = "-height" ∨ token = "-vsync" := by
  simp [isFlag, or_assoc]

theorem strcmp_width (str : CharArray) (token : String) (hs : str.length = 256)
    (hp : plainToken token) :
    strcmp (wcstombs str token 256) [45, 119, 105, 100, 116, 104]
      = some (decide (token = "-width")) :=
  strcmp_plain str token "-width" hs hp (by decide)

theorem strcmp_height (str : CharArray) (token : String) (hs : str.length = 256)
    (hp : plainToken token) :
    strcmp (wcstombs str token 256) [45, 104, 101, 105, 103, 104, 116]
      = some (decide (token = "-height")) :=
  strcmp_plain str token "-height" hs hp (by decide)

theorem strcmp_vsync (str : CharArray) (token : String) (hs : str.length = 256)
    (hp : plainToken token) :
    strcmp (wcstombs str token 256) [45, 118, 115, 121, 110, 99]
      = some (decide (token = "-vsync")) :=
  strcmp_plain str token "-vsync" hs hp (by decide)

theorem loop_flag (argv : List String) (fuel i : Nat) (str : CharArray) (config : ConfigInfo)
    (reads : List Nat) (token : String) (hi : i < argv.length) (hstr : argv[i]? = some token)
    (hs : str.length = 256) (hp : plainToken token)
    (hv : ∀ value, argv[i + 1]? = some value → plainToken value)
    (hf : isFlag token = true) :
    ParseCommandLine.loop argv (fuel + 1) i str config reads =
      match argv[i + 1]? with
      | none => { reads := reads ++ [i, i + 1], config := none }
      | some value =>
        match tokenValue value with
        | none => { reads := reads ++ [i, i + 1], config := none }
        | some _ =>
          ParseCommandLine.loop argv fuel (i + 2)
            (wcstombs (wcstombs str token 256) value 256) (applyFlag config (token, value))
            (reads ++ [i, i + 1]) := by
  have hs' : (wcstombs str token 256).length = 256 := by rw [wcstombs_length, hs]
  rw [ParseCommandLine.loop, if_pos hi, hstr]
  simp only [strcmp_width str token hs hp, strcmp_height str token hs hp,
    strcmp_vsync str token hs hp]
  cases hnext : argv[i + 1]? with
  | none =>
    rcases (isFlag_iff token).1 hf with h | h | h <;> subst h <;> simp
  | some value =>
    have hpv := hv value hnext
    have hat := atoi_plain (wcstombs str token 256) value hs' hpv
    rcases (isFlag_iff token).1 hf with h | h | h <;> subst h <;>
      cases htv : tokenValue value <;> simp [hat, htv, applyFlag]

theorem loop_other (argv : List String) (fuel i : Nat) (str : CharArray) (config : ConfigInfo)
    (reads : List Nat) (token : String) (hi : i < argv.length) (hstr : argv[i]? = some token)
    (hs : str.length = 256) (hp : plainToken token) (hf : isFlag token = false) :
    ParseCommandLine.loop argv (fuel + 1) i str config reads =
      ParseCommandLine.loop argv fuel (i + 1) (wcstombs str token 256) config (reads ++ [i]) := by
  have h := (isFlag_iff token).not.1 (by simp [hf])
  simp only [not_or] at h
  rw [ParseCommandLine.loop, if_pos hi, hstr]
  simp [strcmp_width str token hs hp, strcmp_height str token hs hp,
    strcmp_vsync str token hs hp, h.1, h.2.1, h.2.2]

theorem loop_spec (argv : List String) :
    ∀ (fuel i : Nat) (str : CharArray) (config : ConfigInfo) (reads : List Nat),
      (∀ j t, i ≤ j → argv[j]? = some t → plainToken t) →
      str.length = 256 → i ≤ argv.length → argv.length - i ≤ fuel →
      (∀ fv, fv ∈ flagValues none (argv.drop i) → (tokenValue fv.2).isSome = true) →
      ParseCommandLine.loop argv fuel i str config reads =
        if danglingFlag none (argv.drop i) = true then
          { reads := reads ++ List.range' i (argv.length - i + 1), config := none }
        else
          { reads := reads ++ List.range' i (argv.length - i)
            config := some ((flagValues none (argv.drop i)).foldl applyFlag config) } := by
  intro fuel
  induction fuel with
  | zero =>
    intro i str config reads _ _ hi hfuel _
    have e : i = argv.length := by omega
    subst e
    simp [ParseCommandLine.loop, danglingFlag, flagValues]
  | succ fuel ih =>
    intro i str config reads hplain hs hi hfuel hfit
    by_cases hlt : i < argv.length
    · have hstr : argv[i]? = some argv[i] := List.getElem?_eq_getElem hlt
      have hdrop : argv.drop i = argv[i] :: argv.drop (i + 1) := List.drop_eq_getElem_cons hlt
      have hp : plainToken argv[i] := hplain i _ (le_refl i) hstr
      have hs' : (wcstombs str argv[i] 256).length = 256 := by rw [wcstombs_length, hs]
      by_cases hf : isFlag argv[i] = true
      · rw [loop_flag argv fuel i str config reads argv[i] hlt hstr hs hp
          (fun value hv => hplain (i + 1) value (by omega) hv) hf]
        rw [hdrop] at hfit ⊢
        by_cases hlt2 : i + 1 < argv.length
        · have hv : argv[i + 1]? = some argv[i + 1] := List.getElem?_eq_getElem hlt2
          have hdrop2 : argv.drop (i + 1) = argv[i + 1] :: argv.drop (i + 2) :=
            List.drop_eq_getElem_cons hlt2
          rw [hdrop2] at hfit ⊢
          simp only [flagValues, hf, if_true] at hfit
          have hsome := hfit (argv[i], argv[i + 1]) (List.mem_cons_self _ _)
          obtain ⟨value, hval⟩ := Option.isSome_iff_exists.1 hsome
          simp only [] at hval
          simp only [hv, hval, danglingFlag, flagValues, hf, if_true, List.foldl_cons]
          rw [ih (i + 2) _ _ _ (fun j t hj ht => hplain j t (by omega) ht)
            (by rw [wcstombs_length, hs']) (by omega) (by omega)
            (fun fv hfv => hfit fv (List.mem_cons_of_mem _ hfv))]
          have r1 : List.range' i (argv.length - i + 1)
              = i :: (i + 1) :: List.range' (i + 2) (argv.length - (i + 2) + 1) := by
            have : argv.length - i + 1 = (argv.length - (i + 2) + 1) + 1 + 1 := by omega
            rw [this, List.range'_succ, List.range'_succ]
          have r2 : List.range' i (argv.length - i)
              = i :: (i + 1) :: List.range' (i + 2) (argv.length - (i + 2)) := by
            have : argv.length - i = (argv.length - (i + 2)) + 1 + 1 := by omega
            rw [this, List.range'_succ, List.range'_succ]
          rw [r1, r2]
          simp
        · have hv : argv[i + 1]? = none := List.getElem?_eq_none (by omega)
          have hdrop2 : argv.drop (i + 1) = [] := List.drop_eq_nil_of_le (by omega)
          have e : argv.length - i + 1 = 2 := by omega
          rw [hv, hdrop2, e]
          simp [danglingFlag, hf, List.range']
      · have hf' : isFlag argv[i] = false := by simpa using hf
        rw [loop_other argv fuel i str config reads argv[i] hlt hstr hs hp hf']
        rw [hdrop] at hfit ⊢
        simp only [flagValues, hf', Bool.false_eq_true, if_false] at hfit
        simp only [danglingFlag, flagValues, hf', Bool.false_eq_true, if_false]
        rw [ih (i + 1) _ _ _ (fun j t hj ht => hplain j t (by omega) ht) hs' (by omega)
          (by omega) hfit]
        have r1 : List.range' i (argv.length - i + 1)
            = i :: List.range' (i + 1) (argv.length - (i + 1) + 1) := by
          have : argv.length - i + 1 = (argv.length - (i + 1) + 1) + 1 := by omega
          rw [this, List.range'_succ]
        have r2 : List.range' i (argv.length - i)
            = i :: List.range' (i + 1) (argv.length - (i + 1)) := by
          have : argv.length - i = (argv.length - (i + 1)) + 1 := by omega
          rw [this, List.range'_succ]
        rw [r1, r2]
        simp
    · have e : i = argv.length := by omega
      subst e
      simp [ParseCommandLine.loop, danglingFlag, flagValues]

theorem loop_reads (argv : List String) :
    ∀ (fuel i : Nat) (str : CharArray) (config : ConfigInfo) (reads : List Nat),
      (∀ j t, i ≤ j → argv[j]? = some t → plainToken t) →
      str.length = 256 → i ≤ argv.length → danglingFlag none (argv.drop i) = false →
      ∀ j, j ∈ (ParseCommandLine.loop argv fuel i str config reads).reads →
        j ∈ reads ∨ j < argv.length := by
  intro fuel
  induction fuel with
  | zero =>
    intro i str config reads _ _ _ _ j hj
    exact Or.inl (by simpa [ParseCommandLine.loop] using hj)
  | succ fuel ih =>
    intro i str config reads hplain hs hi hd j hj
    by_cases hlt : i < argv.length
    · have hstr : argv[i]? = some argv[i] := List.getElem?_eq_getElem hlt
      have hdrop : argv.drop i = argv[i] :: argv.drop (i + 1) := List.drop_eq_getElem_cons hlt
      have hp : plainToken argv[i] := hplain i _ (le_refl i) hstr
      have hs' : (wcstombs str argv[i] 256).length = 256 := by rw [wcstombs_length, hs]
      rw [hdrop] at hd
      by_cases hf : isFlag argv[i] = true
      · rw [loop_flag argv fuel i str config reads argv[i] hlt hstr hs hp
          (fun value hv => hplain (i + 1) value (by omega) hv) hf] at hj
        have hlt2 : i + 1 < argv.length := by
          by_contra hge
          have hdrop2 : argv.drop (i + 1) = [] := List.drop_eq_nil_of_le (by omega)
          rw [hdrop2] at hd
          simp [danglingFlag, hf] at hd
        have hv : argv[i + 1]? = some argv[i + 1] := List.getElem?_eq_getElem hlt2
        have hdrop2 : argv.drop (i + 1) = argv[i + 1] :: argv.drop (i + 2) :=
          List.drop_eq_getElem_cons hlt2
        rw [hdrop2] at hd
        simp only [danglingFlag, hf, if_true] at hd
        rw [hv] at hj
        simp only [] at hj
        have hmem : ∀ k, k ∈ reads ++ [i, i + 1] → k ∈ reads ∨ k < argv.length := by
          intro k hk
          rcases List.mem_append.1 hk with h1 | h1
          · exact Or.inl h1
          · simp only [List.mem_cons, List.mem_singleton, List.not_mem_nil, or_false] at h1
            rcases h1 with rfl | rfl
            · exact Or.inr hlt
            · exact Or.inr hlt2
        cases htv : tokenValue argv[i + 1] with
        | none =>
          rw [htv] at hj
          exact hmem j hj
        | some value =>
          rw [htv] at hj
          rcases ih (i + 2) _ _ _ (fun k t hk ht => hplain k t (by omega) ht)
            (by rw [wcstombs_length, hs']) (by omega) hd j hj with h1 | h1
          · exact hmem j h1
          · exact Or.inr h1
      · have hf' : isFlag argv[i] = false := by simpa using hf
        rw [loop_other argv fuel i str config reads argv[i] hlt hstr hs hp hf'] at hj
        simp only [danglingFlag, hf', Bool.false_eq_true, if_false] at hd
        rcases ih (i + 1) _ _ _ (fun k t hk ht => hplain k t (by omega) ht) hs' (by omega)
          hd j hj with h1 | h1
        · rcases List.mem_append.1 h1 with h2 | h2
          · exact Or.inl h2
          · simp only [List.mem_singleton] at h2
            exact Or.inr (by omega)
        · exact Or.inr h1
    · rw [ParseCommandLine.loop, if_neg hlt] at hj
      exact Or.inl hj

theorem args_plain (program : String) (args : List String)
    (hplain : ∀ t, t ∈ args → plainToken t) :
    ∀ j t, 1 ≤ j → (program :: args)[j]? = some t → plainToken t := by
  intro j t hj ht
  cases j with
  | zero => omega
  | succ k =>
    rw [List.getElem?_cons_succ] at ht
    exact hplain t (List.getElem?_mem ht)

theorem scan_spec (program : String) (args : List String) (config : ConfigInfo)
    (hplain : ∀ t, t ∈ args → plainToken t)
    (hfit : ∀ fv, fv ∈ flagValues none args → (tokenValue fv.2).isSome = true) :
    ParseCommandLine.scan (program :: args) config =
      if danglingFlag none args = true then
        { reads := List.range' 1 (args.length + 1), config := none }
      else
        { reads := List.range' 1 args.length
          config := some ((flagValues none args).foldl applyFlag config) } := by
  unfold ParseCommandLine.scan
  rw [loop_spec (program :: args) _ 1 _ config [] (args_plain program args hplain)
    (List.length_replicate _ _) (by simp) (by simp) (by simpa using hfit)]
  simp

theorem scan_reads (program : String) (args : List String) (config : ConfigInfo)
    (hplain : ∀ t, t ∈ args → plainToken t) (hd : danglingFlag none args = false) :
    ∀ j, j ∈ (ParseCommandLine.scan (program :: args) config).reads →
      j < (program :: args).length := by
  intro j hj
  unfold ParseCommandLine.scan at hj
  rcases loop_reads (program :: args) _ 1 _ config [] (args_plain program args hplain)
    (List.length_replicate _ _) (by simp) (by simpa using hd) j hj with h | h
  · exact absurd h (List.not_mem_nil j)
  · exact h

theorem foldl_applyFlag_width (pairs : List (String × String)) (config : ConfigInfo) :
    (pairs.foldl applyFlag config).width =
      match (pairs.filter fun fv => fv.1 = "-width").getLast? with
      | some fv => (tokenValue fv.2).getD 0
      | none => config.width := by
  induction pairs using List.reverseRecOn with
  | nil => rfl
  | append_singleton l fv ih =>
    rw [List.foldl_append, List.filter_append]
    by_cases h : fv.1 = "-width"
    · simp [h, applyFlag, List.getLast?_append]
    · have hw : (applyFlag (l.foldl applyFlag config) fv).width
          = (l.foldl applyFlag config).width := by
        unfold applyFlag
        simp only [h, if_false]
        split
        · rfl
        · split <;> rfl
      simp only [List.foldl_cons, List.foldl_nil, hw, ih]
      simp [h]

theorem foldl_applyFlag_height (pairs : List (String × String)) (config : ConfigInfo) :
    (pairs.foldl applyFlag config).height =
      match (pairs.filter fun fv => fv.1 = "-height").getLast? with
      | some fv => (tokenValue fv.2).getD 0
      | none => config.height := by
  induction pairs using List.reverseRecOn with
  | nil => rfl
  | append_singleton l fv ih =>
    rw [List.foldl_append, List.filter_append]
    by_cases h : fv.1 = "-height"
    · have hne : ¬ fv.1 = "-width" := by rw [h]; decide
      simp [h, applyFlag, List.getLast?_append]
    · have hw : (applyFlag (l.foldl applyFlag config) fv).height
          = (l.foldl applyFlag config).height := by
        unfold applyFlag
        simp only [h, if_false]
        split
        · rfl
        · split <;> rfl
      simp only [List.foldl_cons, List.foldl_nil, hw, ih]
      simp [h]

theorem foldl_applyFlag_vsync (pairs : List (String × String)) (config : ConfigInfo) :
    (pairs.foldl applyFlag config).vsync =
      match (pairs.filter fun fv => fv.1 = "-vsync").getLast? with
      | some fv => decide ((tokenValue fv.2).getD 0 > 0)
      | none => config.vsync := by
  induction pairs using List.reverseRecOn with
  | nil => rfl
  | append_singleton l fv ih =>
    rw [List.foldl_append, List.filter_append]
    by_cases h : fv.1 = "-vsync"
    · simp [h, applyFlag, List.getLast?_append]
    · have hw : (applyFlag (l.foldl applyFlag config) fv).vsync
          = (l.foldl applyFlag config).vsync := by
        unfold applyFlag
        simp only [h, if_false]
        split
        · rfl
        · split <;> rfl
      simp only [List.foldl_cons, List.foldl_nil, hw, ih]
      simp [h]

theorem ParseCommandLine_eq (program : String) (args : List String) (config : ConfigInfo)
    (p : Process) (hne : args ≠ []) (hplain : ∀ t, t ∈ args → plainToken t)
    (hfit : ∀ fv, fv ∈ flagValues none args → (tokenValue fv.2).isSome = true) :
    ParseCommandLine (some (program :: args)) config p =
      if danglingFlag none args = true then none
      else some (S_OK, (flagValues none args).foldl applyFlag config, p) := by
  have hl : (program :: args).length > 1 := by
    cases args with
    | nil => exact absurd rfl hne
    | cons a rest => simp
  simp only [ParseCommandLine, hl, if_true, scan_spec program args config hplain hfit]
  by_cases hd : danglingFlag none args = true
  · simp [hd]
  · simp [hd]

theorem lastValue_fits (flag : String) (args : List String) (value : String)
    (hfit : ∀ fv, fv ∈ flagValues none args → (tokenValue fv.2).isSome = true)
    (hl : lastValue flag args = some value) : (tokenValue value).isSome = true := by
  unfold lastValue at hl
  cases hg : ((flagValues none args).filter fun fv => fv.1 = flag).getLast? with
  | none => simp [hg] at hl
  | some fv =>
    rw [hg] at hl
    simp only [Option.map_some', Option.some.injEq] at hl
    subst hl
    exact hfit fv (List.mem_of_mem_filter (List.mem_of_getLast?_eq_some hg))

set_option maxRecDepth 100000 in
/-- C24 as stated fails in its last part: with the single argument token
`-width` the loop reads `argv[2]` although `argc` is 2, which is undefined
behaviour; `ParseCommandLine` does not return success.  The same happens for
the three argument tokens `-width -width ☃`, where the last token is not
converted, `str` still holds `-width` and `argv[4]` is read, `argc` being
4. -/
theorem C24_counterexample :
    ParseCommandLine (some ["ColorBanding.exe", "-width"]) {} {} = none ∧
    ParseCommandLine.reads ["ColorBanding.exe", "-width"] = [1, 2] ∧
    ["ColorBanding.exe", "-width"].length = 2 ∧
    ParseCommandLine (some ["ColorBanding.exe", "-width", "-width", "☃"]) {} {} = none ∧
    ParseCommandLine.reads ["ColorBanding.exe", "-width", "-width", "☃"] = [1, 2, 3, 4] ∧
    ["ColorBanding.exe", "-width", "-width", "☃"].length = 4 := by
  decide

/-- C24, amended: with no argument token (`argc ≤ 1`) `ParseCommandLine`
shows a message, returns the failing code `E_FAIL` and leaves the
configuration unchanged, and `wWinMain` returns that code without calling
`Init`; with at least one argument token, every argument token being one
`wcstombs` converts completely (fewer than 256 characters, each between 1 and
255), each flag in flag position being followed by a value token and each such
value standing for a number an `int` holds, `ParseCommandLine` returns `S_OK`
and `wWinMain` goes on to `Init`. -/
theorem C24_ParseCommandLine_result (config : ConfigInfo) (p : Process) :
    (∀ argv : List String, argv.length ≤ 1 →
      ParseCommandLine (some argv) config p =
        some (E_FAIL, config, p.perform (.MessageBox "Incorrect command line usage!")) ∧
      FAILED E_FAIL = true ∧
      wWinMain (some argv) p =
        some (.inl E_FAIL, p.perform (.MessageBox "Incorrect command line usage!"))) ∧
    (∀ (program : String) (args : List String), args ≠ [] →
      (∀ t, t ∈ args → plainToken t) → danglingFlag none args = false →
      (∀ fv, fv ∈ flagValues none args → (tokenValue fv.2).isSome = true) →
      (∃ config', ParseCommandLine (some (program :: args)) config p = some (S_OK, config', p)) ∧
      ∃ config', wWinMain (some (program :: args)) p = some (.inr config', p)) := by
  constructor
  · intro argv h
    have hl : ¬ argv.length > 1 := by omega
    refine ⟨by simp [ParseCommandLine, hl], by decide, ?_⟩
    simp only [wWinMain, ParseCommandLine, hl, if_false]
    rw [if_pos (by decide)]
  · intro program args hne hplain hd hfit
    refine ⟨⟨_, by rw [ParseCommandLine_eq program args config p hne hplain hfit, hd]; rfl⟩, ?_⟩
    refine ⟨(flagValues none args).foldl applyFlag {}, ?_⟩
    unfold wWinMain
    rw [ParseCommandLine_eq program args {} p hne hplain hfit, hd]
    simp [S_OK, EXIT_SUCCESS]

/-- C24 amended, at the command line `-width 800 fast`: success, and `wWinMain`
reaches `Init`. -/
theorem C24_ParseCommandLine_result_witness :
    (∃ config', ParseCommandLine (some ("ColorBanding.exe" :: ["-width", "800", "fast"])) {} {}
      = some (S_OK, config', {})) ∧
    ∃ config', wWinMain (some ("ColorBanding.exe" :: ["-width", "800", "fast"])) {}
      = some (.inr config', {}) :=
  (C24_ParseCommandLine_result {} {}).2 "ColorBanding.exe" ["-width", "800", "fast"]
    (by decide) (by decide) (by decide) (by decide)

set_option maxRecDepth 100000 in
/-- C25 as stated fails.  In `-vsync 1 -width☃ 800` the token `-width☃` is no
recognised flag and no value, yet it is not ignored: its conversion stops at
the seventh character, where `str` still holds the terminating zero of
`-vsync`, so `str` reads `-width` and the width becomes 800.  In
`-width 2147483648` the value following `-width` is no `int`: `atoi` is
undefined for it. -/
theorem C25_counterexample :
    danglingFlag none ["-vsync", "1", "-width☃", "800"] = false ∧
    isFlag "-width☃" = false ∧
    flagValues none ["-vsync", "1", "-width☃", "800"] = [("-vsync", "1")] ∧
    lastValue "-width" ["-vsync", "1", "-width☃", "800"] = none ∧
    ParseCommandLine (some ["ColorBanding.exe", "-vsync", "1", "-width☃", "800"]) {} {}
      = some (S_OK, { width := 800, height := 360, vsync := true }, {}) ∧
    ParseCommandLine (some ["ColorBanding.exe", "-vsync", "1"]) {} {}
      = some (S_OK, { width := 640, height := 360, vsync := true }, {}) ∧
    danglingFlag none ["-width", "2147483648"] = false ∧
    ParseCommandLine (some ["ColorBanding.exe", "-width", "2147483648"]) {} {} = none := by
  decide

/-- C25, amended: for every argument list of tokens `wcstombs` converts
completely (fewer than 256 characters, each between 1 and 255) in which each
flag in flag position is followed by a value token that stands for a number an
`int` holds, `ParseCommandLine` returns, and the configuration it leaves is the
one it was given with the assignments of the flags in flag position applied in
order: the width is the number `atoi` reads in the value of the last `-width`
(unchanged without one), the height likewise for `-height`, `vsync` is whether
the number in the value of the last `-vsync` is positive; tokens that are
neither such a flag nor such a value do not enter the result. -/
theorem C25_ParseCommandLine_config (program : String) (args : List String)
    (config : ConfigInfo) (p : Process) (hplain : ∀ t, t ∈ args → plainToken t)
    (hd : danglingFlag none args = false)
    (hfit : ∀ fv, fv ∈ flagValues none args → (tokenValue fv.2).isSome = true) :
    ∃ hr config' p',
      ParseCommandLine (some (program :: args)) config p = some (hr, config', p') ∧
      (args ≠ [] → hr = S_OK ∧ p' = p) ∧
      config' = (flagValues none args).foldl applyFlag config ∧
      (match lastValue "-width" args with
        | some value => tokenValue value = some config'.width
        | none => config'.width = config.width) ∧
      (match lastValue "-height" args with
        | some value => tokenValue value = some config'.height
        | none => config'.height = config.height) ∧
      (match lastValue "-vsync" args with
        | some value => ∃ number, tokenValue value = some number ∧
            config'.vsync = decide (number > 0)
        | none => config'.vsync = config.vsync) ∧
      ∀ args₂ : List String, (∀ t, t ∈ args₂ → plainToken t) →
        danglingFlag none args₂ = false →
        flagValues none args₂ = flagValues none args → args₂ ≠ [] → args ≠ [] →
        ParseCommandLine (some (program :: args₂)) config p
          = ParseCommandLine (some (program :: args)) config p := by
  have hw : match lastValue "-width" args with
      | some value => tokenValue value = some ((flagValues none args).foldl applyFlag config).width
      | none => ((flagValues none args).foldl applyFlag config).width = config.width := by
    have hf := fun value => lastValue_fits "-width" args value hfit
    rw [foldl_applyFlag_width]
    unfold lastValue at hf ⊢
    cases hg : ((flagValues none args).filter fun fv => fv.1 = "-width").getLast? with
    | none => simp
    | some fv =>
      have h := hf fv.2 (by simp [hg])
      obtain ⟨number, hn⟩ := Option.isSome_iff_exists.1 h
      simp [hn]
  have hh : match lastValue "-height" args with
      | some value => tokenValue value = some ((flagValues none args).foldl applyFlag config).height
      | none => ((flagValues none args).foldl applyFlag config).height = config.height := by
    have hf := fun value => lastValue_fits "-height" args value hfit
    rw [foldl_applyFlag_height]
    unfold lastValue at hf ⊢
    cases hg : ((flagValues none args).filter fun fv => fv.1 = "-height").getLast? with
    | none => simp
    | some fv =>
      have h := hf fv.2 (by simp [hg])
      obtain ⟨number, hn⟩ := Option.isSome_iff_exists.1 h
      simp [hn]
  have hv : match lastValue "-vsync" args with
      | some value => ∃ number, tokenValue value = some number ∧
          ((flagValues none args).foldl applyFlag config).vsync = decide (number > 0)
      | none => ((flagValues none args).foldl applyFlag config).vsync = config.vsync := by
    have hf := fun value => lastValue_fits "-vsync" args value hfit
    rw [foldl_applyFlag_vsync]
    unfold lastValue at hf ⊢
    cases hg : ((flagValues none args).filter fun fv => fv.1 = "-vsync").getLast? with
    | none => simp
    | some fv =>
      have h := hf fv.2 (by simp [hg])
      obtain ⟨number, hn⟩ := Option.isSome_iff_exists.1 h
      simp [hn]
  by_cases hne : args = []
  · subst hne
    refine ⟨E_FAIL, config, p.perform (.MessageBox "Incorrect command line usage!"),
      by simp [ParseCommandLine], fun h => absurd rfl h, rfl, hw, hh, hv, ?_⟩
    intro _ _ _ _ _ h
    exact absurd rfl h
  · refine ⟨S_OK, _, p,
      by rw [ParseCommandLine_eq program args config p hne hplain hfit, hd]; rfl,
      fun _ => ⟨rfl, rfl⟩, rfl, hw, hh, hv, ?_⟩
    intro args₂ hplain₂ hd₂ he hne₂ _
    rw [ParseCommandLine_eq program args config p hne hplain hfit,
      ParseCommandLine_eq program args₂ config p hne₂ hplain₂ (by rw [he]; exact hfit),
      hd, hd₂, he]

set_option maxRecDepth 100000 in
/-- C25 amended, at a command line with every flag, a repeated flag and two
tokens that are ignored: width 1280, height 720, vsync on. -/
theorem C25_ParseCommandLine_config_witness :
    (tokenValue "1280" = some 1280 ∧ tokenValue "720" = some 720 ∧ tokenValue "1" = some 1) ∧
    ∃ hr config' p',
      ParseCommandLine (some ("ColorBanding.exe" ::
        ["-width", "800", "fast", "-vsync", "1", "-width", "1280", "x", "-height", "720"]))
        {} {} = some (hr, config', p') ∧
      (["-width", "800", "fast", "-vsync", "1", "-width", "1280", "x", "-height", "720"] ≠ [] →
        hr = S_OK ∧ p' = {}) ∧
      config' = (flagValues none
        ["-width", "800", "fast", "-vsync", "1", "-width", "1280", "x", "-height", "720"]).foldl
          applyFlag {} ∧
      (match lastValue "-width"
          ["-width", "800", "fast", "-vsync", "1", "-width", "1280", "x", "-height", "720"] with
        | some value => tokenValue value = some config'.width
        | none => config'.width = ({} : ConfigInfo).width) ∧
      (match lastValue "-height"
          ["-width", "800", "fast", "-vsync", "1", "-width", "1280", "x", "-height", "720"] with
        | some value => tokenValue value = some config'.height
        | none => config'.height = ({} : ConfigInfo).height) ∧
      (match lastValue "-vsync"
          ["-width", "800", "fast", "-vsync", "1", "-width", "1280", "x", "-height", "720"] with
        | some value => ∃ number, tokenValue value = some number ∧
            config'.vsync = decide (number > 0)
        | none => config'.vsync = ({} : ConfigInfo).vsync) ∧
      ∀ args₂ : List String, (∀ t, t ∈ args₂ → plainToken t) →
        danglingFlag none args₂ = false →
        flagValues none args₂ = flagValues none
          ["-width", "800", "fast", "-vsync", "1", "-width", "1280", "x", "-height", "720"] →
        args₂ ≠ [] →
        ["-width", "800", "fast", "-vsync", "1", "-width", "1280", "x", "-height", "720"] ≠ [] →
        ParseCommandLine (some ("ColorBanding.exe" :: args₂)) {} {}
          = ParseCommandLine (some ("ColorBanding.exe" ::
              ["-width", "800", "fast", "-vsync", "1", "-width", "1280", "x", "-height", "720"]))
              {} {} :=
  ⟨by decide, C25_ParseCommandLine_config "ColorBanding.exe"
    ["-width", "800", "fast", "-vsync", "1", "-width", "1280", "x", "-height", "720"] {} {}
    (by decide) (by decide) (by decide)⟩

set_option maxRecDepth 100000 in
/-- C30 as stated fails in both parts.  In the argument list `-width -height`
the final token is a flag, but it is the value the `-width` before it
consumes; the parser reads `argv[1]` and `argv[2]` only, `argc` being 3, and
returns `S_OK`.  In `-width -width ☃` every flag in flag position is followed
by another token, but the last token is not converted, `str` still holds
`-width`, and the parser reads `argv[4]`, `argc` being 4. -/
theorem C30_counterexample :
    isFlag "-height" = true ∧
    ParseCommandLine.reads ["ColorBanding.exe", "-width", "-height"] = [1, 2] ∧
    ["ColorBanding.exe", "-width", "-height"].length = 3 ∧
    ParseCommandLine (some ["ColorBanding.exe", "-width", "-height"]) {} {}
      = some (S_OK, { width := 0 }, {}) ∧
    danglingFlag none ["-width", "-width", "☃"] = false ∧
    ParseCommandLine.reads ["ColorBanding.exe", "-width", "-width", "☃"] = [1, 2, 3, 4] ∧
    ["ColorBanding.exe", "-width", "-width", "☃"].length = 4 := by
  decide

/-- C30, amended: for every argument list of tokens `wcstombs` converts
completely (fewer than 256 characters, each between 1 and 255): when each flag
in flag position is followed by another token, `ParseCommandLine` reads `argv`
only at indices below `argc`, and exactly at the indices 1 to `argc - 1` when
the values of the flags stand for numbers an `int` holds; when the final token
is a flag in flag position and the values of the flags before it stand for
numbers an `int` holds, it reads `argv` at the indices 1 to `argc`, the last
one being one past the last argument. -/
theorem C30_ParseCommandLine_reads (program : String) (args : List String)
    (hplain : ∀ t, t ∈ args → plainToken t) :
    (danglingFlag none args = false →
      (∀ j, j ∈ ParseCommandLine.reads (program :: args) → j < (program :: args).length) ∧
      ((∀ fv, fv ∈ flagValues none args → (tokenValue fv.2).isSome = true) →
        ParseCommandLine.reads (program :: args)
          = List.range' 1 ((program :: args).length - 1))) ∧
    (danglingFlag none args = true →
      (∀ fv, fv ∈ flagValues none args → (tokenValue fv.2).isSome = true) →
      ParseCommandLine.reads (program :: args) = List.range' 1 (program :: args).length ∧
      (program :: args).length ∈ ParseCommandLine.reads (program :: args)) := by
  have hr : (∀ fv, fv ∈ flagValues none args → (tokenValue fv.2).isSome = true) →
      ParseCommandLine.reads (program :: args) =
        if danglingFlag none args = true then List.range' 1 (args.length + 1)
        else List.range' 1 args.length := by
    intro hfit
    unfold ParseCommandLine.reads
    cases args with
    | nil => simp [danglingFlag]
    | cons a rest =>
      rw [if_pos (by simp), scan_spec program (a :: rest) {} hplain hfit]
      split <;> rfl
  constructor
  · intro hd
    constructor
    · intro j hj
      unfold ParseCommandLine.reads at hj
      split at hj
      · exact scan_reads program args {} hplain hd j hj
      · exact absurd hj (List.not_mem_nil j)
    · intro hfit
      rw [hr hfit, hd]
      simp
  · intro hd hfit
    rw [hr hfit, hd]
    simp only [if_true, List.length_cons, true_and]
    exact List.mem_range'_1.2 (by omega)

set_option maxRecDepth 100000 in
/-- C30 amended, at the command lines `-width 800 fast` (reads at 1, 2, 3,
`argc` being 4) and `fast -vsync` (reads at 1, 2, 3, `argc` being 3). -/
theorem C30_ParseCommandLine_reads_witness :
    ((∀ j, j ∈ ParseCommandLine.reads ("ColorBanding.exe" :: ["-width", "800", "fast"]) →
        j < ("ColorBanding.exe" :: ["-width", "800", "fast"]).length) ∧
      ParseCommandLine.reads ("ColorBanding.exe" :: ["-width", "800", "fast"]) = [1, 2, 3]) ∧
    (ParseCommandLine.reads ("ColorBanding.exe" :: ["fast", "-vsync"]) = [1, 2, 3] ∧
      ("ColorBanding.exe" :: ["fast", "-vsync"]).length
        ∈ ParseCommandLine.reads ("ColorBanding.exe" :: ["fast", "-vsync"])) :=
  ⟨⟨((C30_ParseCommandLine_reads "ColorBanding.exe" ["-width", "800", "fast"]
      (by decide)).1 (by decide)).1,
    ((C30_ParseCommandLine_reads "ColorBanding.exe" ["-width", "800", "fast"]
      (by decide)).1 (by decide)).2 (by decide)⟩,
   (C30_ParseCommandLine_reads "ColorBanding.exe" ["fast", "-vsync"]
      (by decide)).2 (by decide) (by decide)⟩

end ColorBanding
